import Mathlib

/-!
# Wideband controller: heater state machine and CAN receive path

A shallow embedding of `firmware/heater_control.cpp` and `firmware/heater_control.h`,
and of the receive handler of `firmware/can/can_rusefi.cpp`.

Conventions of the embedding:

* C++ `float` values are rationals (`ℚ`). The scaled storage, the warmup ramp and the
  encoders of the internal protocol and of AEMNet round every operation to binary32
  (`binary32.round`); elsewhere the arithmetic is exact. NaN and infinities are outside
  the model.
* Time is the system clock in microseconds, an integer that every operation
  reading the clock receives as the argument `now`.
* A member function that mutates the controller returns the new controller
  next to its result.
-/

namespace Wideband

/-! ## Single-precision arithmetic

The C++ type `float` is the IEEE 754 binary32 format. Where a result depends on it, an
operation on floats is the exact operation on rationals followed by `binary32.round`. -/

/-- The integer nearest to `q`; a value halfway between two integers goes to the even
one. -/
def roundHalfEven (q : ℚ) : Int :=
  if q - ⌊q⌋ < 1 / 2 then ⌊q⌋
  else if 1 / 2 < q - ⌊q⌋ then ⌊q⌋ + 1
  else if ⌊q⌋ % 2 = 0 then ⌊q⌋ else ⌊q⌋ + 1

/-- The exponent of the unit in the last place of the binary32 numbers of the magnitude
of `q`: 23 below the exponent of `q` (24 significant bits), and -149 for the subnormal
numbers, those below 2^-126, and for zero. -/
def binary32.ulpExponent (q : ℚ) : Int :=
  if q = 0 then -149 else max (Int.log 2 |q|) (-126) - 23

/-- The binary32 number nearest to `q`, a tie going to the number with the even last
bit: the rounding that every `float` operation applies to its exact result, and that a
conversion to `float` applies to its argument. The exponent range is bounded below
(subnormal numbers) but not above: overflow to infinity is not represented. -/
def binary32.round (q : ℚ) : ℚ :=
  (roundHalfEven (q / 2 ^ binary32.ulpExponent q) : ℚ) * 2 ^ binary32.ulpExponent q

/-- Whether `q` is a binary32 number, a value that a `float` can hold. -/
def binary32.IsFloat (q : ℚ) : Prop :=
  binary32.round q = q

instance (q : ℚ) : Decidable (binary32.IsFloat q) :=
  inferInstanceAs (Decidable (binary32.round q = q))

/-- The integral part of a number, the fractional part discarded. -/
def truncate (x : ℚ) : Int :=
  if 0 ≤ x then ⌊x⌋ else ⌈x⌉

/-- An integral storage type `TStorage`: whether it is signed, and its width in bits. -/
structure IntegralType where
  signed : Bool
  bits : Nat
  deriving DecidableEq, Repr

/-- The value `std::numeric_limits<TStorage>::min()`, which `minRawValue` returns. -/
def IntegralType.minRawValue (T : IntegralType) : Int :=
  if T.signed then -(2 ^ (T.bits - 1)) else 0

/-- The value `std::numeric_limits<TStorage>::max()`, which `maxRawValue` returns. -/
def IntegralType.maxRawValue (T : IntegralType) : Int :=
  if T.signed then 2 ^ (T.bits - 1) - 1 else 2 ^ T.bits - 1

/-- The type `int8_t`. -/
def int8_t : IntegralType := { signed := true, bits := 8 }

/-- The type `uint8_t`. -/
def uint8_t : IntegralType := { signed := false, bits := 8 }

/-- The type `int16_t`. -/
def int16_t : IntegralType := { signed := true, bits := 16 }

/-- The type `uint16_t`. -/
def uint16_t : IntegralType := { signed := false, bits := 16 }

/-- The type `int32_t`. -/
def int32_t : IntegralType := { signed := true, bits := 32 }

/-- The conversion of the float `x` to a signed integer of `w` bits as the conversion
instruction of the processor performs it: the truncated value, and the smallest value of
the type when the truncated value is not one of its values. -/
def truncateToSigned (w : Nat) (x : ℚ) : Int :=
  if -(2 ^ (w - 1)) ≤ truncate x ∧ truncate x < 2 ^ (w - 1) then truncate x
  else -(2 ^ (w - 1))

/-- The value of the type `T` with the same low `T.bits` bits as `z` in two's
complement. -/
def IntegralType.wrap (T : IntegralType) (z : Int) : Int :=
  if T.signed then (z + 2 ^ (T.bits - 1)) % 2 ^ T.bits - 2 ^ (T.bits - 1)
  else z % 2 ^ T.bits

/-- The conversion of a `float` to the integral type `T`, as in `static_cast<T>(x)` or
in the assignment of a float to a field of type `T`: the truncated value when that is a
value of `T`. C++ leaves the other case undefined; the result is then the one of the
compiled conversion on the x86-64 host that the unit tests run on, which converts to a
signed integer of 32 bits (of 64 bits for an unsigned 32-bit or a wider `T`) and keeps
the low bits. -/
def IntegralType.ofFloat (T : IntegralType) (x : ℚ) : Int :=
  T.wrap
    (truncateToSigned (if T.bits < 32 ∨ (T.signed = true ∧ T.bits = 32) then 32 else 64) x)

/-! ## Data model -/

/-- The four heater states of `enum class HeaterState` (heater_control.h). -/
inductive HeaterState where
  | Preheat
  | WarmupRamp
  | ClosedLoop
  | Stopped
  deriving DecidableEq, Repr

/-- Modelled from the spec: `enum class HeaterAllow` of can.h (not among the sources);
the spec gives `heater_allow ∈ {Unknown, Allowed, NotAllowed}`. -/
inductive HeaterAllow where
  | Unknown
  | Allowed
  | NotAllowed
  deriving DecidableEq, Repr

/-- Modelled from the spec: the values of `enum class Status` (status.h, not among the
sources) that heater_control.cpp passes to `SetStatus`. -/
inductive Status where
  | Preheat
  | Warmup
  | RunningClosedLoop
  | SensorDidntHeat
  | SensorOverheat
  | SensorUnderheat
  deriving DecidableEq, Repr

/-- Modelled from the spec: the `Timer` class (timer.h is not among the sources).
A timer remembers the clock value of its last reset, in microseconds. -/
structure Timer where
  lastReset : Int
  deriving DecidableEq, Repr

/-- Modelled from the spec: `Timer::reset()` restarts the timer at the current clock value. -/
def Timer.reset (now : Int) : Timer :=
  { lastReset := now }

/-- Modelled from the spec: `Timer::hasElapsedSec(seconds)`. The transition table of
the spec reads every timer test as `timer ≥ threshold`: the timer has elapsed when
the time since its last reset has reached `seconds`. -/
def Timer.hasElapsedSec (t : Timer) (now : Int) (seconds : ℚ) : Bool :=
  decide (seconds * 1000000 ≤ ((now - t.lastReset : Int) : ℚ))

/-- The gains of `struct PidConfig` (pid.h, not among the sources), as initialised
by `heaterPidConfig` in heater_control.cpp. -/
structure PidConfig where
  kP : ℚ
  kI : ℚ
  kD : ℚ
  clamp : ℚ
  deriving DecidableEq, Repr

/-- Modelled from the spec: the `Pid` class (pid.h is not among the sources): a PID
controller with gains `config`, a fixed sample period in seconds and an integrator
clamped to `± config.clamp`. -/
structure Pid where
  config : PidConfig
  period : ℚ
  lastError : ℚ
  integrator : ℚ
  deriving DecidableEq, Repr

/-- Modelled from the spec: the constructor `Pid(config, periodMs)`; the controller
starts with a zero integrator and a zero previous error. -/
def Pid.init (config : PidConfig) (periodMs : Nat) : Pid :=
  { config := config, period := (periodMs : ℚ) / 1000, lastError := 0, integrator := 0 }

/-- Modelled from the spec: `Pid::GetOutput(setpoint, observation)`, called
`PID.update` in the spec: proportional, clamped integral and derivative terms of the
error `setpoint − observation`. -/
def Pid.GetOutput (p : Pid) (setpoint observation : ℚ) : ℚ × Pid :=
  let error := setpoint - observation
  let integrated := p.integrator + error * p.period * p.config.kI
  let integrator :=
    if integrated > p.config.clamp then p.config.clamp
    else if integrated < -p.config.clamp then -p.config.clamp
    else integrated
  let dEdt := (error - p.lastError) / p.period
  (p.config.kP * error + integrator + p.config.kD * dEdt,
    { p with lastError := error, integrator := integrator })

/-- The constant `heaterPidConfig` of heater_control.cpp. -/
def heaterPidConfig : PidConfig :=
  { kP := 3 / 10, kI := 3 / 10, kD := 1 / 100, clamp := 3 }

/-- The function `ScaledValue<TStorage, N, D>::scale` of util/fixed_point.h: the
quotient of the two template arguments, each converted to `float`. -/
def ScaledValue.scale (num den : Nat) : ℚ :=
  binary32.round (binary32.round (num : ℚ) / binary32.round (den : ℚ))

/-- The conversion `ScaledValue<TStorage, N, D>::getValue` of util/fixed_point.h: the
raw value, converted to `float`, times the scale. -/
def ScaledValue.getValue (num den : Nat) (value : Int) : ℚ :=
  binary32.round (binary32.round (value : ℚ) * ScaledValue.scale num den)

/-- The record `struct HeaterConfig` (heater_control.h); each field holds the raw
`uint8_t` of its `ScaledValue`. -/
structure HeaterConfig where
  HeaterSupplyOffVoltage : Nat
  HeaterSupplyOnVoltage : Nat
  PreheatTimeSec : Nat
  deriving DecidableEq, Repr

/-- The off threshold in volts: `FixedPoint<uint8_t, 10>` read as a float. -/
def HeaterConfig.offVoltage (cfg : HeaterConfig) : ℚ :=
  ScaledValue.getValue 1 10 cfg.HeaterSupplyOffVoltage

/-- The on threshold in volts: `FixedPoint<uint8_t, 10>` read as a float. -/
def HeaterConfig.onVoltage (cfg : HeaterConfig) : ℚ :=
  ScaledValue.getValue 1 10 cfg.HeaterSupplyOnVoltage

/-- The preheat time in seconds: `ScaledValue<uint8_t, 5>` read as a float. -/
def HeaterConfig.preheatTime (cfg : HeaterConfig) : ℚ :=
  ScaledValue.getValue 5 1 cfg.PreheatTimeSec

/-- The data-model invariant of the spec on the heater configuration:
`heater_supply_on_v > heater_supply_off_v`. -/
def HeaterConfig.Valid (cfg : HeaterConfig) : Prop :=
  cfg.offVoltage < cfg.onVoltage

instance (cfg : HeaterConfig) : Decidable cfg.Valid :=
  inferInstanceAs (Decidable (cfg.offVoltage < cfg.onVoltage))

/-- The build-time constants of wideband_config.h (not among the sources) that the
embedding takes as parameters. The spec gives a heater period of 1 ms and names the
closed-loop stabilisation time without a value; the two optional macros are `none`
when not defined. -/
structure BoardConfig where
  HEATER_CONTROL_PERIOD : Nat
  HEATER_CLOSED_LOOP_STAB_TIME : ℚ
  HEATER_FAST_HEATING_THRESHOLD_T : Option ℚ
  HEATER_MAX_DUTY : Option ℚ
  deriving DecidableEq, Repr

/-- Modelled from the spec: `HEATER_BATTERY_STAB_TIME` of wideband_config.h, 0.5 s. -/
def HEATER_BATTERY_STAB_TIME : ℚ := 1 / 2

/-- Modelled from the spec: `HEATER_WARMUP_TIMEOUT` of wideband_config.h, 60 s. -/
def HEATER_WARMUP_TIMEOUT : ℚ := 60

/-- Modelled from the spec: `HEATER_DIDNOTHEAT_RETRY_TIMEOUT` of wideband_config.h, 30 s. -/
def HEATER_DIDNOTHEAT_RETRY_TIMEOUT : Int := 30

/-- Modelled from the spec: `HEATER_OVERHEAT_RETRY_TIMEOUT` of wideband_config.h, 30 s. -/
def HEATER_OVERHEAT_RETRY_TIMEOUT : Int := 30

/-- Modelled from the spec: `HEATER_UNDERHEAT_RETRY_TIMEOUT` of wideband_config.h, 10 s. -/
def HEATER_UNDERHEAT_RETRY_TIMEOUT : Int := 10

/-- The data members of `class HeaterControllerBase` (heater_control.h), in the order
of their declaration. -/
structure HeaterControllerBase where
  m_pid : Pid
  rampVoltage : ℚ
  heaterVoltage : ℚ
  heaterState : HeaterState
  cycle : Int
  m_targetEsr : ℚ
  m_targetTempC : ℚ
  ch : Nat
  m_retryTime : Int
  m_heaterStableTimer : Timer
  m_preheatTimer : Timer
  m_warmupTimer : Timer
  m_closedLoopStableTimer : Timer
  m_retryTimer : Timer
  m_underheatTimer : Timer
  m_overheatTimer : Timer
  m_configuration : HeaterConfig
  deriving DecidableEq, Repr

/-- The constructor `HeaterControllerBase(ch)` with the default member initialisers.
What the class leaves without an initialiser is an argument: `fresh` is a
default-constructed `Timer`, `cfg` the not yet assigned configuration and `cycle`
the uninitialised cycle counter. -/
def HeaterControllerBase.init (b : BoardConfig) (ch : Nat) (fresh : Timer)
    (cfg : HeaterConfig) (cycle : Int) : HeaterControllerBase :=
  { m_pid := Pid.init heaterPidConfig b.HEATER_CONTROL_PERIOD
    rampVoltage := 0
    heaterVoltage := 0
    heaterState := HeaterState.Preheat
    cycle := cycle
    m_targetEsr := 0
    m_targetTempC := 0
    ch := ch
    m_retryTime := 0
    m_heaterStableTimer := fresh
    m_preheatTimer := fresh
    m_warmupTimer := fresh
    m_closedLoopStableTimer := fresh
    m_retryTimer := fresh
    m_underheatTimer := fresh
    m_overheatTimer := fresh
    m_configuration := cfg }

/-- The member function `HeaterControllerBase::Configure`. -/
def HeaterControllerBase.Configure (c : HeaterControllerBase) (now : Int)
    (targetTempC targetEsr : ℚ) (configuration : HeaterConfig) : HeaterControllerBase :=
  { c with
    m_targetTempC := targetTempC
    m_targetEsr := targetEsr
    m_configuration := configuration
    m_preheatTimer := Timer.reset now
    m_warmupTimer := Timer.reset now
    m_heaterStableTimer := Timer.reset now
    m_closedLoopStableTimer := Timer.reset now }

/-- The outcome of one `GetNextState` call: the returned state, the controller after
the call and the argument of the `SetStatus(ch, _)` call it made, if it made one. -/
structure NextState where
  state : HeaterState
  ctrl : HeaterControllerBase
  status : Option Status
  deriving DecidableEq, Repr

/-- The `switch (currentState)` of `HeaterControllerBase::GetNextState`
(heater_control.cpp lines 83 to 181), reached when heating is allowed. -/
def HeaterControllerBase.nextStateAllowed (b : BoardConfig) (c : HeaterControllerBase)
    (now : Int) (currentState : HeaterState) (sensorTemp : ℚ) : NextState :=
  let overheatTemp := c.m_targetTempC + 100
  let closedLoopTemp := c.m_targetTempC - 30
  let underheatTemp := c.m_targetTempC - 100
  match currentState with
  | HeaterState.Preheat =>
    if (match b.HEATER_FAST_HEATING_THRESHOLD_T with
        | some threshold => decide (sensorTemp ≥ threshold)
        | none => false) then
      { state := HeaterState.WarmupRamp
        ctrl := { c with rampVoltage := 9, m_warmupTimer := Timer.reset now }
        status := some Status.Warmup }
    else if c.m_preheatTimer.hasElapsedSec now c.m_configuration.preheatTime
        ∨ sensorTemp > closedLoopTemp then
      { state := HeaterState.WarmupRamp
        ctrl := { c with rampVoltage := 7, m_warmupTimer := Timer.reset now }
        status := some Status.Warmup }
    else
      { state := currentState, ctrl := c, status := none }
  | HeaterState.WarmupRamp =>
    if sensorTemp > closedLoopTemp then
      { state := HeaterState.ClosedLoop
        ctrl := { c with m_closedLoopStableTimer := Timer.reset now }
        status := some Status.RunningClosedLoop }
    else if c.m_warmupTimer.hasElapsedSec now HEATER_WARMUP_TIMEOUT then
      { state := HeaterState.Stopped
        ctrl := { c with
          m_retryTime := HEATER_DIDNOTHEAT_RETRY_TIMEOUT
          m_retryTimer := Timer.reset now }
        status := some Status.SensorDidntHeat }
    else
      { state := currentState, ctrl := c, status := none }
  | HeaterState.ClosedLoop =>
    let c1 : HeaterControllerBase :=
      if sensorTemp ≤ overheatTemp then { c with m_overheatTimer := Timer.reset now } else c
    let c2 : HeaterControllerBase :=
      if sensorTemp ≥ underheatTemp then { c1 with m_underheatTimer := Timer.reset now } else c1
    if c2.m_closedLoopStableTimer.hasElapsedSec now b.HEATER_CLOSED_LOOP_STAB_TIME then
      if c2.m_overheatTimer.hasElapsedSec now (1 / 2) then
        { state := HeaterState.Stopped
          ctrl := { c2 with
            m_retryTime := HEATER_OVERHEAT_RETRY_TIMEOUT
            m_retryTimer := Timer.reset now }
          status := some Status.SensorOverheat }
      else if c2.m_underheatTimer.hasElapsedSec now (1 / 2) then
        { state := HeaterState.Stopped
          ctrl := { c2 with
            m_retryTime := HEATER_UNDERHEAT_RETRY_TIMEOUT
            m_retryTimer := Timer.reset now }
          status := some Status.SensorUnderheat }
      else
        { state := currentState, ctrl := c2, status := none }
    else
      { state := currentState, ctrl := c2, status := none }
  | HeaterState.Stopped =>
    if c.m_retryTime ≠ 0 ∧ c.m_retryTimer.hasElapsedSec now (c.m_retryTime : ℚ) then
      { state := HeaterState.Preheat, ctrl := c, status := none }
    else
      { state := currentState, ctrl := c, status := none }

/-- The member function `HeaterControllerBase::GetNextState`: lines 58 to 81 decide
whether heating is allowed, the rest is `nextStateAllowed`. -/
def HeaterControllerBase.GetNextState (b : BoardConfig) (c : HeaterControllerBase)
    (now : Int) (currentState : HeaterState) (heaterAllowState : HeaterAllow)
    (heaterSupplyVoltage sensorTemp : ℚ) : NextState :=
  let heaterAllowed0 : Bool := decide (heaterAllowState = HeaterAllow.Allowed)
  let r : HeaterControllerBase × Bool :=
    if heaterAllowState = HeaterAllow.Unknown then
      if heaterSupplyVoltage < c.m_configuration.offVoltage then
        ({ c with m_heaterStableTimer := Timer.reset now }, heaterAllowed0)
      else if heaterSupplyVoltage > c.m_configuration.onVoltage then
        (c, c.m_heaterStableTimer.hasElapsedSec now HEATER_BATTERY_STAB_TIME)
      else (c, heaterAllowed0)
    else (c, heaterAllowed0)
  let c1 := r.1
  let heaterAllowed := r.2
  if !heaterAllowed then
    { state := HeaterState.Preheat
      ctrl := { c1 with m_preheatTimer := Timer.reset now }
      status := some Status.Preheat }
  else
    c1.nextStateAllowed b now currentState sensorTemp

/-- The member function `HeaterControllerBase::GetVoltageForState`. The warmup ramp is
computed in `float`: the two constants and their quotient are rounded as the compiler
rounds constant expressions, and so is every addition to `rampVoltage`. -/
def HeaterControllerBase.GetVoltageForState (b : BoardConfig) (c : HeaterControllerBase)
    (state : HeaterState) (sensorEsr : ℚ) : ℚ × HeaterControllerBase :=
  match state with
  | HeaterState.Preheat => (2, c)
  | HeaterState.WarmupRamp =>
    let rampRateVoltPerSecond : ℚ := binary32.round (4 / 10)
    let heaterFrequency : ℚ :=
      binary32.round (1000 / binary32.round (b.HEATER_CONTROL_PERIOD : ℚ))
    let c1 : HeaterControllerBase :=
      if c.rampVoltage < 12 then
        { c with
          rampVoltage :=
            binary32.round
              (c.rampVoltage + binary32.round (rampRateVoltPerSecond / heaterFrequency)) }
      else c
    (c1.rampVoltage, c1)
  | HeaterState.ClosedLoop =>
    let r := c.m_pid.GetOutput c.m_targetEsr sensorEsr
    (15 / 2 - r.1, { c with m_pid := r.2 })
  | HeaterState.Stopped => (0, c)

/-- The increment `cycle++` on a 32-bit `int`, wrapping in two's complement. -/
def incrCycle (cycle : Int) : Int :=
  (cycle + 1 + 2147483648) % 4294967296 - 2147483648

/-- The outcome of one `Update` call: the controller after the call, the argument of
the `SetDuty` call and the argument of the `SetStatus` call, if one was made. -/
structure UpdateResult where
  ctrl : HeaterControllerBase
  duty : ℚ
  status : Option Status
  deriving DecidableEq, Repr

/-- The member function `HeaterControllerBase::Update`, one tick of the heater loop.
The sampler supplies `sensorEsr` and `sensorTemperature`; `heaterSupplyVoltage` is the
supply voltage from whichever source the board selects at build time. The
`heaterVoltage` the function computes is a local variable of the function: the data
member of the same name is not assigned. -/
def HeaterControllerBase.Update (b : BoardConfig) (c : HeaterControllerBase) (now : Int)
    (sensorEsr sensorTemperature : ℚ) (heaterAllowState : HeaterAllow)
    (heaterSupplyVoltage : ℚ) : UpdateResult :=
  let next := c.GetNextState b now c.heaterState heaterAllowState heaterSupplyVoltage
    sensorTemperature
  let c1 : HeaterControllerBase := { next.ctrl with heaterState := next.state }
  let v := c1.GetVoltageForState b c1.heaterState sensorEsr
  let c2 := v.2
  let heaterVoltage : ℚ := if v.1 > 12 then 12 else v.1
  let heaterSupplyVoltage : ℚ := if heaterSupplyVoltage < 3 then 12 else heaterSupplyVoltage
  let voltageRatio : ℚ := if heaterSupplyVoltage < 1 then 0 else heaterVoltage / heaterSupplyVoltage
  let duty : ℚ := voltageRatio * voltageRatio
  let c3 : HeaterControllerBase :=
    match b.HEATER_MAX_DUTY with
    | some _ => { c2 with cycle := incrCycle c2.cycle }
    | none => c2
  let duty : ℚ :=
    match b.HEATER_MAX_DUTY with
    | some maxDuty => if c3.cycle % 10 = 0 ∧ duty > maxDuty then maxDuty else duty
    | none => duty
  let duty : ℚ := if heaterSupplyVoltage ≥ 23 then 0 else duty
  { ctrl := c3, duty := duty, status := next.status }

/-- The value of the local variable `heaterVoltage` of `Update` after line 239: the
voltage for the state chosen in this tick, limited to 12 volts. -/
def HeaterControllerBase.commandedVoltage (b : BoardConfig) (c : HeaterControllerBase)
    (now : Int) (sensorEsr sensorTemperature : ℚ) (heaterAllowState : HeaterAllow)
    (heaterSupplyVoltage : ℚ) : ℚ :=
  let next := c.GetNextState b now c.heaterState heaterAllowState heaterSupplyVoltage
    sensorTemperature
  let c1 : HeaterControllerBase := { next.ctrl with heaterState := next.state }
  let v := c1.GetVoltageForState b c1.heaterState sensorEsr
  if v.1 > 12 then 12 else v.1

/-- The value of the local variable `heaterSupplyVoltage` of `Update` after line 244:
a supply voltage below 3 volts is replaced by 12 volts. -/
def supplyForDuty (heaterSupplyVoltage : ℚ) : ℚ :=
  if heaterSupplyVoltage < 3 then 12 else heaterSupplyVoltage

/-! ## The heater loop -/

/-- The inputs of one tick of the heater loop: the clock and what `Update` reads. -/
structure Tick where
  now : Int
  sensorEsr : ℚ
  sensorTemperature : ℚ
  heaterAllowState : HeaterAllow
  heaterSupplyVoltage : ℚ
  deriving DecidableEq, Repr

/-- The heater loop over a finite sequence of ticks: one `Update` per tick, in order;
the result is the controller after the last tick. -/
def HeaterControllerBase.run (b : BoardConfig) (c : HeaterControllerBase) :
    List Tick → HeaterControllerBase
  | [] => c
  | t :: ts =>
    HeaterControllerBase.run b
      (c.Update b t.now t.sensorEsr t.sensorTemperature t.heaterAllowState
        t.heaterSupplyVoltage).ctrl ts

/-! ## Fixtures of test_heater.cpp -/

/-- The configuration `mockConfig.heaterConfig` of test_heater.cpp: off 6.0 V, on 11.0 V,
preheat 5 s. -/
def mockConfig : HeaterConfig :=
  { HeaterSupplyOffVoltage := 60, HeaterSupplyOnVoltage := 110, PreheatTimeSec := 1 }

/-- A board as the unit tests build it: a 1 ms heater period, the 5 s closed-loop
stabilisation time the test names, neither optional macro defined. -/
def testBoard : BoardConfig :=
  { HEATER_CONTROL_PERIOD := 1
    HEATER_CLOSED_LOOP_STAB_TIME := 5
    HEATER_FAST_HEATING_THRESHOLD_T := none
    HEATER_MAX_DUTY := none }

/-- The device under test of test_heater.cpp: `MockHeater dut` followed by
`dut.Configure(780, 300, &mockConfig.heaterConfig)` at mock time 0. The timers that
`Configure` does not reset are taken as last reset at time 0 as well. -/
def dut : HeaterControllerBase :=
  (HeaterControllerBase.init testBoard 0 { lastReset := 0 } mockConfig 0).Configure 0 780 300
    mockConfig

/-- A heater configuration whose two supply thresholds are exchanged: off 11.0 V,
on 6.0 V, preheat 5 s. -/
def swappedConfig : HeaterConfig :=
  { HeaterSupplyOffVoltage := 110, HeaterSupplyOnVoltage := 60, PreheatTimeSec := 1 }

/-- The controller of test_heater.cpp configured with `swappedConfig` at mock time 0. -/
def dutSwapped : HeaterControllerBase :=
  (HeaterControllerBase.init testBoard 0 { lastReset := 0 } swappedConfig 0).Configure 0 780
    300 swappedConfig

/-- A tick at clock value `now` with no heater command over CAN, a cold sensor and a
5 V supply. -/
def lowSupplyTick (now : Int) : Tick :=
  { now := now
    sensorEsr := 300
    sensorTemperature := 500
    heaterAllowState := HeaterAllow.Unknown
    heaterSupplyVoltage := 5 }

/-- The test controller after the `GetNextState(ClosedLoop, Allowed, 12, 780)` call that
test_heater.cpp makes at mock time 12 s: in closed loop, sensor on target. -/
def dutClosedLoop : HeaterControllerBase :=
  (dut.GetNextState testBoard 12000000 HeaterState.ClosedLoop HeaterAllow.Allowed 12 780).ctrl

/-- The test controller with its heater state set to ClosedLoop. -/
def dutRunning : HeaterControllerBase :=
  { dut with heaterState := HeaterState.ClosedLoop }

/-- A tick at clock value `now` with heating allowed over CAN, a 12 V supply and the
sensor at `temp` degrees. -/
def allowedTick (now : Int) (temp : ℚ) : Tick :=
  { now := now
    sensorEsr := 300
    sensorTemperature := temp
    heaterAllowState := HeaterAllow.Allowed
    heaterSupplyVoltage := 12 }

/-! ## The warmup ramp -/

/-- The value of the constant expression `rampRateVoltPerSecond / heaterFrequency` of
`GetVoltageForState`, the amount added to `rampVoltage` by one call: the float nearest
to 0.4f divided by the float `1000.0f / HEATER_CONTROL_PERIOD`. -/
def rampStep (b : BoardConfig) : ℚ :=
  binary32.round
    (binary32.round (4 / 10)
      / binary32.round (1000 / binary32.round (b.HEATER_CONTROL_PERIOD : ℚ)))

/-- The sensor types of `enum class SensorType` (boards/port.h). -/
inductive SensorType where
  | LSU49
  | LSU42
  | LSUADV
  deriving DecidableEq, Repr

/-- The aux output sources of `enum class AuxOutputMode` (boards/port.h). -/
inductive AuxOutputMode where
  | Afr0
  | Afr1
  | Lambda0
  | Lambda1
  | Egt0
  | Egt1
  deriving DecidableEq, Repr

/-- Modelled from the spec: `enum class CanProtocol`, the extra protocol of a channel
(its declaration is not among the sources; can.cpp switches over these values). -/
inductive CanProtocol where
  | None
  | AemNet
  | EcuMasterClassic
  | EcuMasterBlack
  | Haltech
  | LinkEcu
  | Emtron
  | Motec
  deriving DecidableEq, Repr

/-- Modelled from the spec: the 8-byte per-channel entry of the configuration record,
`{RusefiTx:1, RusefiTxDiag:1, ExtraCanProtocol, RusefiIdx:u8, ExtraCanIdOffset:u8,
pad[5]}`, with the field names that can_rusefi.cpp, can.cpp and test_config.cpp use
(the port.h that declares them is not among the sources). -/
structure ChannelSettings where
  RusEfiTx : Bool
  RusEfiTxDiag : Bool
  ExtraCanProtocol : CanProtocol
  RusEfiIdx : Nat
  ExtraCanIdOffset : Nat
  pad : List Nat
  deriving DecidableEq, Repr

/-- Modelled from the spec: the persistent `Configuration` record, fields in the order
of the layout table of the spec; the record holds two AFR and two EGT entries. The
boards/port.h among the sources declares a layout whose channel entries have no
`RusEfiIdx`, the member that can_rusefi.cpp assigns. -/
structure Configuration where
  Tag : Nat
  NoLongerUsed0 : Nat
  auxOutBins : Fin 2 → Fin 8 → ℚ
  auxOutValues : Fin 2 → Fin 8 → ℚ
  auxOutputSource : Fin 2 → AuxOutputMode
  sensorType : SensorType
  afr : Fin 2 → ChannelSettings
  egt : Fin 2 → ChannelSettings
  heaterConfig : HeaterConfig

/-- The build-time channel counts `AFR_CHANNELS` and `EGT_CHANNELS` of
wideband_config.h (not among the sources). -/
structure ChannelCounts where
  AFR_CHANNELS : Nat
  EGT_CHANNELS : Nat
  deriving DecidableEq, Repr

/-- The identifiers of for_rusefi/wideband_can.h (not among the sources; the spec names
them and leaves their numeric values to that header), with the macro
`WB_MSG_GET_HEADER` as a function. -/
structure WidebandCan where
  WB_ACK : Nat
  WB_BL_HEADER : Nat
  WB_BL_ENTER : Nat
  WB_MSG_SET_INDEX : Nat
  WB_MSG_ECU_STATUS : Nat
  WB_DATA_BASE_ADDR : Nat
  WB_MSG_GET_HEADER : Nat → Nat

/-- What the handler relies on in the identifiers: the three message identifiers carry
the header `WB_BL_HEADER` and are pairwise distinct. -/
def WidebandCan.WellFormed (ids : WidebandCan) : Prop :=
  ids.WB_MSG_GET_HEADER ids.WB_BL_ENTER = ids.WB_BL_HEADER ∧
    ids.WB_MSG_GET_HEADER ids.WB_MSG_SET_INDEX = ids.WB_BL_HEADER ∧
    ids.WB_MSG_GET_HEADER ids.WB_MSG_ECU_STATUS = ids.WB_BL_HEADER ∧
    ids.WB_BL_ENTER ≠ ids.WB_MSG_SET_INDEX ∧
    ids.WB_BL_ENTER ≠ ids.WB_MSG_ECU_STATUS ∧
    ids.WB_MSG_SET_INDEX ≠ ids.WB_MSG_ECU_STATUS

/-- A received frame as the handler sees it: `CAN_EXT(frame)`, `CAN_ID(frame)`,
`frame.DLC` and the eight data bytes `frame.data8`. -/
structure CANRxFrame where
  EXT : Bool
  ID : Nat
  DLC : Nat
  data8 : Fin 8 → Nat

/-- A frame handed to `canTransmitTimeout`: extended flag, identifier, DLC and the data
bytes that were written. -/
structure CANTxFrame where
  EXT : Bool
  EID : Nat
  DLC : Nat
  data8 : List Nat
  deriving DecidableEq, Repr

/-- The process-wide `struct CanStatusData`, with the two members that can.cpp
initialises. -/
structure CanStatusData where
  heaterAllow : HeaterAllow
  remoteBatteryVoltage : ℚ
  deriving DecidableEq, Repr

/-- The initial value of the static `CanStatusData` of can.cpp. -/
def CanStatusData.initial : CanStatusData :=
  { heaterAllow := HeaterAllow.Unknown, remoteBatteryVoltage := 0 }

/-- The initial value of the static `pumpGainAdjust` of pump_control.cpp. -/
def pumpGainAdjustInitial : ℚ := 1

/-- What the receive handlers read and write: the configuration record, the CAN status
and the static `pumpGainAdjust` of pump_control.cpp, written by `SetPumpGainAdjust`. -/
structure RxState where
  configuration : Configuration
  statusData : CanStatusData
  pumpGainAdjust : ℚ

/-- The calls a receive handler makes to the outside: `canTransmitTimeout` with a
frame, `SetConfiguration()` (the record as it is at the call), `chThdSleep` and
`NVIC_SystemReset`. -/
inductive RxEffect where
  | Transmit (frame : CANTxFrame)
  | SetConfiguration (record : Configuration)
  | Sleep (ticks : Nat)
  | SystemReset

/-- Whether an effect is the system reset. -/
def RxEffect.isReset : RxEffect → Bool
  | RxEffect.SystemReset => true
  | _ => false

/-- The outcome of one handler call: the state after it and its effects in order. -/
structure RxResult where
  state : RxState
  effects : List RxEffect

/-- Modelled from the spec: `clampF(min, x, max)` of the library header rusefi/math.h,
the `clamp` of the spec: `x` limited to the interval from `min` to `max`. -/
def clampF (lo x hi : ℚ) : ℚ :=
  max lo (min x hi)

/-- The frame that `SendAck()` of can_rusefi.cpp transmits: extended, identifier
`WB_ACK`, no data. -/
def SendAck (ids : WidebandCan) : CANTxFrame :=
  { EXT := true, EID := ids.WB_ACK, DLC := 0, data8 := [] }

/-- One iteration `entries[i].RusEfiIdx = offset + i` of the loops in the set-index
branch: the sum is stored into a `uint8_t`. An index outside the two entries of the
record is not written. -/
def setRusEfiIdxAt (offset : Nat) (entries : Fin 2 → ChannelSettings) (i : Nat) :
    Fin 2 → ChannelSettings :=
  if h : i < 2 then
    Function.update entries ⟨i, h⟩ { entries ⟨i, h⟩ with RusEfiIdx := (offset + i) % 256 }
  else entries

/-- The loop `for (int i = 0; i < count; i++) entries[i].RusEfiIdx = offset + i`. -/
def setRusEfiIdx (offset count : Nat) (entries : Fin 2 → ChannelSettings) :
    Fin 2 → ChannelSettings :=
  (List.range count).foldl (setRusEfiIdxAt offset) entries

/-- The function `ProcessRusefiCanMessage` of can_rusefi.cpp. `GetConfiguration()` in
the bootloader branch is the record the handler was given (can.cpp passes
`GetConfiguration()` as `configuration`). -/
def ProcessRusefiCanMessage (ids : WidebandCan) (n : ChannelCounts) (frame : CANRxFrame)
    (st : RxState) : RxResult :=
  if !frame.EXT then
    { state := st, effects := [] }
  else if ids.WB_MSG_GET_HEADER frame.ID ≠ ids.WB_BL_HEADER then
    { state := st, effects := [] }
  else if frame.DLC ≥ 2 ∧ frame.ID = ids.WB_MSG_ECU_STATUS then
    let heaterAllow : HeaterAllow :=
      if frame.data8 1 &&& 0x1 = 0x1 then HeaterAllow.Allowed else HeaterAllow.NotAllowed
    let vbatt : ℚ := (frame.data8 0 : ℚ) * (1 / 10)
    let remoteBatteryVoltage : ℚ := if vbatt < 5 then 14 else vbatt
    let st1 : RxState :=
      { st with
        statusData := { heaterAllow := heaterAllow, remoteBatteryVoltage := remoteBatteryVoltage } }
    let st2 : RxState :=
      if frame.DLC ≥ 3 then
        { st1 with pumpGainAdjust := clampF 0 ((frame.data8 2 : ℚ) * (1 / 100)) 1 }
      else st1
    { state := st2, effects := [] }
  else if (frame.DLC = 0 ∨ frame.DLC = 1) ∧ frame.ID = ids.WB_BL_ENTER then
    if frame.DLC = 0 ∨ frame.data8 0 = 0xFF
        ∨ frame.data8 0 = (st.configuration.afr 0).RusEfiIdx then
      { state := st
        effects := [RxEffect.Transmit (SendAck ids), RxEffect.Sleep 50, RxEffect.SystemReset] }
    else
      { state := st, effects := [] }
  else if frame.DLC = 1 ∧ frame.ID = ids.WB_MSG_SET_INDEX then
    let offset : Nat := frame.data8 0
    let configuration : Configuration :=
      { st.configuration with
        afr := setRusEfiIdx offset n.AFR_CHANNELS st.configuration.afr
        egt := setRusEfiIdx offset n.EGT_CHANNELS st.configuration.egt }
    { state := { st with configuration := configuration }
      effects := [RxEffect.SetConfiguration configuration, RxEffect.Transmit (SendAck ids)] }
  else
    { state := st, effects := [] }

/-- The receive loop over a finite sequence of frames, one `ProcessRusefiCanMessage`
call per frame, in order, up to and including the first call that resets the system. -/
def rusefiRxRun (ids : WidebandCan) (n : ChannelCounts) :
    List CANRxFrame → RxState → RxResult
  | [], st => { state := st, effects := [] }
  | frame :: frames, st =>
    let r := ProcessRusefiCanMessage ids n frame st
    if r.effects.any RxEffect.isReset then r
    else
      { state := (rusefiRxRun ids n frames r.state).state
        effects := r.effects ++ (rusefiRxRun ids n frames r.state).effects }

/-! ## Fixtures for the receive path -/

/-- An assignment of the identifiers: header 0x0EF in bits 20 and up, the opcode (0 for
bootloader enter, 4 for set index, 5 for ECU status) in bits 16 to 19. -/
def sampleIds : WidebandCan :=
  { WB_ACK := 0x727573
    WB_BL_HEADER := 0x0EF
    WB_BL_ENTER := 0xEF00000
    WB_MSG_SET_INDEX := 0xEF40000
    WB_MSG_ECU_STATUS := 0xEF50000
    WB_DATA_BASE_ADDR := 0x190
    WB_MSG_GET_HEADER := fun id => id / 1048576 % 4096 }

/-- A build with two AFR and two EGT channels. -/
def twoChannels : ChannelCounts :=
  { AFR_CHANNELS := 2, EGT_CHANNELS := 2 }

/-- A channel entry with the internal protocol enabled and the given index. -/
def sampleChannel (idx : Nat) : ChannelSettings :=
  { RusEfiTx := true
    RusEfiTxDiag := true
    ExtraCanProtocol := CanProtocol.None
    RusEfiIdx := idx
    ExtraCanIdOffset := 0
    pad := [0, 0, 0, 0, 0] }

/-- A configuration record with a valid tag, zero curves, the internal-protocol
indices 0 and 2 on the AFR entries and 0 and 1 on the EGT entries, and the heater
configuration of test_heater.cpp. -/
def sampleConfiguration : Configuration :=
  { Tag := 0xDEADBE02
    NoLongerUsed0 := 0
    auxOutBins := fun _ _ => 0
    auxOutValues := fun _ _ => 0
    auxOutputSource := ![AuxOutputMode.Afr0, AuxOutputMode.Afr1]
    sensorType := SensorType.LSU49
    afr := ![sampleChannel 0, sampleChannel 2]
    egt := ![sampleChannel 0, sampleChannel 1]
    heaterConfig := mockConfig }

/-- The receive state at start-up with `sampleConfiguration`. -/
def sampleRxState : RxState :=
  { configuration := sampleConfiguration
    statusData := CanStatusData.initial
    pumpGainAdjust := pumpGainAdjustInitial }

/-- An extended ECU-status frame of `sampleIds` with the given DLC and first three data
bytes. -/
def ecuStatusFrame (dlc b0 b1 b2 : Nat) : CANRxFrame :=
  { EXT := true, ID := 0xEF50000, DLC := dlc, data8 := ![b0, b1, b2, 0, 0, 0, 0, 0] }

/-- An extended set-index frame of `sampleIds` with DLC 1 and the given data byte. -/
def setIndexFrame (b0 : Nat) : CANRxFrame :=
  { EXT := true, ID := 0xEF40000, DLC := 1, data8 := ![b0, 0, 0, 0, 0, 0, 0, 0] }

/-- The channel counts the configuration record has room for: two AFR and two EGT
entries. -/
def ChannelCounts.Valid (n : ChannelCounts) : Prop :=
  n.AFR_CHANNELS ≤ 2 ∧ n.EGT_CHANNELS ≤ 2

instance (n : ChannelCounts) : Decidable n.Valid :=
  inferInstanceAs (Decidable (n.AFR_CHANNELS ≤ 2 ∧ n.EGT_CHANNELS ≤ 2))

/-- An extended bootloader-enter frame of `sampleIds` with the given DLC and first data
byte. -/
def blEnterFrame (dlc b0 : Nat) : CANRxFrame :=
  { EXT := true, ID := 0xEF00000, DLC := dlc, data8 := ![b0, 0, 0, 0, 0, 0, 0, 0] }

/-! ## The LinkEcu receive path

An embedding of `ProcessLinkCanMessage` (firmware/can/can_link.cpp), over the same
state and effects as the internal-protocol handler. -/

/-- The macro `LINKECU_L2C_BASE_ID` of can_link.cpp. -/
def LINKECU_L2C_BASE_ID : Nat := 0x3B6

/-- The macro `LINKECU_L2C_IN_BASE_ID` of can_link.cpp. -/
def LINKECU_L2C_IN_BASE_ID : Nat := 0x3BE

/-- The macro `LINKECU_L2C_SET_IDX_ID` of can_link.cpp. -/
def LINKECU_L2C_SET_IDX_ID : Nat := 0x3BC

/-- The frame that the static `SendAck(id, id_ok, bus_freq_ok)` of can_link.cpp
transmits: extended, DLC 8, identifier `LINKECU_L2C_BASE_ID + id` with `id` a
`uint16_t`; the function writes the first three data bytes. -/
def can_link.SendAck (id id_ok bus_freq_ok : Nat) : CANTxFrame :=
  { EXT := true
    EID := LINKECU_L2C_BASE_ID + id % 65536
    DLC := 8
    data8 := [24, if id_ok ≠ 0 then 0x01 else 0xFF, if bus_freq_ok ≠ 0 then 0x01 else 0xFF] }

/-- The value `engineRpm` that `ProcessLinkCanMessage` decodes:
`(static_cast<uint16_t>(data8[2]) << 8) | data8[3]`, stored into a `uint16_t`. -/
def linkEngineRpm (frame : CANRxFrame) : Nat :=
  ((frame.data8 2 % 65536) <<< 8 ||| frame.data8 3) % 65536

/-- One iteration of the loop in the set-index branch of `ProcessLinkCanMessage`. The
difference `id - ExtraCanIdOffset` is taken in 32-bit unsigned arithmetic. An index
outside the two entries of the record is not touched. -/
def linkSetIdxAt (frame : CANRxFrame) (r : RxResult) (i : Nat) : RxResult :=
  if h : i < 2 then
    if ((frame.ID : Int) - ((r.state.configuration.afr ⟨i, h⟩).ExtraCanIdOffset : Int))
        % 4294967296 = (LINKECU_L2C_SET_IDX_ID : Int) then
      let offset : Nat := frame.data8 1 &&& 0x0F
      let configuration : Configuration :=
        { r.state.configuration with
          afr := Function.update r.state.configuration.afr ⟨i, h⟩
            { r.state.configuration.afr ⟨i, h⟩ with ExtraCanIdOffset := offset } }
      { state := { r.state with configuration := configuration }
        effects := r.effects ++
          [RxEffect.SetConfiguration configuration,
            RxEffect.Transmit (can_link.SendAck frame.ID 1 0)] }
    else r
  else r

/-- The function `ProcessLinkCanMessage` of can_link.cpp. -/
def ProcessLinkCanMessage (n : ChannelCounts) (frame : CANRxFrame) (st : RxState) :
    RxResult :=
  if !frame.EXT then
    { state := st, effects := [] }
  else if frame.ID = LINKECU_L2C_IN_BASE_ID ∧ frame.DLC = 8 ∧ frame.data8 0 = 85 then
    if linkEngineRpm frame > 400 then
      { state := { st with statusData := { st.statusData with heaterAllow := HeaterAllow.Allowed } }
        effects := [] }
    else if linkEngineRpm frame < 10 then
      { state :=
          { st with statusData := { st.statusData with heaterAllow := HeaterAllow.NotAllowed } }
        effects := [] }
    else
      { state := st, effects := [] }
  else if frame.ID ≥ LINKECU_L2C_SET_IDX_ID ∧ frame.ID ≤ LINKECU_L2C_SET_IDX_ID + 7
      ∧ frame.DLC = 8 ∧ frame.data8 0 = 24 then
    (List.range n.AFR_CHANNELS).foldl (linkSetIdxAt frame) { state := st, effects := [] }
  else
    { state := st, effects := [] }

/-- An extended LinkEcu status frame (identifier 0x3BE, DLC 8, data[0] = 85) with the
given bytes 2 and 3. -/
def linkStatusFrame (b2 b3 : Nat) : CANRxFrame :=
  { EXT := true, ID := 0x3BE, DLC := 8, data8 := ![85, 0, b2, b3, 0, 0, 0, 0] }

/-- An extended LinkEcu set-index frame (identifier 0x3BC + k, DLC 8, data[0] = 24) with
the given byte 1. -/
def linkSetIdxFrame (k b1 : Nat) : CANRxFrame :=
  { EXT := true, ID := 0x3BC + k, DLC := 8, data8 := ![24, b1, 0, 0, 0, 0, 0, 0] }

/-- The receive state `sampleRxState` with the heater gate already decided. -/
def sampleRxStateWith (allow : HeaterAllow) : RxState :=
  { sampleRxState with statusData := { sampleRxState.statusData with heaterAllow := allow } }

/-- A channel entry for the LinkEcu protocol with the given identifier offset. -/
def linkChannel (offset : Nat) : ChannelSettings :=
  { sampleChannel 0 with ExtraCanProtocol := CanProtocol.LinkEcu, ExtraCanIdOffset := offset }

/-- The receive state `sampleRxState` with LinkEcu on both AFR channels, at the
identifier offsets 0 and 3. -/
def linkRxState : RxState :=
  { sampleRxState with
    configuration := { sampleConfiguration with afr := ![linkChannel 0, linkChannel 3] } }

/-! ## The transmit scheduler

An embedding of `CanTxThread` and `SendCanEgtForChannel` (firmware/can.cpp): which
encoder functions are called, in program order. -/

/-- The two per-channel functions that the loop of `CanTxThread` calls. -/
inductive TxCall where
  | SendCanForChannel (ch : Nat)
  | SendCanEgtForChannel (ch : Nat)
  deriving DecidableEq, Repr

/-- One pass through the body of the `while(1)` loop of `CanTxThread`, entered with the
local `cycle`: the calls it makes, in order, and `cycle` after `cycle++`. The remainder
`cycle % 5` is the truncating one of C++. -/
def CanTxThread.iteration (n : ChannelCounts) (cycle : Int) : List TxCall × Int :=
  ((List.range n.AFR_CHANNELS).map TxCall.SendCanForChannel ++
      (if Int.tmod cycle 5 = 0 then
        (List.range n.EGT_CHANNELS).map TxCall.SendCanEgtForChannel
      else []),
    incrCycle cycle)

/-- The local `cycle` of `CanTxThread` when tick number `k` starts: 0 at the first
tick, then one `cycle++` per tick. -/
def CanTxThread.cycleAt : Nat → Int
  | 0 => 0
  | k + 1 => incrCycle (CanTxThread.cycleAt k)

/-- The calls that `CanTxThread` makes in tick number `k` (the first tick is 0). -/
def CanTxThread.tick (n : ChannelCounts) (k : Nat) : List TxCall :=
  (CanTxThread.iteration n (CanTxThread.cycleAt k)).1

/-- The EGT encoder functions that `SendCanEgtForChannel` calls. -/
inductive EgtEncoder where
  | SendRusefiEgtFormat
  | SendAemNetEGTFormat
  | SendEcuMasterEgtFormat
  | SendHaltechEgtFormat
  | SendLinkEgtFormat
  | SendEmtronEgtFormat
  | SendMotec888Format
  deriving DecidableEq, Repr

/-- The function `SendCanEgtForChannel` of can.cpp: the encoders it calls for channel
`ch`, in order. The switch reads `configuration->afr[ch].ExtraCanProtocol`; its Emtron
case has no `break` and runs on into the Motec case. A build without EGT channels
compiles the body out. -/
def SendCanEgtForChannel (n : ChannelCounts) (configuration : Configuration) (ch : Fin 2) :
    List EgtEncoder :=
  if n.EGT_CHANNELS > 0 then
    EgtEncoder.SendRusefiEgtFormat ::
      (match (configuration.afr ch).ExtraCanProtocol with
        | CanProtocol.AemNet => [EgtEncoder.SendAemNetEGTFormat]
        | CanProtocol.EcuMasterClassic => [EgtEncoder.SendEcuMasterEgtFormat]
        | CanProtocol.EcuMasterBlack => [EgtEncoder.SendEcuMasterEgtFormat]
        | CanProtocol.Haltech => [EgtEncoder.SendHaltechEgtFormat]
        | CanProtocol.LinkEcu => [EgtEncoder.SendLinkEgtFormat]
        | CanProtocol.Emtron => [EgtEncoder.SendEmtronEgtFormat, EgtEncoder.SendMotec888Format]
        | CanProtocol.Motec => [EgtEncoder.SendMotec888Format]
        | CanProtocol.None => [])
  else []

/-- A channel entry with the given extra protocol and otherwise as `sampleChannel 0`. -/
def protocolChannel (protocol : CanProtocol) : ChannelSettings :=
  { sampleChannel 0 with ExtraCanProtocol := protocol }

/-- The record `sampleConfiguration` with the given extra protocol on both AFR entries
and the given extra protocol on both EGT entries. -/
def protocolConfiguration (afrProtocol egtProtocol : CanProtocol) : Configuration :=
  { sampleConfiguration with
    afr := ![protocolChannel afrProtocol, protocolChannel afrProtocol]
    egt := ![protocolChannel egtProtocol, protocolChannel egtProtocol] }

/-! ## Byte order

An embedding of firmware/util/byteswap.h. An integer of `size` bytes is a natural number
below 256 ^ size, the bit pattern of the value (two's complement for the signed types);
the host is given by the macro `bigEndianHost`. -/

/-- The bytes of a bit pattern, least significant byte first. -/
def leBytes : Nat → Nat → List Nat
  | 0, _ => []
  | size + 1, v => v % 256 :: leBytes size (v / 256)

/-- The bit pattern with the given bytes, least significant byte first. -/
def ofLeBytes : List Nat → Nat
  | [] => 0
  | b :: bytes => b + 256 * ofLeBytes bytes

/-- The object representation of an integer of `size` bytes on the host: its bytes in
address order. -/
def toMemory (bigEndianHost : Bool) (size v : Nat) : List Nat :=
  if bigEndianHost then (leBytes size v).reverse else leBytes size v

/-- The integer whose object representation on the host is the given bytes. -/
def ofMemory (bigEndianHost : Bool) (bytes : List Nat) : Nat :=
  if bigEndianHost then ofLeBytes bytes.reverse else ofLeBytes bytes

/-- The bit pattern of a signed integer of `size` bytes in two's complement. -/
def toPattern (size : Nat) (i : Int) : Nat :=
  (i % (256 ^ size : Nat)).toNat

/-- The signed integer of `size` bytes with the given bit pattern. -/
def ofPattern (size p : Nat) : Int :=
  if 2 * p < 256 ^ size then (p : Int) else (p : Int) - (256 ^ size : Nat)

/-- The function `SWAP_UINT16`: `(x << 8) | (x >> 8)` on the promoted `int`, returned as
a `uint16_t`. -/
def SWAP_UINT16 (x : Nat) : Nat :=
  ((x <<< 8) ||| (x >>> 8)) % 65536

/-- The function `SWAP_UINT32`, with the left shifts taken in 32 bits. -/
def SWAP_UINT32 (x : Nat) : Nat :=
  ((x >>> 24) &&& 0x000000ff) ||| (((x <<< 8) % 4294967296) &&& 0x00ff0000)
    ||| ((x >>> 8) &&& 0x0000ff00) ||| (((x <<< 24) % 4294967296) &&& 0xff000000)

/-- The template function `swap(arg, bigInMem)` at a type of `size` bytes: `arg` itself
when the host order is the order asked for, and otherwise the value whose bytes in
memory are those of `arg` in reverse (the loop copies them from the last to the
first). -/
def swap (bigEndianHost : Bool) (size arg : Nat) (bigInMem : Bool) : Nat :=
  if bigEndianHost = bigInMem then arg
  else ofMemory bigEndianHost (toMemory bigEndianHost size arg).reverse

/-- The class template `BigEndian<T>`: the private member `rep`. -/
structure BigEndian where
  rep : Nat
  deriving DecidableEq, Repr

/-- The constructor `BigEndian(const T& t)`, with `rep(swap(t, true))`. -/
def BigEndian.ofT (bigEndianHost : Bool) (size t : Nat) : BigEndian :=
  { rep := swap bigEndianHost size t true }

/-- The conversion `operator T()`, `swap(rep, true)`. -/
def BigEndian.toT (bigEndianHost : Bool) (size : Nat) (b : BigEndian) : Nat :=
  swap bigEndianHost size b.rep true

/-- The bytes that a `BigEndian<T>` occupies in memory: the object representation of
`rep` (the class is packed and has no other member). -/
def BigEndian.memory (bigEndianHost : Bool) (size : Nat) (b : BigEndian) : List Nat :=
  toMemory bigEndianHost size b.rep

/-! ## The transmit encoders

An embedding of the AFR encoders `SendRusefiFormat`, `SendAemNetUEGOFormat`,
`SendEcuMasterAfrFormat` and `SendLinkAfrFormat` (firmware/can). A payload is a record
of the fields the encoder assigns, each holding the integer that ends up in it. The
encoders of the internal protocol and of AEMNet compute in `float` and convert with
`IntegralType.ofFloat`; those of EcuMaster and LinkEcu compute exactly and have no
result where a conversion is undefined in C++. -/

/-- Whether the truncated value of `x` is a value of the unsigned integer type of `bits`
bits. -/
def fitsUnsigned (bits : Nat) (x : ℚ) : Prop :=
  0 ≤ truncate x ∧ truncate x < 2 ^ bits

instance (bits : Nat) (x : ℚ) : Decidable (fitsUnsigned bits x) :=
  inferInstanceAs (Decidable (0 ≤ truncate x ∧ truncate x < 2 ^ bits))

/-- Whether the truncated value of `x` is a value of the signed integer type of `bits`
bits. -/
def fitsSigned (bits : Nat) (x : ℚ) : Prop :=
  -(2 ^ (bits - 1)) ≤ truncate x ∧ truncate x < 2 ^ (bits - 1)

instance (bits : Nat) (x : ℚ) : Decidable (fitsSigned bits x) :=
  inferInstanceAs (Decidable (-(2 ^ (bits - 1)) ≤ truncate x ∧ truncate x < 2 ^ (bits - 1)))

/-- The conversion of a `float` to an unsigned integer type of `bits` bits: the value is
truncated; when the truncated value is not a value of the type the conversion is
undefined and there is no result. -/
def floatToUnsigned (bits : Nat) (x : ℚ) : Option Nat :=
  if fitsUnsigned bits x then some (truncate x).toNat else none

/-- The conversion of a `float` to a signed integer type of `bits` bits, undefined when
the truncated value is not a value of the type. -/
def floatToSigned (bits : Nat) (x : ℚ) : Option Int :=
  if fitsSigned bits x then some (truncate x) else none

/-- Modelled from the spec: a frame built through `CanTxTyped<T>` of can_helper.h (not
among the sources): the identifier, the extended flag and the typed payload, which
starts out as all zero and is sent as it is when the encoder returns. -/
structure CanTxTyped (α : Type) where
  EID : Nat
  EXT : Bool
  data : α

/-- What the AFR encoders read for one channel besides the configuration record: the
return values of the sampler getters and of `GetPumpOutputDuty`, `GetLambda`,
`LambdaIsValid`, `GetCurrentStatus` and `GetHeaterDuty` (all declared in headers that
are not among the sources), and the heater controller of the channel. -/
structure AfrInputs where
  GetNernstDc : ℚ
  GetSensorTemperature : ℚ
  GetInternalHeaterVoltage : ℚ
  GetSensorInternalResistance : ℚ
  GetPumpNominalCurrent : ℚ
  GetPumpOutputDuty : ℚ
  GetLambda : ℚ
  LambdaIsValid : Bool
  GetCurrentStatus : Nat
  GetHeaterDuty : ℚ
  heater : HeaterControllerBase

/-- The member function `HeaterControllerBase::GetHeaterEffectiveVoltage`: it returns
the data member `heaterVoltage`. -/
def HeaterControllerBase.GetHeaterEffectiveVoltage (c : HeaterControllerBase) : ℚ :=
  c.heaterVoltage

/-- The member function `HeaterControllerBase::GetHeaterState`. -/
def HeaterControllerBase.GetHeaterState (c : HeaterControllerBase) : HeaterState :=
  c.heaterState

/-- The struct `aemnet::UEGOData`. `Lambda` and `Oxygen` are declared `beuint16_t`, the
other fields `uint8_t`; `reserved` is not assigned by the encoder. -/
structure aemnet.UEGOData where
  Lambda : Nat
  Oxygen : Nat
  SystemVolts : Nat
  reserved : Nat
  Flags : Nat
  Faults : Nat
  deriving DecidableEq, Repr

/-- The eight bytes of a packed `aemnet::UEGOData` in memory, which are the data bytes
of the frame: the two `beuint16_t` fields as `BigEndian` lays them out, then the four
single bytes. -/
def aemnet.UEGOData.bytes (bigEndianHost : Bool) (d : aemnet.UEGOData) : List Nat :=
  BigEndian.memory bigEndianHost 2 (BigEndian.ofT bigEndianHost 2 d.Lambda)
    ++ BigEndian.memory bigEndianHost 2 (BigEndian.ofT bigEndianHost 2 d.Oxygen)
    ++ [d.SystemVolts, d.reserved, d.Flags, d.Faults]

/-- The value of the local variable `oxygenPercent` of `SendAemNetUEGOFormat`:
`((lambda - 1.0f) / lambda) * 20.95f` for a valid lambda above 0, each operation
rounded to `float`, and 0 otherwise. -/
def oxygenPercent (lambdaValid : Bool) (lambda : ℚ) : ℚ :=
  if lambdaValid = true ∧ lambda > 0 then
    binary32.round
      (binary32.round (binary32.round (lambda - 1) / lambda) * binary32.round (2095 / 100))
  else 0

/-- Readings of a channel in closed loop with the given lambda, its validity and the
given supply voltage; the heater controller is the one of test_heater.cpp. -/
def sampleInputs (lambda : ℚ) (valid : Bool) (volts : ℚ) : AfrInputs :=
  { GetNernstDc := 9 / 20
    GetSensorTemperature := 780
    GetInternalHeaterVoltage := volts
    GetSensorInternalResistance := 300
    GetPumpNominalCurrent := 0
    GetPumpOutputDuty := 1 / 2
    GetLambda := lambda
    LambdaIsValid := valid
    GetCurrentStatus := 0
    GetHeaterDuty := 1 / 4
    heater := dutRunning }

/-- The macro `ECUMASTER_L2C_BASE_ID` of can_ecumaster.cpp. -/
def ECUMASTER_L2C_BASE_ID : Nat := 0x664

/-- The enumeration `ecumaster::CalibrationStates`. -/
inductive ecumaster.CalibrationStates where
  | Start
  | WaitForSPIReset
  | Finished
  | Error
  deriving DecidableEq, Repr

/-- The value of an enumerator of `ecumaster::CalibrationStates`. -/
def ecumaster.CalibrationStates.toNat : ecumaster.CalibrationStates → Nat
  | ecumaster.CalibrationStates.Start => 0x00
  | ecumaster.CalibrationStates.WaitForSPIReset => 0x04
  | ecumaster.CalibrationStates.Finished => 0x08
  | ecumaster.CalibrationStates.Error => 0x0C

/-- The enumeration `ecumaster::SensorType`. -/
inductive ecumaster.SensorType where
  | LSU42
  | LSU49
  | LSUADV
  deriving DecidableEq, Repr

/-- The struct `ecumaster::AfrData1`, the fields that the encoder assigns: `SystemVolts`
and `Lambda` are declared `beuint16_t`, `HeaterPower` and `SensorTemp` `uint8_t`,
`CalibrationState` is a bit-field of three bits and holds their value. The ten one-bit
fault flags of the struct are not assigned and stay as the frame was built. -/
structure ecumaster.AfrData1 where
  SystemVolts : Nat
  HeaterPower : Nat
  SensorTemp : Nat
  Lambda : Nat
  CalibrationState : Nat
  DeviceVersion : ecumaster.SensorType
  deriving DecidableEq, Repr

/-- The struct `ecumaster::AfrData2`, the fields that the encoder assigns: `IpCurrent`
and `OxygenConcentration` are declared `beint16_t`, `Ri` `beuint16_t`. -/
structure ecumaster.AfrData2 where
  IpCurrent : Int
  OxygenConcentration : Int
  Ri : Nat
  deriving DecidableEq, Repr

/-- The two frames that `SendEcuMasterAfrFormat` builds, under the names of its local
variables. -/
structure EcuMasterAfrFrames where
  frame : CanTxTyped ecumaster.AfrData1
  frame2 : CanTxTyped ecumaster.AfrData2

/-- The function `SendEcuMasterAfrFormat` of can_ecumaster.cpp: the frames it sends, or
nothing where a conversion it makes is undefined. `SystemVolts` is assigned the supply
voltage times 10. `CalibrationState` is assigned `Finished` = 0x08; the bit-field has
three bits and keeps the low three bits of that value. -/
def SendEcuMasterAfrFormat (configuration : Configuration) (ch : Fin 2) (inp : AfrInputs) :
    Option EcuMasterAfrFrames :=
  let id := ECUMASTER_L2C_BASE_ID + (configuration.afr ch).ExtraCanIdOffset * 2
  let lambda := inp.GetLambda
  let oxygenPercent : ℚ :=
    if inp.LambdaIsValid = true ∧ lambda > 0 then ((lambda - 1) / lambda) * (2095 / 100)
    else 0
  (floatToUnsigned 16 (inp.GetInternalHeaterVoltage * 10)).bind fun SystemVolts =>
  (floatToUnsigned 8 (inp.GetSensorTemperature / 4)).bind fun SensorTemp =>
  (floatToUnsigned 16 (if inp.LambdaIsValid = true then lambda * 1000 else 0)).bind
    fun Lambda =>
  (floatToSigned 16 (inp.GetPumpNominalCurrent * 1000)).bind fun IpCurrent =>
  (floatToSigned 16 (oxygenPercent * 100)).bind fun OxygenConcentration =>
  (floatToUnsigned 16 (inp.GetSensorInternalResistance * 10)).bind fun Ri =>
  some
    { frame :=
        { EID := id
          EXT := true
          data :=
            { SystemVolts := SystemVolts
              HeaterPower := 0
              SensorTemp := SensorTemp
              Lambda := Lambda
              CalibrationState := ecumaster.CalibrationStates.Finished.toNat % 2 ^ 3
              DeviceVersion :=
                match configuration.sensorType with
                | SensorType.LSU42 => ecumaster.SensorType.LSU42
                | SensorType.LSU49 => ecumaster.SensorType.LSU49
                | SensorType.LSUADV => ecumaster.SensorType.LSUADV } }
      frame2 :=
        { EID := id + 1
          EXT := true
          data :=
            { IpCurrent := IpCurrent
              OxygenConcentration := OxygenConcentration
              Ri := Ri } } }

/-- The enumeration `linkecu::AfrStatus`. -/
inductive linkecu.AfrStatus where
  | Off
  | Disabled
  | Initializing
  | Diagnostic
  | Calibration
  | Heating
  | Operating
  deriving DecidableEq, Repr

/-- The struct `linkecu::AfrData1`, without its reserved byte: `FrameIndex` holds the
value of its default member initialiser, `Lambda` and `SensorTemp` are declared
`beuint16_t`. -/
structure linkecu.AfrData1 where
  FrameIndex : Nat
  ErrorCodes : Nat
  Lambda : Nat
  SensorTemp : Nat
  Status : linkecu.AfrStatus
  deriving DecidableEq, Repr

/-- The struct `linkecu::AfrData2`, without its reserved byte: `FrameIndex` holds the
value of its default member initialiser, the other three fields are declared
`beuint16_t`. -/
structure linkecu.AfrData2 where
  FrameIndex : Nat
  IpCurrent : Nat
  SystemVoltage : Nat
  HeaterVoltage : Nat
  deriving DecidableEq, Repr

/-- The two frames that `SendLinkAfrFormat` builds, under the names of its local
variables. -/
structure LinkAfrFrames where
  frame : CanTxTyped linkecu.AfrData1
  frame2 : CanTxTyped linkecu.AfrData2

/-- The function `SendLinkAfrFormat` of can_link.cpp: the frames it sends, both at the
same identifier, or nothing where a conversion it makes is undefined. -/
def SendLinkAfrFormat (configuration : Configuration) (ch : Fin 2) (inp : AfrInputs) :
    Option LinkAfrFrames :=
  let id := LINKECU_L2C_BASE_ID + (configuration.afr ch).ExtraCanIdOffset
  let lambda := inp.GetLambda
  (floatToUnsigned 16 (if inp.LambdaIsValid = true then lambda * 1000 else 0)).bind
    fun Lambda =>
  (floatToUnsigned 16 inp.GetSensorTemperature).bind fun SensorTemp =>
  (floatToUnsigned 16 (inp.GetPumpNominalCurrent * 1000)).bind fun IpCurrent =>
  (floatToUnsigned 16 (inp.GetInternalHeaterVoltage * 100)).bind fun SystemVoltage =>
  (floatToUnsigned 16 (inp.heater.GetHeaterEffectiveVoltage * 100)).bind fun HeaterVoltage =>
  some
    { frame :=
        { EID := id
          EXT := true
          data :=
            { FrameIndex := 50
              ErrorCodes := 0
              Lambda := Lambda
              SensorTemp := SensorTemp
              Status :=
                match inp.heater.GetHeaterState with
                | HeaterState.Preheat => linkecu.AfrStatus.Heating
                | HeaterState.WarmupRamp => linkecu.AfrStatus.Heating
                | HeaterState.ClosedLoop => linkecu.AfrStatus.Operating
                | HeaterState.Stopped => linkecu.AfrStatus.Disabled } }
      frame2 :=
        { EID := id
          EXT := true
          data :=
            { FrameIndex := 51
              IpCurrent := IpCurrent
              SystemVoltage := SystemVoltage
              HeaterVoltage := HeaterVoltage } } }

/-- The readings `sampleInputs 1 true 12` with the heater controller of test_heater.cpp
after one `Update` at time 0 with a cold sensor (500 °C), heating allowed and a 12 V
supply. -/
def linkInputs : AfrInputs :=
  { sampleInputs 1 true 12 with
    heater := (dut.Update testBoard 0 300 500 HeaterAllow.Allowed 12).ctrl }

/-- Modelled from the spec: the struct `wbo::StandardData` of wideband_can.h (not among
the sources), with the members that `SendRusefiFormat` assigns; the spec gives the
payload as `{version:u16, λ×10000:u16, T:i16, valid:u8}`. -/
structure wbo.StandardData where
  Version : Nat
  Lambda : Nat
  TemperatureC : Int
  Valid : Nat
  deriving DecidableEq, Repr

/-- Modelled from the spec: the struct `wbo::DiagData` of wideband_can.h (not among the
sources), with the members that `SendRusefiFormat` assigns; the spec gives the payload
as `{ESR:u16, nernst_dc×1000:i16, pump_duty×255:u8, status:u8, heater_duty×255:u8}`. -/
structure wbo.DiagData where
  Esr : Nat
  NernstDc : Int
  PumpDuty : Nat
  status : Nat
  HeaterDuty : Nat
  deriving DecidableEq, Repr

/-- What one `SendRusefiFormat` call sends: the StandardData frame and the DiagData
frame, each present when its block of the function ran. -/
structure RusefiFrames where
  standard : Option (CanTxTyped wbo.StandardData)
  diag : Option (CanTxTyped wbo.DiagData)

/-- The function `SendRusefiFormat` of can_rusefi.cpp: the frames it sends. Each product
is a `float`, converted to the integer type of the field it is assigned to. The macro
`RUSEFI_WIDEBAND_VERSION` of wideband_can.h and the extended flag that a `CanTxTyped`
built from an identifier alone gets in can_helper.h are parameters. -/
def SendRusefiFormat (ids : WidebandCan) (RUSEFI_WIDEBAND_VERSION : Nat)
    (isExtended : Bool) (configuration : Configuration) (ch : Fin 2) (inp : AfrInputs) :
    RusefiFrames :=
  let baseAddress := ids.WB_DATA_BASE_ADDR + 2 * (configuration.afr ch).RusEfiIdx
  let nernstDc := inp.GetNernstDc
  let pumpDuty := inp.GetPumpOutputDuty
  let lambda := inp.GetLambda
  let lambdaValid := inp.LambdaIsValid
  let standard : Option (CanTxTyped wbo.StandardData) :=
    if (configuration.afr ch).RusEfiTx = true then
      let lambdaInt : Nat :=
        (uint16_t.ofFloat
          (if lambdaValid = true then binary32.round (lambda * 10000) else 0)).toNat
      some
        { EID := baseAddress + 0
          EXT := isExtended
          data :=
            { Version := RUSEFI_WIDEBAND_VERSION
              Lambda := lambdaInt
              TemperatureC := int16_t.ofFloat inp.GetSensorTemperature
              Valid := if lambdaValid = true then 0x01 else 0x00 } }
    else none
  let diag : Option (CanTxTyped wbo.DiagData) :=
    if (configuration.afr ch).RusEfiTxDiag = true then
      some
        { EID := baseAddress + 1
          EXT := isExtended
          data :=
            { Esr := (uint16_t.ofFloat inp.GetSensorInternalResistance).toNat
              NernstDc := int16_t.ofFloat (binary32.round (nernstDc * 1000))
              PumpDuty := (uint8_t.ofFloat (binary32.round (pumpDuty * 255))).toNat
              status := inp.GetCurrentStatus
              HeaterDuty :=
                (uint8_t.ofFloat (binary32.round (inp.GetHeaterDuty * 255))).toNat } }
    else none
  { standard := standard, diag := diag }

/-- A channel entry with the given internal-protocol index and transmit flags. -/
def rusefiChannel (idx : Nat) (tx txDiag : Bool) : ChannelSettings :=
  { sampleChannel idx with RusEfiTx := tx, RusEfiTxDiag := txDiag }

/-- The record `sampleConfiguration` with AFR channel 0 at index 3 sending StandardData
only and AFR channel 1 at index 4 sending nothing. -/
def rusefiConfiguration : Configuration :=
  { sampleConfiguration with afr := ![rusefiChannel 3 true false, rusefiChannel 4 false false] }

/-! ## The configuration defaults

An embedding of `class Configuration` of firmware/boards/port.h with its member
functions `IsValid` and `LoadDefaults`. This header declares the channel entries with
an AemNet flag and two identifier offsets. -/

/-- The per-channel settings struct that boards/port.h declares for the `afr` and `egt`
entries of its `Configuration`. -/
structure port.ChannelSettings where
  RusEfiTx : Bool
  RusEfiTxDiag : Bool
  AemNetTx : Bool
  RusEfiIdOffset : Nat
  AemNetIdOffset : Nat
  pad : List Nat
  deriving DecidableEq, Repr

/-- The class `Configuration` of boards/port.h: the tag and the members of the packed
struct in its union. -/
structure port.Configuration where
  Tag : Nat
  NoLongerUsed0 : Nat
  auxOutBins : Fin 2 → Fin 8 → ℚ
  auxOutValues : Fin 2 → Fin 8 → ℚ
  auxOutputSource : Fin 2 → AuxOutputMode
  sensorType : SensorType
  afr : Fin 2 → port.ChannelSettings
  egt : Fin 2 → port.ChannelSettings

/-- The constant `Configuration::ExpectedTag`. -/
def port.ExpectedTag : Nat := 0xDEADBE02

/-- The member function `Configuration::IsValid`. -/
def port.Configuration.IsValid (c : port.Configuration) : Bool :=
  c.Tag == port.ExpectedTag

/-- A value-initialised channel entry: every flag false, every byte zero. -/
def port.ChannelSettings.zero : port.ChannelSettings :=
  { RusEfiTx := false
    RusEfiTxDiag := false
    AemNetTx := false
    RusEfiIdOffset := 0
    AemNetIdOffset := 0
    pad := [0, 0, 0, 0, 0] }

/-- The value `{}` that `LoadDefaults` first assigns to `*this`: the tag from its
default member initialiser, everything else zero (`AuxOutputMode::Afr0` and
`SensorType::LSU49` are the enumerators with value 0). -/
def port.Configuration.zero : port.Configuration :=
  { Tag := port.ExpectedTag
    NoLongerUsed0 := 0
    auxOutBins := fun _ _ => 0
    auxOutValues := fun _ _ => 0
    auxOutputSource := fun _ => AuxOutputMode.Afr0
    sensorType := SensorType.LSU49
    afr := fun _ => port.ChannelSettings.zero
    egt := fun _ => port.ChannelSettings.zero }

/-- One pass of the first loop of `LoadDefaults`:
`auxOutBins[0][i] = auxOutBins[1][i] = 8.5 + (18.0 - 8.5) / 7 * i` and
`auxOutValues[0][i] = auxOutValues[1][i] = 0.0 + (5.0 - 0.0) / 7 * i`. -/
def port.loadCurvePoint (c : port.Configuration) (i : Nat) : port.Configuration :=
  if h : i < 8 then
    { c with
      auxOutBins := fun j k =>
        if k = ⟨i, h⟩ then 17 / 2 + (18 - 17 / 2) / 7 * (i : ℚ) else c.auxOutBins j k
      auxOutValues := fun j k =>
        if k = ⟨i, h⟩ then 0 + (5 - 0) / 7 * (i : ℚ) else c.auxOutValues j k }
  else c

/-- One pass of the loop of `LoadDefaults` over the AFR channels. The offset `2 * i` is
stored into a `uint8_t`; an index outside the two entries is not written. -/
def port.loadAfrChannel (c : port.Configuration) (i : Nat) : port.Configuration :=
  if h : i < 2 then
    { c with
      afr := Function.update c.afr ⟨i, h⟩
        { c.afr ⟨i, h⟩ with
          RusEfiTx := true
          RusEfiTxDiag := true
          RusEfiIdOffset := (2 * i) % 256
          AemNetTx := false
          AemNetIdOffset := i % 256 } }
  else c

/-- One pass of the loop of `LoadDefaults` over the EGT channels. -/
def port.loadEgtChannel (c : port.Configuration) (i : Nat) : port.Configuration :=
  if h : i < 2 then
    { c with
      egt := Function.update c.egt ⟨i, h⟩
        { c.egt ⟨i, h⟩ with
          RusEfiTx := false
          RusEfiTxDiag := false
          RusEfiIdOffset := i % 256
          AemNetTx := true
          AemNetIdOffset := i % 256 } }
  else c

/-- The member function `Configuration::LoadDefaults`, for a build with the channel
counts `n` and the macro `BOARD_DEFAULT_SENSOR_TYPE` (LSU4.9 unless the board defines
it). The record it is called on is overwritten as a whole. -/
def port.Configuration.LoadDefaults (n : ChannelCounts)
    (BOARD_DEFAULT_SENSOR_TYPE : SensorType) (_self : port.Configuration) :
    port.Configuration :=
  let c0 : port.Configuration := port.Configuration.zero
  let c1 : port.Configuration :=
    { c0 with NoLongerUsed0 := 0, sensorType := BOARD_DEFAULT_SENSOR_TYPE }
  let c2 := (List.range 8).foldl port.loadCurvePoint c1
  let c3 : port.Configuration :=
    { c2 with
      auxOutputSource := fun j => if j = 0 then AuxOutputMode.Afr0 else AuxOutputMode.Afr1 }
  let c4 := (List.range n.AFR_CHANNELS).foldl port.loadAfrChannel c3
  let c5 := (List.range n.EGT_CHANNELS).foldl port.loadEgtChannel c4
  { c5 with Tag := port.ExpectedTag }

/-- A record with an invalid tag and arbitrary other content, as read from blank
storage. -/
def port.blankConfiguration : port.Configuration :=
  { port.Configuration.zero with
    Tag := 0xFFFFFFFF
    NoLongerUsed0 := 0xFF
    sensorType := SensorType.LSUADV }

/-! ## Scaled storage

The member function `setValue` of `ScaledValue<TStorage, N, D>` (util/fixed_point.h),
next to the `getValue` above. -/

/-- The member function `ScaledValue<TStorage, N, D>::setValue`: the raw value it
stores. Each limit is converted to `float` for its comparison with `scaled`. -/
def ScaledValue.setValue (T : IntegralType) (num den : Nat) (val : ℚ) : Int :=
  let scaled : ℚ := binary32.round (val / ScaledValue.scale num den)
  if scaled < binary32.round (T.minRawValue : ℚ) then T.minRawValue
  else if scaled > binary32.round (T.maxRawValue : ℚ) then T.maxRawValue
  else T.ofFloat (binary32.round (scaled + (if scaled ≥ 0 then 1 / 2 else -(1 / 2))))

/-! ## The pump loop

An embedding of `class SensorDetector` and of the body of the loop of `PumpThread`
(firmware/pump_control.cpp). The argument of each `SetPumpCurrentTarget` call, in
microamperes, is returned next to the new state. -/

/-- The data members of `class SensorDetector`. -/
structure SensorDetector where
  cycle : Int
  counter : Int
  nernstHi : ℚ
  nernstLo : ℚ
  maxAmplitude : ℚ
  deriving DecidableEq, Repr

/-- A `SensorDetector` as its default member initialisers leave it. -/
def SensorDetector.initial : SensorDetector :=
  { cycle := 0, counter := 0, nernstHi := 0, nernstLo := 0, maxAmplitude := 0 }

/-- The function `f_abs` of pump_control.cpp. -/
def f_abs (x : ℚ) : ℚ :=
  if x > 0 then x else -x

/-- The outcome of one `feed` call: the detector after the call and the argument of its
`SetPumpCurrentTarget` call. -/
structure FeedResult where
  detector : SensorDetector
  target : ℚ

/-- The member function `SensorDetector::feed`; `nernstDc` is what
`sampler.GetNernstDc()` returns. The increments of the two `int` members wrap as
`cycle++` does. -/
def SensorDetector.feed (d : SensorDetector) (nernstDc : ℚ) : FeedResult :=
  let target : ℚ := if d.cycle < 25 then 1 * 1000 else -1 * 1000
  let d1 : SensorDetector :=
    if d.cycle < 25 then { d with nernstHi := nernstDc } else { d with nernstLo := nernstDc }
  let d2 : SensorDetector := { d1 with cycle := incrCycle d1.cycle }
  let d3 : SensorDetector :=
    if d2.cycle ≥ 50 then
      let amplitude := f_abs (d2.nernstHi - d2.nernstLo)
      let d4 : SensorDetector :=
        if amplitude > d2.maxAmplitude then { d2 with maxAmplitude := amplitude } else d2
      { d4 with cycle := 0, counter := incrCycle d4.counter }
    else d2
  { detector := d3, target := target }

/-- The member function `SensorDetector::reset`. -/
def SensorDetector.reset (_d : SensorDetector) : SensorDetector :=
  { cycle := 0, counter := 0, nernstHi := 0, nernstLo := 0, maxAmplitude := 0 }

/-- The detector after `n` consecutive `feed` calls; call number `k` (counted from 0)
is made with the Nernst voltage `nernstDc k`. -/
def SensorDetector.afterFeeds (d : SensorDetector) (nernstDc : Nat → ℚ) :
    Nat → SensorDetector
  | 0 => d
  | n + 1 => ((d.afterFeeds nernstDc n).feed (nernstDc n)).detector

/-- The macros of wideband_config.h (not among the sources) that the pump loop uses;
the spec gives 200 °C for `START_PUMP_TEMP_OFFSET` and 0.45 V for `NERNST_TARGET`. -/
structure PumpConfig where
  START_PUMP_TEMP_OFFSET : ℚ
  START_SENSOR_DETECTION_TEMP_OFFSET : ℚ
  NERNST_TARGET : ℚ
  PUMP_CONTROL_PERIOD : Nat
  deriving DecidableEq, Repr

/-- The constant `pumpPidConfig` of pump_control.cpp. -/
def pumpPidConfig : PidConfig :=
  { kP := 50, kI := 10000, kD := 0, clamp := 10 }

/-- The struct `pump_control_state`. -/
structure pump_control_state where
  pumpPid : Pid
  deriving DecidableEq, Repr

/-- What the pump loop keeps for one channel: `state[ch]` and `sensorDetector[ch]`. -/
structure PumpChannel where
  state : pump_control_state
  sensorDetector : SensorDetector
  deriving DecidableEq, Repr

/-- A channel at start-up: the PID built from `pumpPidConfig` and the period, and a
detector as initialised. -/
def PumpChannel.initial (k : PumpConfig) : PumpChannel :=
  { state := { pumpPid := Pid.init pumpPidConfig k.PUMP_CONTROL_PERIOD }
    sensorDetector := SensorDetector.initial }

/-- The outcome of one pass of the pump loop for one channel: the channel after it and
the argument of the `SetPumpCurrentTarget` call it made. -/
structure PumpResult where
  channel : PumpChannel
  target : ℚ

/-- The member function `HeaterControllerBase::IsRunningClosedLoop`. -/
def HeaterControllerBase.IsRunningClosedLoop (c : HeaterControllerBase) : Bool :=
  c.heaterState == HeaterState.ClosedLoop

/-- The member function `HeaterControllerBase::GetTargetTemp`. -/
def HeaterControllerBase.GetTargetTemp (c : HeaterControllerBase) : ℚ :=
  c.m_targetTempC

/-- The body of the loop over the channels in `PumpThread`, for one channel:
`pumpGainAdjust` is the static of that name, `heater` the heater controller of the
channel, and the two readings are what `sampler.GetSensorTemperature()` and
`sampler.GetNernstDc()` return. -/
def PumpThread.channel (k : PumpConfig) (pumpGainAdjust : ℚ) (heater : HeaterControllerBase)
    (GetSensorTemperature GetNernstDc : ℚ) (c : PumpChannel) : PumpResult :=
  if heater.IsRunningClosedLoop = true
      ∨ GetSensorTemperature ≥ heater.GetTargetTemp - k.START_PUMP_TEMP_OFFSET then
    let nernstVoltage := GetNernstDc
    let r := c.state.pumpPid.GetOutput k.NERNST_TARGET nernstVoltage
    let result : ℚ := pumpGainAdjust * r.1
    { channel := { c with state := { pumpPid := r.2 } }, target := result * 1000 }
  else if GetSensorTemperature
      ≥ heater.GetTargetTemp - k.START_SENSOR_DETECTION_TEMP_OFFSET then
    let f := c.sensorDetector.feed GetNernstDc
    { channel := { c with sensorDetector := f.detector }, target := f.target }
  else
    { channel := { c with sensorDetector := c.sensorDetector.reset }, target := 0 }

/-- A pump configuration with the offsets 200 °C and 250 °C, the Nernst target 0.45 V
and a 2 ms period. -/
def samplePumpConfig : PumpConfig :=
  { START_PUMP_TEMP_OFFSET := 200
    START_SENSOR_DETECTION_TEMP_OFFSET := 250
    NERNST_TARGET := 9 / 20
    PUMP_CONTROL_PERIOD := 2 }

/-- A channel whose detector is in the middle of a cycle and has seen an amplitude. -/
def busyPumpChannel : PumpChannel :=
  { state := { pumpPid := Pid.init pumpPidConfig 2 }
    sensorDetector :=
      { cycle := 30, counter := 4, nernstHi := 1 / 2, nernstLo := 2 / 5, maxAmplitude := 1 / 10 } }

/-- A Nernst voltage that follows the pump current of the detector: 0.5 V in the first
half of every 50-tick cycle and 0.4 V in the second half. -/
def squareNernst (n : Nat) : ℚ :=
  if n % 50 < 25 then 1 / 2 else 2 / 5

/-- The test controller stopped at time 0 with a retry time of 30 s. -/
def dutStopped : HeaterControllerBase :=
  { dut with
    heaterState := HeaterState.Stopped
    m_retryTime := 30
    m_retryTimer := { lastReset := 0 } }

/-! ## The receive thread

An embedding of the loop of `CanRxThread` (firmware/can.cpp): every frame received goes
to `ProcessRusefiCanMessage` and then to `ProcessLinkCanMessage`. -/

/-- One pass of the loop of `CanRxThread` for a frame that was received: the two
handlers in order, the second on the state the first left; a handler that resets the
system ends the pass. -/
def CanRxThread.frame (ids : WidebandCan) (n : ChannelCounts) (frame : CANRxFrame)
    (st : RxState) : RxResult :=
  let r1 := ProcessRusefiCanMessage ids n frame st
  if r1.effects.any RxEffect.isReset then r1
  else
    { state := (ProcessLinkCanMessage n frame r1.state).state
      effects := r1.effects ++ (ProcessLinkCanMessage n frame r1.state).effects }

/-- The loop of `CanRxThread` over a finite sequence of received frames, up to and
including the first pass that resets the system. -/
def CanRxThread.run (ids : WidebandCan) (n : ChannelCounts) :
    List CANRxFrame → RxState → RxResult
  | [], st => { state := st, effects := [] }
  | frame :: frames, st =>
    let r := CanRxThread.frame ids n frame st
    if r.effects.any RxEffect.isReset then r
    else
      { state := (CanRxThread.run ids n frames r.state).state
        effects := r.effects ++ (CanRxThread.run ids n frames r.state).effects }

/-- A standard (not extended) frame with the identifier and the data of an ECU-status
frame that forbids heating. -/
def standardFrame : CANRxFrame :=
  { EXT := false, ID := 0xEF50000, DLC := 8, data8 := ![85, 0, 0, 0, 0, 0, 0, 0] }

/-! ## Basic facts about the operations -/

/-! ## Rounding to an integer and to binary32 -/

theorem roundHalfEven_cases (q : ℚ) :
    roundHalfEven q = ⌊q⌋ ∨ roundHalfEven q = ⌊q⌋ + 1 := by
  unfold roundHalfEven
  split_ifs <;> simp

theorem roundHalfEven_sub_le (q : ℚ) : |(roundHalfEven q : ℚ) - q| ≤ 1 / 2 := by
  have h0 := Int.floor_le q
  have h1 := Int.lt_floor_add_one q
  unfold roundHalfEven
  rw [abs_le]
  split_ifs with ha hb hc
  · constructor <;> linarith
  · constructor <;> push_cast <;> linarith
  · have he : q - ⌊q⌋ = 1 / 2 := le_antisymm (not_lt.mp hb) (not_lt.mp ha)
    constructor <;> linarith
  · have he : q - ⌊q⌋ = 1 / 2 := le_antisymm (not_lt.mp hb) (not_lt.mp ha)
    constructor <;> push_cast <;> linarith

theorem roundHalfEven_eq_of_lt (q : ℚ) (z : Int) (h : |q - z| < 1 / 2) :
    roundHalfEven q = z := by
  have h2 := roundHalfEven_sub_le q
  rw [abs_lt] at h
  rw [abs_le] at h2
  have hlt : |((roundHalfEven q - z : Int) : ℚ)| < 1 := by
    rw [abs_lt]
    push_cast
    constructor <;> linarith [h.1, h.2, h2.1, h2.2]
  have hz : |roundHalfEven q - z| < 1 := by exact_mod_cast hlt
  have := Int.abs_lt_one_iff.mp hz
  omega

theorem roundHalfEven_intCast (z : Int) : roundHalfEven (z : ℚ) = z :=
  roundHalfEven_eq_of_lt _ z (by simp)

theorem roundHalfEven_le_of_le (q : ℚ) (z : Int) (h : q ≤ z) : roundHalfEven q ≤ z := by
  have hf : ⌊q⌋ ≤ z := Int.floor_le_floor (a := q) (b := (z : ℚ)) h |>.trans_eq (Int.floor_intCast z)
  rcases hf.lt_or_eq with hlt | heq
  · rcases roundHalfEven_cases q with hc | hc <;> omega
  · have hq : q = z := le_antisymm h (by rw [← heq]; exact Int.floor_le q)
    rw [hq, roundHalfEven_intCast]

theorem le_roundHalfEven_of_le (q : ℚ) (z : Int) (h : (z : ℚ) ≤ q) : z ≤ roundHalfEven q := by
  have hf : z ≤ ⌊q⌋ := Int.le_floor.mpr h
  rcases roundHalfEven_cases q with hc | hc <;> omega

theorem roundHalfEven_mono (q r : ℚ) (h : q ≤ r) : roundHalfEven q ≤ roundHalfEven r := by
  have hf : ⌊q⌋ ≤ ⌊r⌋ := Int.floor_le_floor h
  rcases hf.lt_or_eq with hlt | heq
  · have h1 : roundHalfEven q ≤ ⌊q⌋ + 1 := by
      rcases roundHalfEven_cases q with hc | hc <;> omega
    have h2 : ⌊r⌋ ≤ roundHalfEven r := by
      rcases roundHalfEven_cases r with hc | hc <;> omega
    omega
  · unfold roundHalfEven
    rw [← heq]
    split_ifs <;> first | omega | (exfalso; linarith)

theorem roundHalfEven_half (z : Int) :
    roundHalfEven ((z : ℚ) + 1 / 2) = if z % 2 = 0 then z else z + 1 := by
  have hf : ⌊(z : ℚ) + 1 / 2⌋ = z := by
    rw [Int.floor_eq_iff]
    constructor <;> linarith
  unfold roundHalfEven
  rw [hf]
  have h1 : ¬ ((z : ℚ) + 1 / 2 - z < 1 / 2) := by linarith
  have h2 : ¬ ((1 : ℚ) / 2 < (z : ℚ) + 1 / 2 - z) := by linarith
  rw [if_neg h1, if_neg h2]

theorem roundHalfEven_neg (q : ℚ) : roundHalfEven (-q) = -roundHalfEven q := by
  by_cases hint : (⌊q⌋ : ℚ) = q
  · rw [← hint, ← Int.cast_neg, roundHalfEven_intCast, roundHalfEven_intCast]
  · have h0 := Int.floor_le q
    have h1 := Int.lt_floor_add_one q
    have hlt : (⌊q⌋ : ℚ) < q := lt_of_le_of_ne h0 hint
    have hfn : ⌊-q⌋ = -⌊q⌋ - 1 := by
      rw [Int.floor_eq_iff]
      push_cast
      constructor <;> linarith
    unfold roundHalfEven
    rw [hfn]
    push_cast
    split_ifs <;> first | omega | (exfalso; linarith)

theorem ulpExponent_of_ne (q : ℚ) (h : q ≠ 0) :
    binary32.ulpExponent q = max (Int.log 2 |q|) (-126) - 23 :=
  if_neg h

theorem ulpExponent_zero : binary32.ulpExponent 0 = -149 :=
  if_pos rfl

theorem ulpExponent_ge (q : ℚ) : -149 ≤ binary32.ulpExponent q := by
  unfold binary32.ulpExponent
  split_ifs
  · exact le_refl _
  · have := le_max_right (Int.log 2 |q|) (-126)
    omega

theorem log_two_eq (q : ℚ) (e : Int) (hlo : (2 : ℚ) ^ e ≤ |q|) (hhi : |q| < 2 ^ (e + 1)) :
    Int.log 2 |q| = e := by
  have hpos : (0 : ℚ) < |q| := lt_of_lt_of_le (by positivity) hlo
  have h1 : e ≤ Int.log 2 |q| := by
    rw [← Int.zpow_le_iff_le_log (by norm_num) hpos]
    exact_mod_cast hlo
  have h2 : Int.log 2 |q| < e + 1 := by
    rw [← Int.lt_zpow_iff_log_lt (by norm_num) hpos]
    exact_mod_cast hhi
  omega

theorem ulpExponent_eq (q : ℚ) (e : Int) (hlo : (2 : ℚ) ^ e ≤ |q|) (hhi : |q| < 2 ^ (e + 1))
    (he : -126 ≤ e) : binary32.ulpExponent q = e - 23 := by
  have hpos : (0 : ℚ) < |q| := lt_of_lt_of_le (by positivity) hlo
  rw [ulpExponent_of_ne q (abs_pos.mp hpos), log_two_eq q e hlo hhi, max_eq_left he]

theorem ulpExponent_small (q : ℚ) (h : |q| < 2 ^ (-126 : Int)) :
    binary32.ulpExponent q = -149 := by
  by_cases h0 : q = 0
  · rw [h0, ulpExponent_zero]
  · have hpos : (0 : ℚ) < |q| := abs_pos.mpr h0
    have hl : Int.log 2 |q| < -126 := by
      rw [← Int.lt_zpow_iff_log_lt (by norm_num) hpos]
      exact_mod_cast h
    rw [ulpExponent_of_ne q h0, max_eq_right (le_of_lt hl)]
    norm_num

theorem ulpExponent_le (q : ℚ) (k : Int) (hk : -126 ≤ k) (h : |q| < 2 ^ (k + 1)) :
    binary32.ulpExponent q ≤ k - 23 := by
  by_cases h0 : q = 0
  · rw [h0, ulpExponent_zero]
    omega
  · have hpos : (0 : ℚ) < |q| := abs_pos.mpr h0
    have hl : Int.log 2 |q| < k + 1 := by
      rw [← Int.lt_zpow_iff_log_lt (by norm_num) hpos]
      exact_mod_cast h
    rw [ulpExponent_of_ne q h0]
    have := max_le (Int.le_of_lt_add_one hl) hk
    omega

theorem abs_lt_two_pow_ulpExponent (q : ℚ) :
    |q| < 2 ^ (binary32.ulpExponent q + 24) := by
  by_cases h0 : q = 0
  · rw [h0, abs_zero]
    positivity
  · have h1 : |q| < ((2 : ℕ) : ℚ) ^ (Int.log 2 |q| + 1) :=
      Int.lt_zpow_succ_log_self (by norm_num) |q|
    rw [ulpExponent_of_ne q h0]
    refine lt_of_lt_of_le h1 ?_
    rw [Nat.cast_ofNat]
    apply zpow_le_zpow_right₀ (by norm_num)
    have := le_max_left (Int.log 2 |q|) (-126)
    omega

theorem two_pow_ulpExponent_le_abs (q : ℚ) (h : (2 : ℚ) ^ (-126 : Int) ≤ |q|) :
    (2 : ℚ) ^ (binary32.ulpExponent q + 23) ≤ |q| := by
  have hpos : (0 : ℚ) < |q| := lt_of_lt_of_le (by positivity) h
  have hl : -126 ≤ Int.log 2 |q| := by
    rw [← Int.zpow_le_iff_le_log (by norm_num) hpos]
    exact_mod_cast h
  rw [ulpExponent_of_ne q (abs_pos.mp hpos), max_eq_left hl]
  have h1 : ((2 : ℕ) : ℚ) ^ Int.log 2 |q| ≤ |q| := Int.zpow_log_le_self (by norm_num) hpos
  rw [Nat.cast_ofNat] at h1
  rw [show Int.log 2 |q| - 23 + 23 = Int.log 2 |q| by ring]
  exact h1

theorem ulpExponent_neg (q : ℚ) : binary32.ulpExponent (-q) = binary32.ulpExponent q := by
  unfold binary32.ulpExponent
  rw [abs_neg]
  simp only [neg_eq_zero]

theorem ulpExponent_mono (q r : ℚ) (h : |q| ≤ |r|) :
    binary32.ulpExponent q ≤ binary32.ulpExponent r := by
  by_cases h0 : q = 0
  · rw [h0, ulpExponent_zero]
    exact ulpExponent_ge r
  · have hpos : (0 : ℚ) < |q| := abs_pos.mpr h0
    have hr : r ≠ 0 := abs_pos.mp (lt_of_lt_of_le hpos h)
    rw [ulpExponent_of_ne q h0, ulpExponent_of_ne r hr]
    have := Int.log_mono_right (b := 2) hpos h
    have h1 := max_le_max this (le_refl (-126 : Int))
    omega

theorem two_zpow_pos (e : Int) : (0 : ℚ) < 2 ^ e := by positivity

theorem round_eq_of_exponent (q : ℚ) (u : Int) (m : Int) (hu : binary32.ulpExponent q = u)
    (hm : |q / 2 ^ u - m| < 1 / 2) : binary32.round q = (m : ℚ) * 2 ^ u := by
  unfold binary32.round
  rw [hu, roundHalfEven_eq_of_lt _ m hm]

theorem round_eq (q : ℚ) (e : Int) (m : Int) (hlo : (2 : ℚ) ^ e ≤ |q|)
    (hhi : |q| < 2 ^ (e + 1)) (he : -126 ≤ e) (hm : |q / 2 ^ (e - 23) - m| < 1 / 2) :
    binary32.round q = (m : ℚ) * 2 ^ (e - 23) :=
  round_eq_of_exponent q (e - 23) m (ulpExponent_eq q e hlo hhi he) hm

theorem round_zero : binary32.round 0 = 0 := by
  unfold binary32.round
  rw [zero_div, ← Int.cast_zero, roundHalfEven_intCast]
  simp

theorem round_neg (q : ℚ) : binary32.round (-q) = -binary32.round q := by
  unfold binary32.round
  rw [ulpExponent_neg, neg_div, roundHalfEven_neg]
  push_cast
  ring

theorem round_sub_le (q : ℚ) :
    |binary32.round q - q| ≤ 2 ^ binary32.ulpExponent q / 2 := by
  have hu := two_zpow_pos (binary32.ulpExponent q)
  have h := roundHalfEven_sub_le (q / 2 ^ binary32.ulpExponent q)
  have e : binary32.round q - q
      = ((roundHalfEven (q / 2 ^ binary32.ulpExponent q) : ℚ) - q / 2 ^ binary32.ulpExponent q)
        * 2 ^ binary32.ulpExponent q := by
    unfold binary32.round
    field_simp
  rw [e, abs_mul, abs_of_pos hu]
  calc _ ≤ 1 / 2 * 2 ^ binary32.ulpExponent q := mul_le_mul_of_nonneg_right h hu.le
    _ = _ := by ring

theorem round_sub_le_of_lt (q : ℚ) (k : Int) (hk : -126 ≤ k) (h : |q| < 2 ^ (k + 1)) :
    |binary32.round q - q| ≤ 2 ^ (k - 24) := by
  have h1 := round_sub_le q
  have h2 : (2 : ℚ) ^ binary32.ulpExponent q ≤ 2 ^ (k - 23) :=
    zpow_le_zpow_right₀ (by norm_num) (ulpExponent_le q k hk h)
  have h3 : (2 : ℚ) ^ (k - 23) = 2 * 2 ^ (k - 24) := by
    rw [show k - 23 = (k - 24) + 1 by ring, zpow_add_one₀ (by norm_num)]
    ring
  linarith

theorem round_eq_tie (q : ℚ) (e : Int) (z : Int) (hlo : (2 : ℚ) ^ e ≤ |q|)
    (hhi : |q| < 2 ^ (e + 1)) (he : -126 ≤ e) (hz : q / 2 ^ (e - 23) = (z : ℚ) + 1 / 2) :
    binary32.round q = ((if z % 2 = 0 then z else z + 1 : Int) : ℚ) * 2 ^ (e - 23) := by
  unfold binary32.round
  rw [ulpExponent_eq q e hlo hhi he, hz, roundHalfEven_half]

theorem round_le_of_le (q : ℚ) (z : Int) (h : q ≤ (z : ℚ) * 2 ^ binary32.ulpExponent q) :
    binary32.round q ≤ (z : ℚ) * 2 ^ binary32.ulpExponent q := by
  have hu := two_zpow_pos (binary32.ulpExponent q)
  have h1 : q / 2 ^ binary32.ulpExponent q ≤ (z : ℚ) := (div_le_iff₀ hu).mpr h
  have h2 : (roundHalfEven (q / 2 ^ binary32.ulpExponent q) : ℚ) ≤ (z : ℚ) := by
    exact_mod_cast roundHalfEven_le_of_le _ z h1
  exact mul_le_mul_of_nonneg_right h2 hu.le

theorem le_round_of_le (q : ℚ) (z : Int) (h : (z : ℚ) * 2 ^ binary32.ulpExponent q ≤ q) :
    (z : ℚ) * 2 ^ binary32.ulpExponent q ≤ binary32.round q := by
  have hu := two_zpow_pos (binary32.ulpExponent q)
  have h1 : (z : ℚ) ≤ q / 2 ^ binary32.ulpExponent q := (le_div_iff₀ hu).mpr h
  have h2 : (z : ℚ) ≤ (roundHalfEven (q / 2 ^ binary32.ulpExponent q) : ℚ) := by
    exact_mod_cast le_roundHalfEven_of_le _ z h1
  exact mul_le_mul_of_nonneg_right h2 hu.le

theorem round_nonneg (q : ℚ) (h : 0 ≤ q) : 0 ≤ binary32.round q := by
  have := le_round_of_le q 0 (by simpa using h)
  simpa using this

theorem round_nonpos (q : ℚ) (h : q ≤ 0) : binary32.round q ≤ 0 := by
  have := round_le_of_le q 0 (by simpa using h)
  simpa using this

theorem round_mono_nonneg (q r : ℚ) (h0 : 0 ≤ q) (h : q ≤ r) :
    binary32.round q ≤ binary32.round r := by
  have habs : |q| ≤ |r| := by
    rw [abs_of_nonneg h0, abs_of_nonneg (le_trans h0 h)]
    exact h
  have hu := ulpExponent_mono q r habs
  rcases hu.lt_or_eq with hlt | heq
  · have hr0 : 0 ≤ r := le_trans h0 h
    have hrbig : (2 : ℚ) ^ (-126 : Int) ≤ |r| := by
      by_contra hsmall
      have := ulpExponent_small r (not_le.mp hsmall)
      have := ulpExponent_ge q
      omega
    have h1 : binary32.round q ≤ ((2 ^ 24 : Int) : ℚ) * 2 ^ binary32.ulpExponent q := by
      apply round_le_of_le
      have := abs_lt_two_pow_ulpExponent q
      rw [abs_of_nonneg h0, zpow_add₀ (by norm_num)] at this
      push_cast
      norm_num at this ⊢
      linarith
    have h2 : ((2 ^ 23 : Int) : ℚ) * 2 ^ binary32.ulpExponent r ≤ binary32.round r := by
      apply le_round_of_le
      have := two_pow_ulpExponent_le_abs r hrbig
      rw [abs_of_nonneg hr0, zpow_add₀ (by norm_num)] at this
      push_cast
      norm_num at this ⊢
      linarith
    have h3 : ((2 ^ 24 : Int) : ℚ) * 2 ^ binary32.ulpExponent q
        ≤ ((2 ^ 23 : Int) : ℚ) * 2 ^ binary32.ulpExponent r := by
      have hle : (2 : ℚ) ^ (binary32.ulpExponent q + 1) ≤ 2 ^ binary32.ulpExponent r :=
        zpow_le_zpow_right₀ (by norm_num) (by omega)
      rw [zpow_add_one₀ (by norm_num)] at hle
      have hu := two_zpow_pos (binary32.ulpExponent q)
      push_cast
      norm_num
      nlinarith
    linarith
  · unfold binary32.round
    rw [heq]
    have hu := two_zpow_pos (binary32.ulpExponent r)
    apply mul_le_mul_of_nonneg_right _ hu.le
    exact_mod_cast roundHalfEven_mono _ _ (div_le_div_of_nonneg_right h hu.le)

theorem round_mono (q r : ℚ) (h : q ≤ r) : binary32.round q ≤ binary32.round r := by
  rcases le_or_lt 0 q with h0 | h0
  · exact round_mono_nonneg q r h0 h
  · rcases le_or_lt r 0 with hr | hr
    · have := round_mono_nonneg (-r) (-q) (by linarith) (by linarith)
      rw [round_neg, round_neg] at this
      linarith
    · exact le_trans (round_nonpos q h0.le) (round_nonneg r hr.le)

theorem isFloat_of_mul_two_pow (m : Int) (j : Int) (hm : |m| < 2 ^ 24) (hj : -149 ≤ j) :
    binary32.IsFloat ((m : ℚ) * 2 ^ j) := by
  have habs : |(m : ℚ) * 2 ^ j| < 2 ^ (j + 23 + 1) := by
    rw [abs_mul, abs_of_pos (two_zpow_pos j), show j + 23 + 1 = j + 24 by ring,
      zpow_add₀ (by norm_num), mul_comm]
    apply mul_lt_mul_of_pos_left _ (two_zpow_pos j)
    have : ((|m| : Int) : ℚ) < ((2 ^ 24 : Int) : ℚ) := by exact_mod_cast hm
    push_cast at this
    norm_num at this ⊢
    exact this
  have hule := ulpExponent_le ((m : ℚ) * 2 ^ j) (j + 23) (by omega) habs
  obtain ⟨n, hn⟩ : ∃ n : Nat, j = binary32.ulpExponent ((m : ℚ) * 2 ^ j) + (n : Int) :=
    ⟨(j - binary32.ulpExponent ((m : ℚ) * 2 ^ j)).toNat, by omega⟩
  have hdiv : (m : ℚ) * 2 ^ j / 2 ^ binary32.ulpExponent ((m : ℚ) * 2 ^ j)
      = ((m * 2 ^ n : Int) : ℚ) := by
    have hu := two_zpow_pos (binary32.ulpExponent ((m : ℚ) * 2 ^ j))
    rw [div_eq_iff hu.ne']
    nth_rewrite 1 [hn]
    rw [zpow_add₀ (by norm_num), zpow_natCast]
    push_cast
    ring
  unfold binary32.IsFloat binary32.round
  rw [hdiv, roundHalfEven_intCast, ← hdiv]
  have hu := two_zpow_pos (binary32.ulpExponent ((m : ℚ) * 2 ^ j))
  field_simp

theorem isFloat_intCast (z : Int) (hz : |z| < 2 ^ 24) : binary32.IsFloat (z : ℚ) := by
  have := isFloat_of_mul_two_pow z 0 hz (by norm_num)
  simpa using this

theorem le_round_of_isFloat (a q : ℚ) (ha : binary32.IsFloat a) (h : a ≤ q) :
    a ≤ binary32.round q := by
  have := round_mono a q h
  rwa [ha] at this

theorem round_le_of_isFloat (q b : ℚ) (hb : binary32.IsFloat b) (h : q ≤ b) :
    binary32.round q ≤ b := by
  have := round_mono q b h
  rwa [hb] at this

theorem round_eval (q r : ℚ) (e m : Int)
    (h : (2 : ℚ) ^ e ≤ q ∧ q < 2 ^ (e + 1) ∧ -126 ≤ e
      ∧ ((m : ℚ) - 1 / 2) * 2 ^ (e - 23) < q ∧ q < ((m : ℚ) + 1 / 2) * 2 ^ (e - 23)
      ∧ r = (m : ℚ) * 2 ^ (e - 23)) :
    binary32.round q = r := by
  obtain ⟨hlo, hhi, he, hm1, hm2, hr⟩ := h
  have hq : 0 < q := lt_of_lt_of_le (two_zpow_pos e) hlo
  have hu := two_zpow_pos (e - 23)
  rw [hr]
  apply round_eq q e m (by rwa [abs_of_pos hq]) (by rwa [abs_of_pos hq]) he
  rw [abs_lt]
  constructor
  · rw [lt_sub_iff_add_lt, lt_div_iff₀ hu]
    linarith
  · rw [sub_lt_iff_lt_add, div_lt_iff₀ hu]
    linarith

theorem round_eval_neg (q r : ℚ) (e m : Int)
    (h : (2 : ℚ) ^ e ≤ -q ∧ -q < 2 ^ (e + 1) ∧ -126 ≤ e
      ∧ ((m : ℚ) - 1 / 2) * 2 ^ (e - 23) < -q ∧ -q < ((m : ℚ) + 1 / 2) * 2 ^ (e - 23)
      ∧ r = -((m : ℚ) * 2 ^ (e - 23))) :
    binary32.round q = r := by
  obtain ⟨hlo, hhi, he, hm1, hm2, hr⟩ := h
  have := round_eval (-q) _ e m ⟨hlo, hhi, he, hm1, hm2, rfl⟩
  rw [round_neg] at this
  rw [hr, ← this, neg_neg]

theorem round_eval_tie (q r : ℚ) (e z m : Int)
    (h : (2 : ℚ) ^ e ≤ q ∧ q < 2 ^ (e + 1) ∧ -126 ≤ e
      ∧ q = ((z : ℚ) + 1 / 2) * 2 ^ (e - 23) ∧ (if z % 2 = 0 then z else z + 1) = m
      ∧ r = (m : ℚ) * 2 ^ (e - 23)) :
    binary32.round q = r := by
  obtain ⟨hlo, hhi, he, hz, hm, hr⟩ := h
  have hq : 0 < q := lt_of_lt_of_le (two_zpow_pos e) hlo
  have hu := two_zpow_pos (e - 23)
  rw [hr, ← hm]
  apply round_eq_tie q e z (by rwa [abs_of_pos hq]) (by rwa [abs_of_pos hq]) he
  rw [hz]
  field_simp
  ring

theorem round_intCast (z : Int) (hz : |z| < 2 ^ 24) : binary32.round (z : ℚ) = z :=
  isFloat_intCast z hz

theorem round_natCast (n : Nat) (hn : n < 2 ^ 24) : binary32.round (n : ℚ) = n := by
  have := round_intCast (n : Int) (by rw [abs_of_nonneg (by positivity)]; exact_mod_cast hn)
  exact_mod_cast this

theorem scale_one_ten : ScaledValue.scale 1 10 = 13421773 / 134217728 := by
  have h1 := round_natCast 1 (by norm_num)
  have h10 := round_natCast 10 (by norm_num)
  unfold ScaledValue.scale
  rw [h1, h10]
  exact round_eval _ _ (-4) 13421773 (by norm_num)

theorem getValue_mock_off : ScaledValue.getValue 1 10 60 = 6 := by
  have h := round_intCast 60 (by norm_num)
  unfold ScaledValue.getValue
  rw [h, scale_one_ten]
  exact round_eval _ _ 2 12582912 (by norm_num)

theorem getValue_mock_on : ScaledValue.getValue 1 10 110 = 11 := by
  have h := round_intCast 110 (by norm_num)
  unfold ScaledValue.getValue
  rw [h, scale_one_ten]
  exact round_eval _ _ 3 11534336 (by norm_num)

theorem scale_five_one : ScaledValue.scale 5 1 = 5 := by
  have h1 := round_natCast 1 (by norm_num)
  have h5 := round_natCast 5 (by norm_num)
  unfold ScaledValue.scale
  rw [h1, h5]
  have := round_intCast 5 (by norm_num)
  norm_num at this ⊢
  exact this

theorem getValue_mock_preheat : ScaledValue.getValue 5 1 1 = 5 := by
  have h := round_intCast 1 (by norm_num)
  unfold ScaledValue.getValue
  rw [h, scale_five_one]
  have := round_intCast 5 (by norm_num)
  norm_num at this ⊢
  exact this

theorem round_two_fifths : binary32.round (4 / 10) = 13421773 / 33554432 :=
  round_eval _ _ (-2) 13421773 (by norm_num)

theorem rampStep_testBoard : rampStep testBoard = 1717987 / 4294967296 := by
  have h1 : binary32.round ((testBoard.HEATER_CONTROL_PERIOD : Nat) : ℚ) = 1 := by
    have := round_natCast 1 (by norm_num)
    simpa [testBoard] using this
  have h1000 : binary32.round (1000 / 1) = 1000 := by
    have := round_intCast 1000 (by norm_num)
    norm_num at this ⊢
    exact this
  unfold rampStep
  rw [h1, h1000, round_two_fifths]
  exact round_eval _ _ (-12) 13743896 (by norm_num)

theorem supplyForDuty_ge (v : ℚ) : 3 ≤ supplyForDuty v := by
  unfold supplyForDuty
  split_ifs with h
  · norm_num
  · exact not_lt.mp h

theorem Update_duty_eq (b : BoardConfig) (c : HeaterControllerBase) (now : Int)
    (esr temp : ℚ) (allow : HeaterAllow) (v : ℚ) :
    (c.Update b now esr temp allow v).duty =
      if supplyForDuty v ≥ 23 then 0
      else
        let d := (c.commandedVoltage b now esr temp allow v / supplyForDuty v) *
          (c.commandedVoltage b now esr temp allow v / supplyForDuty v)
        match b.HEATER_MAX_DUTY with
        | some m => if (c.Update b now esr temp allow v).ctrl.cycle % 10 = 0 ∧ d > m then m else d
        | none => d := by
  have h3 := supplyForDuty_ge v
  have h1 : ¬ supplyForDuty v < 1 := by linarith
  unfold supplyForDuty at h1 h3 ⊢
  simp only [HeaterControllerBase.Update, HeaterControllerBase.commandedVoltage, if_neg h1]

theorem GetNextState_allowed (b : BoardConfig) (c : HeaterControllerBase) (now : Int)
    (s : HeaterState) (v t : ℚ) :
    c.GetNextState b now s HeaterAllow.Allowed v t = c.nextStateAllowed b now s t := by
  simp [HeaterControllerBase.GetNextState]

theorem dut_commanded_cold :
    dut.commandedVoltage testBoard 0 300 500 HeaterAllow.Allowed 12 = 2 := by
  simp [HeaterControllerBase.commandedVoltage, GetNextState_allowed,
    HeaterControllerBase.nextStateAllowed, HeaterControllerBase.GetVoltageForState, dut,
    HeaterControllerBase.Configure, HeaterControllerBase.init, testBoard, mockConfig,
    Timer.hasElapsedSec, Timer.reset, HeaterConfig.preheatTime, getValue_mock_off, getValue_mock_on,
      getValue_mock_preheat]
  norm_num

theorem GetVoltageForState_ramp (b : BoardConfig) (c : HeaterControllerBase) (esr : ℚ)
    (h : c.rampVoltage < 12) :
    (c.GetVoltageForState b HeaterState.WarmupRamp esr).1
      = binary32.round (c.rampVoltage + rampStep b) := by
  simp only [HeaterControllerBase.GetVoltageForState, rampStep, if_pos h]

theorem ramp_first_testBoard :
    binary32.round (7 + rampStep testBoard) = 14680903 / 2097152 := by
  rw [rampStep_testBoard]
  exact round_eval _ _ 2 14680903 (by norm_num)

theorem dut_next_hot (v : ℚ) :
    dut.GetNextState testBoard 0 dut.heaterState HeaterAllow.Allowed v 780 =
      { state := HeaterState.WarmupRamp
        ctrl := { dut with rampVoltage := 7, m_warmupTimer := Timer.reset 0 }
        status := some Status.Warmup } := by
  simp [GetNextState_allowed, HeaterControllerBase.nextStateAllowed, dut,
    HeaterControllerBase.Configure, HeaterControllerBase.init, testBoard, mockConfig,
    Timer.hasElapsedSec, Timer.reset]

theorem dut_commanded_hot :
    dut.commandedVoltage testBoard 0 300 780 HeaterAllow.Allowed 5 = 14680903 / 2097152 := by
  unfold HeaterControllerBase.commandedVoltage
  simp only [dut_next_hot]
  rw [GetVoltageForState_ramp _ _ _ (by norm_num)]
  simp only []
  rw [ramp_first_testBoard]
  norm_num

theorem dut_duty_hot :
    (dut.Update testBoard 0 300 780 HeaterAllow.Allowed 5).duty
      = 215528912895409 / 109951162777600 := by
  rw [Update_duty_eq, dut_commanded_hot]
  norm_num [supplyForDuty, testBoard]

/-! ## The duty cycle -/

/-- C1 (as amended): on every tick the duty that `Update` passes to `SetDuty` is not
negative, provided the board's `HEATER_MAX_DUTY`, when defined, is not negative; and
the duty is at most 1 whenever the commanded heater voltage does not exceed, in
magnitude, the supply voltage the duty is computed with. -/
theorem C1_duty_bounds (b : BoardConfig) (c : HeaterControllerBase) (now : Int)
    (esr temp : ℚ) (allow : HeaterAllow) (v : ℚ)
    (hmax : ∀ m, b.HEATER_MAX_DUTY = some m → 0 ≤ m) :
    0 ≤ (c.Update b now esr temp allow v).duty ∧
      (|c.commandedVoltage b now esr temp allow v| ≤ supplyForDuty v →
        (c.Update b now esr temp allow v).duty ≤ 1) := by
  have h3 := supplyForDuty_ge v
  have hsq : 0 ≤ (c.commandedVoltage b now esr temp allow v / supplyForDuty v) *
      (c.commandedVoltage b now esr temp allow v / supplyForDuty v) := mul_self_nonneg _
  have hle : |c.commandedVoltage b now esr temp allow v| ≤ supplyForDuty v →
      (c.commandedVoltage b now esr temp allow v / supplyForDuty v) *
        (c.commandedVoltage b now esr temp allow v / supplyForDuty v) ≤ 1 := by
    intro h
    have hpos : (0 : ℚ) < supplyForDuty v := by linarith
    have habs : |c.commandedVoltage b now esr temp allow v / supplyForDuty v| ≤ 1 := by
      rw [abs_div, abs_of_pos hpos]
      exact (div_le_one hpos).mpr h
    have h2 := abs_le.mp habs
    nlinarith [h2.1, h2.2]
  rw [Update_duty_eq]
  split_ifs with hov
  · exact ⟨le_refl _, fun _ => zero_le_one⟩
  · cases hm : b.HEATER_MAX_DUTY with
    | none => exact ⟨hsq, hle⟩
    | some m =>
      have hm0 : 0 ≤ m := hmax m hm
      simp only []
      split_ifs with hc
      · exact ⟨hm0, fun h => le_trans (le_of_lt hc.2) (hle h)⟩
      · exact ⟨hsq, hle⟩

/-- C1, a tick on which the bound is met: the configured test controller, cold sensor,
12 V supply; it stays in Preheat, commands 2 V and the duty lies in [0, 1]. -/
theorem C1_duty_bounds_witness :
    (∀ m, testBoard.HEATER_MAX_DUTY = some m → 0 ≤ m) ∧
      |dut.commandedVoltage testBoard 0 300 500 HeaterAllow.Allowed 12| ≤ supplyForDuty 12 ∧
      0 ≤ (dut.Update testBoard 0 300 500 HeaterAllow.Allowed 12).duty ∧
      (dut.Update testBoard 0 300 500 HeaterAllow.Allowed 12).duty ≤ 1 :=
  have hmax : ∀ m, testBoard.HEATER_MAX_DUTY = some m → 0 ≤ m := by
    intro m hm
    simp [testBoard] at hm
  have hcv : |dut.commandedVoltage testBoard 0 300 500 HeaterAllow.Allowed 12|
      ≤ supplyForDuty 12 := by
    rw [dut_commanded_cold]
    norm_num [supplyForDuty]
  ⟨hmax, hcv,
    (C1_duty_bounds testBoard dut 0 300 500 HeaterAllow.Allowed 12 hmax).1,
    (C1_duty_bounds testBoard dut 0 300 500 HeaterAllow.Allowed 12 hmax).2 hcv⟩

/-- C1 fails as stated: the first tick of the configured test controller with heating
allowed, a sensor already at 780 °C and a 5 V supply enters WarmupRamp, commands
7.0004 V (the float 14680903/2097152) and passes the duty (7.0004 / 5)² ≈ 1.96 to
`SetDuty`. -/
theorem C1_counterexample :
    (dut.Update testBoard 0 300 780 HeaterAllow.Allowed 5).duty
        = 215528912895409 / 109951162777600 ∧
      ¬ (0 ≤ (dut.Update testBoard 0 300 780 HeaterAllow.Allowed 5).duty ∧
        (dut.Update testBoard 0 300 780 HeaterAllow.Allowed 5).duty ≤ 1) := by
  refine ⟨dut_duty_hot, ?_⟩
  rw [dut_duty_hot]
  norm_num

/-- C2: whatever the controller state and the other inputs, a supply voltage of 23 V
or more makes `Update` pass the duty 0 to `SetDuty`. -/
theorem C2_overvoltage_duty_zero (b : BoardConfig) (c : HeaterControllerBase) (now : Int)
    (esr temp : ℚ) (allow : HeaterAllow) (v : ℚ) (hv : 23 ≤ v) :
    (c.Update b now esr temp allow v).duty = 0 := by
  have hs : supplyForDuty v = v := by
    unfold supplyForDuty
    rw [if_neg (by linarith)]
  rw [Update_duty_eq, hs, if_pos hv]

/-- C2 on the test controller in WarmupRamp territory: hot sensor, heating allowed,
24 V supply. -/
theorem C2_overvoltage_duty_zero_witness :
    (23 : ℚ) ≤ 24 ∧ (dut.Update testBoard 0 300 780 HeaterAllow.Allowed 24).duty = 0 :=
  ⟨by norm_num,
    C2_overvoltage_duty_zero testBoard dut 0 300 780 HeaterAllow.Allowed 24 (by norm_num)⟩

theorem GetNextState_unknown_low (b : BoardConfig) (c : HeaterControllerBase) (now : Int)
    (s : HeaterState) (v t : ℚ) (hv : v < c.m_configuration.offVoltage) :
    c.GetNextState b now s HeaterAllow.Unknown v t =
      { state := HeaterState.Preheat
        ctrl := { c with
          m_heaterStableTimer := Timer.reset now
          m_preheatTimer := Timer.reset now }
        status := some Status.Preheat } := by
  simp [HeaterControllerBase.GetNextState, hv]

theorem Update_unknown_low (b : BoardConfig) (c : HeaterControllerBase) (now : Int)
    (esr t v : ℚ) (hv : v < c.m_configuration.offVoltage) :
    (c.Update b now esr t HeaterAllow.Unknown v).ctrl.heaterState = HeaterState.Preheat ∧
      (c.Update b now esr t HeaterAllow.Unknown v).ctrl.m_heaterStableTimer = Timer.reset now ∧
      (c.Update b now esr t HeaterAllow.Unknown v).ctrl.m_configuration = c.m_configuration := by
  simp only [HeaterControllerBase.Update, GetNextState_unknown_low b c now _ v t hv,
    HeaterControllerBase.GetVoltageForState]
  cases b.HEATER_MAX_DUTY <;> simp

theorem run_append (b : BoardConfig) (c : HeaterControllerBase) (ts : List Tick) (t : Tick) :
    c.run b (ts ++ [t]) =
      ((c.run b ts).Update b t.now t.sensorEsr t.sensorTemperature t.heaterAllowState
        t.heaterSupplyVoltage).ctrl := by
  induction ts generalizing c with
  | nil => rfl
  | cons u us ih => simp [HeaterControllerBase.run, ih]

theorem run_unknown_low (b : BoardConfig) (ts : List Tick) (c : HeaterControllerBase)
    (h : ∀ u ∈ ts, u.heaterAllowState = HeaterAllow.Unknown ∧
      u.heaterSupplyVoltage < c.m_configuration.offVoltage) :
    (c.run b ts).m_configuration = c.m_configuration ∧
      (c.heaterState = HeaterState.Preheat → (c.run b ts).heaterState = HeaterState.Preheat) := by
  induction ts generalizing c with
  | nil => exact ⟨rfl, id⟩
  | cons u us ih =>
    have hu := h u (List.mem_cons_self u us)
    obtain ⟨hallow, hlow⟩ := hu
    have hstep := Update_unknown_low b c u.now u.sensorEsr u.sensorTemperature
      u.heaterSupplyVoltage hlow
    rw [← hallow] at hstep
    obtain ⟨hstate, -, hcfg⟩ := hstep
    have hrest := ih (c.Update b u.now u.sensorEsr u.sensorTemperature u.heaterAllowState
      u.heaterSupplyVoltage).ctrl (by
        intro w hw
        rw [hcfg]
        exact h w (List.mem_cons_of_mem u hw))
    simp only [HeaterControllerBase.run]
    exact ⟨hrest.1.trans hcfg, fun _ => hrest.2 hstate⟩

/-- C3: with `heater_allow = Unknown`, along every sequence of ticks whose supply voltage
stays below `HeaterSupplyOffVoltage`, `GetNextState` returns Preheat on every tick and
resets the heater-stable timer on every tick; the heater state after each tick is
Preheat, and a heater that starts in Preheat is in Preheat before each tick as well. -/
theorem C3_low_supply_stays_preheat (b : BoardConfig) (c : HeaterControllerBase)
    (ts : List Tick) (t : Tick)
    (h : ∀ u ∈ ts ++ [t], u.heaterAllowState = HeaterAllow.Unknown ∧
      u.heaterSupplyVoltage < c.m_configuration.offVoltage) :
    ((c.run b ts).GetNextState b t.now (c.run b ts).heaterState t.heaterAllowState
        t.heaterSupplyVoltage t.sensorTemperature).state = HeaterState.Preheat ∧
      ((c.run b ts).GetNextState b t.now (c.run b ts).heaterState t.heaterAllowState
        t.heaterSupplyVoltage t.sensorTemperature).ctrl.m_heaterStableTimer
          = Timer.reset t.now ∧
      (c.run b (ts ++ [t])).heaterState = HeaterState.Preheat ∧
      (c.run b (ts ++ [t])).m_heaterStableTimer = Timer.reset t.now ∧
      (c.heaterState = HeaterState.Preheat → (c.run b ts).heaterState = HeaterState.Preheat) := by
  have hts := run_unknown_low b ts c (fun u hu => h u (List.mem_append_left _ hu))
  obtain ⟨hallow, hlow⟩ := h t (List.mem_append_right _ (List.mem_singleton_self t))
  rw [← hts.1] at hlow
  have hstep := Update_unknown_low b (c.run b ts) t.now t.sensorEsr t.sensorTemperature
    t.heaterSupplyVoltage hlow
  rw [← hallow] at hstep
  rw [run_append]
  refine ⟨?_, ?_, hstep.1, hstep.2.1, hts.2⟩
  · rw [hallow, GetNextState_unknown_low b _ t.now _ _ _ hlow]
  · rw [hallow, GetNextState_unknown_low b _ t.now _ _ _ hlow]


/-- C3 on the configured test controller (off threshold 6.0 V): two ticks at 5 V with
no CAN command; the second tick finds and leaves the heater in Preheat. -/
theorem C3_low_supply_stays_preheat_witness :
    (∀ u ∈ [lowSupplyTick 1000] ++ [lowSupplyTick 2000],
        u.heaterAllowState = HeaterAllow.Unknown ∧
          u.heaterSupplyVoltage < dut.m_configuration.offVoltage) ∧
      (dut.run testBoard ([lowSupplyTick 1000] ++ [lowSupplyTick 2000])).heaterState
        = HeaterState.Preheat :=
  have h : ∀ u ∈ [lowSupplyTick 1000] ++ [lowSupplyTick 2000],
        u.heaterAllowState = HeaterAllow.Unknown ∧
          u.heaterSupplyVoltage < dut.m_configuration.offVoltage := by
    intro u hu
    simp only [List.mem_append, List.mem_singleton] at hu
    rcases hu with hu | hu <;> subst hu <;>
      norm_num [dut, HeaterControllerBase.Configure, mockConfig, HeaterConfig.offVoltage,
        getValue_mock_off, lowSupplyTick]
  ⟨h, (C3_low_supply_stays_preheat testBoard dut _ _ h).2.2.1⟩

/-! ## The heater-allow gate -/

/-- C4: from every current state, for every supply voltage and sensor temperature,
`GetNextState` with `heater_allow = NotAllowed` returns Preheat, restarts the preheat
timer at the current time, changes nothing else in the controller and reports the
status Preheat. -/
theorem C4_not_allowed_forces_preheat (b : BoardConfig) (c : HeaterControllerBase)
    (now : Int) (s : HeaterState) (v t : ℚ) :
    (c.GetNextState b now s HeaterAllow.NotAllowed v t).state = HeaterState.Preheat ∧
      (c.GetNextState b now s HeaterAllow.NotAllowed v t).ctrl.m_preheatTimer
        = Timer.reset now ∧
      (c.GetNextState b now s HeaterAllow.NotAllowed v t).ctrl
        = { c with m_preheatTimer := Timer.reset now } ∧
      (c.GetNextState b now s HeaterAllow.NotAllowed v t).status = some Status.Preheat := by
  simp [HeaterControllerBase.GetNextState]

/-- C5: with `heater_allow = Unknown` and a supply voltage above `HeaterSupplyOnVoltage`:
while the heater-stable timer has not run for `HEATER_BATTERY_STAB_TIME` = 0.5 s,
`GetNextState` returns Preheat. Once it has, and the supply is not below
`HeaterSupplyOffVoltage` (as it is whenever the configuration satisfies `on > off`),
`GetNextState` returns the same state, the same controller and the same status as it
does for `heater_allow = Allowed`. A supply below `HeaterSupplyOffVoltage` gives Preheat
and restarts the heater-stable timer, whatever the timer shows. -/
theorem C5_unknown_high_supply (b : BoardConfig) (c : HeaterControllerBase) (now : Int)
    (s : HeaterState) (v t : ℚ) (hon : c.m_configuration.onVoltage < v) :
    HEATER_BATTERY_STAB_TIME = 1 / 2 ∧
      (c.m_heaterStableTimer.hasElapsedSec now HEATER_BATTERY_STAB_TIME = false →
        (c.GetNextState b now s HeaterAllow.Unknown v t).state = HeaterState.Preheat) ∧
      (c.m_configuration.offVoltage ≤ v →
        c.m_heaterStableTimer.hasElapsedSec now HEATER_BATTERY_STAB_TIME = true →
        c.GetNextState b now s HeaterAllow.Unknown v t
          = c.GetNextState b now s HeaterAllow.Allowed v t) ∧
      (c.m_configuration.Valid →
        c.m_heaterStableTimer.hasElapsedSec now HEATER_BATTERY_STAB_TIME = true →
        c.GetNextState b now s HeaterAllow.Unknown v t
          = c.GetNextState b now s HeaterAllow.Allowed v t) ∧
      (v < c.m_configuration.offVoltage →
        (c.GetNextState b now s HeaterAllow.Unknown v t).state = HeaterState.Preheat ∧
          (c.GetNextState b now s HeaterAllow.Unknown v t).ctrl.m_heaterStableTimer
            = Timer.reset now) := by
  have hkey : ∀ _ : ¬ v < c.m_configuration.offVoltage,
      c.m_heaterStableTimer.hasElapsedSec now HEATER_BATTERY_STAB_TIME = true →
      c.GetNextState b now s HeaterAllow.Unknown v t
        = c.GetNextState b now s HeaterAllow.Allowed v t := by
    intro hoff h
    simp [HeaterControllerBase.GetNextState, hoff, hon, h]
  refine ⟨rfl, ?_, ?_, ?_, ?_⟩
  · intro h
    by_cases hoff : v < c.m_configuration.offVoltage
    · simp [HeaterControllerBase.GetNextState, hoff]
    · simp [HeaterControllerBase.GetNextState, hoff, hon, h]
  · intro hoff
    exact hkey (not_lt.mpr hoff)
  · intro hvalid
    unfold HeaterConfig.Valid at hvalid
    exact hkey (by linarith)
  · intro hoff
    simp [HeaterControllerBase.GetNextState, hoff]

/-- C5 on the configured test controller (off 6.0 V, on 11.0 V, heater-stable timer
reset at time 0) with a 12 V supply: at 0.4 s the Unknown call returns Preheat, at
0.6 s it equals the Allowed call. -/
theorem C5_unknown_high_supply_witness :
    dut.m_configuration.onVoltage < 12 ∧ dut.m_configuration.offVoltage ≤ 12 ∧
      (dut.GetNextState testBoard 400000 HeaterState.WarmupRamp HeaterAllow.Unknown 12 500).state
        = HeaterState.Preheat ∧
      dut.GetNextState testBoard 600000 HeaterState.WarmupRamp HeaterAllow.Unknown 12 500
        = dut.GetNextState testBoard 600000 HeaterState.WarmupRamp HeaterAllow.Allowed 12 500 :=
  have hon : dut.m_configuration.onVoltage < 12 := by
    norm_num [dut, HeaterControllerBase.Configure, mockConfig, HeaterConfig.onVoltage,
      getValue_mock_on]
  have hoff : dut.m_configuration.offVoltage ≤ 12 := by
    norm_num [dut, HeaterControllerBase.Configure, mockConfig, HeaterConfig.offVoltage,
      getValue_mock_off]
  ⟨hon, hoff,
    (C5_unknown_high_supply testBoard dut 400000 HeaterState.WarmupRamp 12 500 hon).2.1
      (by norm_num [Timer.hasElapsedSec, dut, HeaterControllerBase.Configure, Timer.reset,
        HEATER_BATTERY_STAB_TIME]),
    (C5_unknown_high_supply testBoard dut 600000 HeaterState.WarmupRamp 12 500 hon).2.2.1 hoff
      (by norm_num [Timer.hasElapsedSec, dut, HeaterControllerBase.Configure, Timer.reset,
        HEATER_BATTERY_STAB_TIME])⟩

/-- C5 as stated fails on a configuration whose thresholds are exchanged (off 11.0 V,
on 6.0 V): with an 8 V supply, above the on threshold, and the heater-stable timer
0.6 s old, the Unknown call from WarmupRamp returns Preheat and restarts the timer,
while the Allowed call stays in WarmupRamp. -/
theorem C5_counterexample :
    dutSwapped.m_configuration.onVoltage < 8 ∧
      dutSwapped.m_heaterStableTimer.hasElapsedSec 600000 HEATER_BATTERY_STAB_TIME = true ∧
      (dutSwapped.GetNextState testBoard 600000 HeaterState.WarmupRamp HeaterAllow.Unknown
        8 500).state = HeaterState.Preheat ∧
      (dutSwapped.GetNextState testBoard 600000 HeaterState.WarmupRamp HeaterAllow.Unknown
        8 500).ctrl.m_heaterStableTimer = Timer.reset 600000 ∧
      (dutSwapped.GetNextState testBoard 600000 HeaterState.WarmupRamp HeaterAllow.Allowed
        8 500).state = HeaterState.WarmupRamp ∧
      dutSwapped.GetNextState testBoard 600000 HeaterState.WarmupRamp HeaterAllow.Unknown 8 500
        ≠ dutSwapped.GetNextState testBoard 600000 HeaterState.WarmupRamp HeaterAllow.Allowed
          8 500 := by
  have hon : dutSwapped.m_configuration.onVoltage = 6 := by
    simp only [dutSwapped, HeaterControllerBase.Configure, swappedConfig,
      HeaterConfig.onVoltage]
    exact getValue_mock_off
  have hoff : dutSwapped.m_configuration.offVoltage = 11 := by
    simp only [dutSwapped, HeaterControllerBase.Configure, swappedConfig,
      HeaterConfig.offVoltage]
    exact getValue_mock_on
  have hlt : (8 : ℚ) < dutSwapped.m_configuration.offVoltage := by
    rw [hoff]
    norm_num
  have h1 : (dutSwapped.GetNextState testBoard 600000 HeaterState.WarmupRamp
      HeaterAllow.Unknown 8 500).state = HeaterState.Preheat := by
    simp [HeaterControllerBase.GetNextState, hlt]
  have h2 : (dutSwapped.GetNextState testBoard 600000 HeaterState.WarmupRamp
      HeaterAllow.Allowed 8 500).state = HeaterState.WarmupRamp := by
    rw [GetNextState_allowed]
    norm_num [HeaterControllerBase.nextStateAllowed, dutSwapped,
      HeaterControllerBase.Configure, HeaterControllerBase.init, Timer.hasElapsedSec,
      Timer.reset, testBoard, HEATER_WARMUP_TIMEOUT]
  refine ⟨by rw [hon]; norm_num, ?_, h1, ?_, h2, ?_⟩
  · norm_num [Timer.hasElapsedSec, dutSwapped, HeaterControllerBase.Configure, Timer.reset,
      HEATER_BATTERY_STAB_TIME]
  · simp [HeaterControllerBase.GetNextState, hlt]
  · intro h
    rw [h, h2] at h1
    exact absurd h1 (by decide)

/-! ## Transitions with heating allowed -/

/-- C6: with heating allowed and the fast-start threshold not reached (or not defined),
`GetNextState` from Preheat returns WarmupRamp exactly when the preheat timer has
reached `PreheatTimeSec` or the sensor is hotter than target − 30, and it returns
Preheat, leaving the controller as it was, otherwise; on the transition the ramp
voltage becomes 7 V and the warmup timer restarts, nothing else changes. -/
theorem C6_preheat_transition (b : BoardConfig) (c : HeaterControllerBase) (now : Int)
    (v t : ℚ) (hfast : ∀ thr, b.HEATER_FAST_HEATING_THRESHOLD_T = some thr → t < thr) :
    ((c.GetNextState b now HeaterState.Preheat HeaterAllow.Allowed v t).state
        = HeaterState.WarmupRamp ↔
      (c.m_preheatTimer.hasElapsedSec now c.m_configuration.preheatTime = true
        ∨ t > c.m_targetTempC - 30)) ∧
    ((c.GetNextState b now HeaterState.Preheat HeaterAllow.Allowed v t).state
        = HeaterState.Preheat ↔
      ¬ (c.m_preheatTimer.hasElapsedSec now c.m_configuration.preheatTime = true
        ∨ t > c.m_targetTempC - 30)) ∧
    ((c.GetNextState b now HeaterState.Preheat HeaterAllow.Allowed v t).state
        = HeaterState.WarmupRamp →
      (c.GetNextState b now HeaterState.Preheat HeaterAllow.Allowed v t).ctrl
        = { c with rampVoltage := 7, m_warmupTimer := Timer.reset now }) ∧
    ((c.GetNextState b now HeaterState.Preheat HeaterAllow.Allowed v t).state
        = HeaterState.Preheat →
      (c.GetNextState b now HeaterState.Preheat HeaterAllow.Allowed v t).ctrl = c) := by
  have hnofast : (match b.HEATER_FAST_HEATING_THRESHOLD_T with
      | some threshold => decide (t ≥ threshold)
      | none => false) = false := by
    cases hthr : b.HEATER_FAST_HEATING_THRESHOLD_T with
    | none => rfl
    | some thr => simpa using hfast thr hthr
  rw [GetNextState_allowed]
  simp only [HeaterControllerBase.nextStateAllowed, hnofast]
  by_cases hcond : c.m_preheatTimer.hasElapsedSec now c.m_configuration.preheatTime = true
      ∨ t > c.m_targetTempC - 30
  · simp [hcond]
  · simp [hcond]

/-- C6 on the scenarios of test_heater.cpp (target 780 °C, preheat 5 s, timer reset at
time 0): a 500 °C sensor stays in Preheat at 4.9 s and enters WarmupRamp at 5.0 s; a
780 °C sensor enters WarmupRamp on the first tick, with the ramp at 7 V. -/
theorem C6_preheat_transition_witness :
    (∀ thr, testBoard.HEATER_FAST_HEATING_THRESHOLD_T = some thr → (500 : ℚ) < thr) ∧
      (dut.GetNextState testBoard 4900000 HeaterState.Preheat HeaterAllow.Allowed 12 500).state
        = HeaterState.Preheat ∧
      (dut.GetNextState testBoard 5000000 HeaterState.Preheat HeaterAllow.Allowed 12 500).state
        = HeaterState.WarmupRamp ∧
      (dut.GetNextState testBoard 0 HeaterState.Preheat HeaterAllow.Allowed 12 780).state
        = HeaterState.WarmupRamp ∧
      (dut.GetNextState testBoard 0 HeaterState.Preheat HeaterAllow.Allowed 12 780).ctrl.rampVoltage
        = 7 :=
  have hfast : ∀ (x : ℚ) (thr : ℚ),
      testBoard.HEATER_FAST_HEATING_THRESHOLD_T = some thr → x < thr := by
    intro x thr hthr
    simp [testBoard] at hthr
  have hhot := (C6_preheat_transition testBoard dut 0 12 780 (hfast 780)).1.mpr
    (by norm_num [dut, HeaterControllerBase.Configure])
  ⟨hfast 500,
    (C6_preheat_transition testBoard dut 4900000 12 500 (hfast 500)).2.1.mpr
      (by norm_num [Timer.hasElapsedSec, dut, HeaterControllerBase.Configure, Timer.reset,
        mockConfig, HeaterConfig.preheatTime, getValue_mock_off, getValue_mock_on,
      getValue_mock_preheat]),
    (C6_preheat_transition testBoard dut 5000000 12 500 (hfast 500)).1.mpr
      (by norm_num [Timer.hasElapsedSec, dut, HeaterControllerBase.Configure, Timer.reset,
        mockConfig, HeaterConfig.preheatTime, getValue_mock_off, getValue_mock_on,
      getValue_mock_preheat]),
    hhot,
    by rw [(C6_preheat_transition testBoard dut 0 12 780 (hfast 780)).2.2.1 hhot]⟩

/-- C7: with heating allowed, `GetNextState` from WarmupRamp returns ClosedLoop and
restarts the closed-loop-stable timer whenever the sensor is hotter than target − 30;
otherwise, once the warmup timer has reached `HEATER_WARMUP_TIMEOUT` = 60 s, it
returns Stopped with status SensorDidntHeat, a retry time of 30 s and the retry timer
restarted; otherwise it returns WarmupRamp and leaves the controller as it was. -/
theorem C7_warmup_transition (b : BoardConfig) (c : HeaterControllerBase) (now : Int)
    (v t : ℚ) :
    HEATER_WARMUP_TIMEOUT = 60 ∧
    (t > c.m_targetTempC - 30 →
      c.GetNextState b now HeaterState.WarmupRamp HeaterAllow.Allowed v t =
        { state := HeaterState.ClosedLoop
          ctrl := { c with m_closedLoopStableTimer := Timer.reset now }
          status := some Status.RunningClosedLoop }) ∧
    (¬ t > c.m_targetTempC - 30 →
      c.m_warmupTimer.hasElapsedSec now HEATER_WARMUP_TIMEOUT = true →
      c.GetNextState b now HeaterState.WarmupRamp HeaterAllow.Allowed v t =
        { state := HeaterState.Stopped
          ctrl := { c with m_retryTime := 30, m_retryTimer := Timer.reset now }
          status := some Status.SensorDidntHeat }) ∧
    (¬ t > c.m_targetTempC - 30 →
      c.m_warmupTimer.hasElapsedSec now HEATER_WARMUP_TIMEOUT = false →
      c.GetNextState b now HeaterState.WarmupRamp HeaterAllow.Allowed v t =
        { state := HeaterState.WarmupRamp, ctrl := c, status := none }) := by
  rw [GetNextState_allowed]
  refine ⟨rfl, ?_, ?_, ?_⟩
  · intro h
    simp [HeaterControllerBase.nextStateAllowed, h]
  · intro h he
    simp [HeaterControllerBase.nextStateAllowed, h, he, HEATER_DIDNOTHEAT_RETRY_TIMEOUT]
  · intro h he
    simp [HeaterControllerBase.nextStateAllowed, h, he]

/-- C7 on the scenarios of test_heater.cpp (target 780 °C, warmup timer reset at time
0): a 780 °C sensor goes to ClosedLoop; a 500 °C sensor is still in WarmupRamp at
9.9 s and is Stopped at 60.1 s. -/
theorem C7_warmup_transition_witness :
    (780 : ℚ) > dut.m_targetTempC - 30 ∧ ¬ (500 : ℚ) > dut.m_targetTempC - 30 ∧
      (dut.GetNextState testBoard 0 HeaterState.WarmupRamp HeaterAllow.Allowed 12 780).state
        = HeaterState.ClosedLoop ∧
      (dut.GetNextState testBoard 9900000 HeaterState.WarmupRamp HeaterAllow.Allowed 12 500).state
        = HeaterState.WarmupRamp ∧
      (dut.GetNextState testBoard 60100000 HeaterState.WarmupRamp HeaterAllow.Allowed 12 500).state
        = HeaterState.Stopped :=
  have hhot : (780 : ℚ) > dut.m_targetTempC - 30 := by
    norm_num [dut, HeaterControllerBase.Configure]
  have hcold : ¬ (500 : ℚ) > dut.m_targetTempC - 30 := by
    norm_num [dut, HeaterControllerBase.Configure]
  ⟨hhot, hcold,
    by rw [(C7_warmup_transition testBoard dut 0 12 780).2.1 hhot],
    by rw [(C7_warmup_transition testBoard dut 9900000 12 500).2.2.2 hcold
      (by norm_num [Timer.hasElapsedSec, dut, HeaterControllerBase.Configure, Timer.reset,
        HEATER_WARMUP_TIMEOUT])],
    by rw [(C7_warmup_transition testBoard dut 60100000 12 500).2.2.1 hcold
      (by norm_num [Timer.hasElapsedSec, dut, HeaterControllerBase.Configure, Timer.reset,
        HEATER_WARMUP_TIMEOUT])]⟩

/-! ## Closed loop: overheat and underheat -/

theorem hasElapsedSec_reset_half (now : Int) :
    (Timer.reset now).hasElapsedSec now (1 / 2) = false := by
  simp [Timer.hasElapsedSec, Timer.reset]

/-- C8: with heating allowed and the closed-loop stabilisation time elapsed,
`GetNextState` from ClosedLoop returns Stopped with status SensorOverheat and a retry
time of 30 s when the sensor is above target + 100 and the overheat timer (the time
since the sensor was last at or below target + 100) has reached 0.5 s; it returns
Stopped with status SensorUnderheat and a retry time of 10 s when the sensor is below
target − 100 and the underheat timer has reached 0.5 s. In both cases the retry timer
restarts. -/
theorem C8_closed_loop_stop (b : BoardConfig) (c : HeaterControllerBase) (now : Int)
    (v t : ℚ)
    (hstab : c.m_closedLoopStableTimer.hasElapsedSec now b.HEATER_CLOSED_LOOP_STAB_TIME = true) :
    (t > c.m_targetTempC + 100 → c.m_overheatTimer.hasElapsedSec now (1 / 2) = true →
      (c.GetNextState b now HeaterState.ClosedLoop HeaterAllow.Allowed v t).state
          = HeaterState.Stopped ∧
        (c.GetNextState b now HeaterState.ClosedLoop HeaterAllow.Allowed v t).status
          = some Status.SensorOverheat ∧
        (c.GetNextState b now HeaterState.ClosedLoop HeaterAllow.Allowed v t).ctrl.m_retryTime
          = 30 ∧
        (c.GetNextState b now HeaterState.ClosedLoop HeaterAllow.Allowed v t).ctrl.m_retryTimer
          = Timer.reset now) ∧
    (t < c.m_targetTempC - 100 → c.m_underheatTimer.hasElapsedSec now (1 / 2) = true →
      (c.GetNextState b now HeaterState.ClosedLoop HeaterAllow.Allowed v t).state
          = HeaterState.Stopped ∧
        (c.GetNextState b now HeaterState.ClosedLoop HeaterAllow.Allowed v t).status
          = some Status.SensorUnderheat ∧
        (c.GetNextState b now HeaterState.ClosedLoop HeaterAllow.Allowed v t).ctrl.m_retryTime
          = 10 ∧
        (c.GetNextState b now HeaterState.ClosedLoop HeaterAllow.Allowed v t).ctrl.m_retryTimer
          = Timer.reset now) := by
  have hreset := hasElapsedSec_reset_half now
  rw [GetNextState_allowed]
  simp only [one_div] at hreset ⊢
  constructor
  · intro ht he
    have h1 : ¬ t ≤ c.m_targetTempC + 100 := not_le.mpr ht
    by_cases h2 : t ≥ c.m_targetTempC - 100
    · simp [HeaterControllerBase.nextStateAllowed, h1, h2, hstab, he,
        HEATER_OVERHEAT_RETRY_TIMEOUT]
    · simp [HeaterControllerBase.nextStateAllowed, h1, h2, hstab, he,
        HEATER_OVERHEAT_RETRY_TIMEOUT]
  · intro ht he
    have h1 : t ≤ c.m_targetTempC + 100 := by linarith
    have h2 : ¬ t ≥ c.m_targetTempC - 100 := not_le.mpr ht
    simp [HeaterControllerBase.nextStateAllowed, h1, h2, hstab, he,
      hreset, HEATER_UNDERHEAT_RETRY_TIMEOUT]

theorem dutClosedLoop_eq :
    dutClosedLoop = { dut with
      m_overheatTimer := Timer.reset 12000000
      m_underheatTimer := Timer.reset 12000000 } := by
  simp [dutClosedLoop, GetNextState_allowed, HeaterControllerBase.nextStateAllowed, dut,
    HeaterControllerBase.Configure, HeaterControllerBase.init, testBoard, Timer.hasElapsedSec,
    Timer.reset]
  norm_num

/-- C8 on the scenario of test_heater.cpp: closed loop since time 0 (stabilisation time
5 s), sensor on target at 12 s; a sensor at 1000 °C at 13.1 s stops the heater with
SensorOverheat, a sensor at 600 °C at 13.1 s stops it with SensorUnderheat. -/
theorem C8_closed_loop_stop_witness :
    dutClosedLoop.m_closedLoopStableTimer.hasElapsedSec 13100000
        testBoard.HEATER_CLOSED_LOOP_STAB_TIME = true ∧
      (1000 : ℚ) > dutClosedLoop.m_targetTempC + 100 ∧
      dutClosedLoop.m_overheatTimer.hasElapsedSec 13100000 (1 / 2) = true ∧
      (dutClosedLoop.GetNextState testBoard 13100000 HeaterState.ClosedLoop HeaterAllow.Allowed
        12 1000).state = HeaterState.Stopped ∧
      (dutClosedLoop.GetNextState testBoard 13100000 HeaterState.ClosedLoop HeaterAllow.Allowed
        12 1000).status = some Status.SensorOverheat ∧
      (600 : ℚ) < dutClosedLoop.m_targetTempC - 100 ∧
      dutClosedLoop.m_underheatTimer.hasElapsedSec 13100000 (1 / 2) = true ∧
      (dutClosedLoop.GetNextState testBoard 13100000 HeaterState.ClosedLoop HeaterAllow.Allowed
        12 600).status = some Status.SensorUnderheat :=
  have hstab : dutClosedLoop.m_closedLoopStableTimer.hasElapsedSec 13100000
      testBoard.HEATER_CLOSED_LOOP_STAB_TIME = true := by
    rw [dutClosedLoop_eq]
    norm_num [Timer.hasElapsedSec, dut, HeaterControllerBase.Configure, Timer.reset, testBoard]
  have hhot : (1000 : ℚ) > dutClosedLoop.m_targetTempC + 100 := by
    rw [dutClosedLoop_eq]
    norm_num [dut, HeaterControllerBase.Configure]
  have hover : dutClosedLoop.m_overheatTimer.hasElapsedSec 13100000 (1 / 2) = true := by
    rw [dutClosedLoop_eq]
    norm_num [Timer.hasElapsedSec, Timer.reset]
  have hcold : (600 : ℚ) < dutClosedLoop.m_targetTempC - 100 := by
    rw [dutClosedLoop_eq]
    norm_num [dut, HeaterControllerBase.Configure]
  have hunder : dutClosedLoop.m_underheatTimer.hasElapsedSec 13100000 (1 / 2) = true := by
    rw [dutClosedLoop_eq]
    norm_num [Timer.hasElapsedSec, Timer.reset]
  ⟨hstab, hhot, hover,
    ((C8_closed_loop_stop testBoard dutClosedLoop 13100000 12 1000 hstab).1 hhot hover).1,
    ((C8_closed_loop_stop testBoard dutClosedLoop 13100000 12 1000 hstab).1 hhot hover).2.1,
    hcold, hunder,
    ((C8_closed_loop_stop testBoard dutClosedLoop 13100000 12 600 hstab).2 hcold hunder).2.1⟩

/-! ## Closed loop: transient excursions -/

theorem GetVoltageForState_frame (b : BoardConfig) (c : HeaterControllerBase)
    (s : HeaterState) (esr : ℚ) :
    (c.GetVoltageForState b s esr).2 =
      { c with
        rampVoltage := (c.GetVoltageForState b s esr).2.rampVoltage
        m_pid := (c.GetVoltageForState b s esr).2.m_pid } := by
  cases s <;> simp only [HeaterControllerBase.GetVoltageForState]
  split_ifs <;> rfl

theorem Update_ctrl_frame (b : BoardConfig) (c : HeaterControllerBase) (now : Int)
    (esr temp : ℚ) (allow : HeaterAllow) (v : ℚ) :
    (c.Update b now esr temp allow v).ctrl =
      { (c.GetNextState b now c.heaterState allow v temp).ctrl with
        heaterState := (c.GetNextState b now c.heaterState allow v temp).state
        rampVoltage := (c.Update b now esr temp allow v).ctrl.rampVoltage
        m_pid := (c.Update b now esr temp allow v).ctrl.m_pid
        cycle := (c.Update b now esr temp allow v).ctrl.cycle } := by
  simp only [HeaterControllerBase.Update]
  cases b.HEATER_MAX_DUTY <;> simp only [] <;>
    rw [GetVoltageForState_frame]

theorem hasElapsedSec_half_false (t : Timer) (now : Int) (h : now - t.lastReset < 500000) :
    t.hasElapsedSec now (1 / 2) = false := by
  have hq : ((now - t.lastReset : Int) : ℚ) < 500000 := by exact_mod_cast h
  simp only [Timer.hasElapsedSec, decide_eq_false_iff_not, not_le]
  linarith

theorem nextStateAllowed_closedLoop_recent (b : BoardConfig) (c : HeaterControllerBase)
    (now t0 : Int) (temp : ℚ) (hover : t0 ≤ c.m_overheatTimer.lastReset)
    (hunder : t0 ≤ c.m_underheatTimer.lastReset) (h0 : t0 ≤ now) (h1 : now < t0 + 500000) :
    (c.nextStateAllowed b now HeaterState.ClosedLoop temp).state = HeaterState.ClosedLoop ∧
      t0 ≤ (c.nextStateAllowed b now HeaterState.ClosedLoop temp).ctrl.m_overheatTimer.lastReset ∧
      t0 ≤ (c.nextStateAllowed b now HeaterState.ClosedLoop temp).ctrl.m_underheatTimer.lastReset := by
  have e1 := hasElapsedSec_half_false c.m_overheatTimer now (by omega)
  have e2 := hasElapsedSec_half_false c.m_underheatTimer now (by omega)
  have e3 := hasElapsedSec_half_false (Timer.reset now) now (by simp [Timer.reset])
  simp only [HeaterControllerBase.nextStateAllowed]
  by_cases ho : temp ≤ c.m_targetTempC + 100 <;> by_cases hu : temp ≥ c.m_targetTempC - 100 <;>
    simp only [ho, hu, if_true, if_false, e1, e2, e3] <;>
    split_ifs <;> first | (exfalso; assumption) | simp [Timer.reset, hover, hunder, h0]

theorem nextStateAllowed_closedLoop_inRange (b : BoardConfig) (c : HeaterControllerBase)
    (now : Int) (temp : ℚ) (hlo : c.m_targetTempC - 100 ≤ temp)
    (hhi : temp ≤ c.m_targetTempC + 100) :
    c.nextStateAllowed b now HeaterState.ClosedLoop temp =
      { state := HeaterState.ClosedLoop
        ctrl := { c with
          m_overheatTimer := Timer.reset now
          m_underheatTimer := Timer.reset now }
        status := none } := by
  have e3 := hasElapsedSec_half_false (Timer.reset now) now (by simp [Timer.reset])
  have hlo2 : temp ≥ c.m_targetTempC - 100 := hlo
  simp only [HeaterControllerBase.nextStateAllowed, hhi, hlo2, if_true, e3]
  split_ifs <;> first | (exfalso; assumption) | rfl

theorem Update_closedLoop_recent (b : BoardConfig) (c : HeaterControllerBase) (t0 : Int)
    (u : Tick) (hstate : c.heaterState = HeaterState.ClosedLoop)
    (hover : t0 ≤ c.m_overheatTimer.lastReset) (hunder : t0 ≤ c.m_underheatTimer.lastReset)
    (hallow : u.heaterAllowState = HeaterAllow.Allowed) (h0 : t0 ≤ u.now)
    (h1 : u.now < t0 + 500000) :
    (c.Update b u.now u.sensorEsr u.sensorTemperature u.heaterAllowState
        u.heaterSupplyVoltage).ctrl.heaterState = HeaterState.ClosedLoop ∧
      t0 ≤ (c.Update b u.now u.sensorEsr u.sensorTemperature u.heaterAllowState
        u.heaterSupplyVoltage).ctrl.m_overheatTimer.lastReset ∧
      t0 ≤ (c.Update b u.now u.sensorEsr u.sensorTemperature u.heaterAllowState
        u.heaterSupplyVoltage).ctrl.m_underheatTimer.lastReset := by
  rw [Update_ctrl_frame, hallow, GetNextState_allowed, hstate]
  exact nextStateAllowed_closedLoop_recent b c u.now t0 u.sensorTemperature hover hunder h0 h1

theorem run_closedLoop_recent (b : BoardConfig) (t0 : Int) (ts : List Tick)
    (c : HeaterControllerBase) (hstate : c.heaterState = HeaterState.ClosedLoop)
    (hover : t0 ≤ c.m_overheatTimer.lastReset) (hunder : t0 ≤ c.m_underheatTimer.lastReset)
    (h : ∀ u ∈ ts, u.heaterAllowState = HeaterAllow.Allowed ∧ t0 ≤ u.now ∧
      u.now < t0 + 500000) :
    (c.run b ts).heaterState = HeaterState.ClosedLoop ∧
      t0 ≤ (c.run b ts).m_overheatTimer.lastReset ∧
      t0 ≤ (c.run b ts).m_underheatTimer.lastReset := by
  induction ts generalizing c with
  | nil => exact ⟨hstate, hover, hunder⟩
  | cons u us ih =>
    obtain ⟨hallow, h0, h1⟩ := h u (List.mem_cons_self u us)
    obtain ⟨s1, o1, u1⟩ := Update_closedLoop_recent b c t0 u hstate hover hunder hallow h0 h1
    simp only [HeaterControllerBase.run]
    exact ih _ s1 o1 u1 (fun w hw => h w (List.mem_cons_of_mem u hw))

/-- C9: in ClosedLoop with heating allowed, an excursion of the sensor temperature is
not reflected in the heater state unless it is sustained. After a tick `t0` whose
temperature lies in [target − 100, target + 100], every later tick that comes less
than 0.5 s after `t0` finds the heater in ClosedLoop and `GetNextState` returns
ClosedLoop on it, whatever the temperatures in between; and from any controller state
`GetNextState` returns ClosedLoop for every temperature as long as the closed-loop
stabilisation time has not elapsed. -/
theorem C9_transient_excursion (b : BoardConfig) (c : HeaterControllerBase) :
    (∀ (t0 : Tick) (ts : List Tick) (t : Tick),
      c.heaterState = HeaterState.ClosedLoop →
      t0.heaterAllowState = HeaterAllow.Allowed →
      c.m_targetTempC - 100 ≤ t0.sensorTemperature →
      t0.sensorTemperature ≤ c.m_targetTempC + 100 →
      (∀ u ∈ ts ++ [t], u.heaterAllowState = HeaterAllow.Allowed ∧ t0.now ≤ u.now ∧
        u.now < t0.now + 500000) →
      (c.run b (t0 :: ts)).heaterState = HeaterState.ClosedLoop ∧
        ((c.run b (t0 :: ts)).GetNextState b t.now (c.run b (t0 :: ts)).heaterState
          t.heaterAllowState t.heaterSupplyVoltage t.sensorTemperature).state
            = HeaterState.ClosedLoop) ∧
    (∀ (now : Int) (v temp : ℚ),
      c.m_closedLoopStableTimer.hasElapsedSec now b.HEATER_CLOSED_LOOP_STAB_TIME = false →
      (c.GetNextState b now HeaterState.ClosedLoop HeaterAllow.Allowed v temp).state
        = HeaterState.ClosedLoop) := by
  constructor
  · intro t0 ts t hstate hallow0 hlo hhi h
    have hfirst : (c.Update b t0.now t0.sensorEsr t0.sensorTemperature t0.heaterAllowState
          t0.heaterSupplyVoltage).ctrl.heaterState = HeaterState.ClosedLoop ∧
        t0.now ≤ (c.Update b t0.now t0.sensorEsr t0.sensorTemperature t0.heaterAllowState
          t0.heaterSupplyVoltage).ctrl.m_overheatTimer.lastReset ∧
        t0.now ≤ (c.Update b t0.now t0.sensorEsr t0.sensorTemperature t0.heaterAllowState
          t0.heaterSupplyVoltage).ctrl.m_underheatTimer.lastReset := by
      rw [Update_ctrl_frame, hallow0, GetNextState_allowed, hstate,
        nextStateAllowed_closedLoop_inRange b c t0.now t0.sensorTemperature hlo hhi]
      simp [Timer.reset]
    obtain ⟨s1, o1, u1⟩ := hfirst
    have hrun := run_closedLoop_recent b t0.now ts _ s1 o1 u1
      (fun u hu => h u (List.mem_append_left _ hu))
    obtain ⟨hallow, h0, h1⟩ := h t (List.mem_append_right _ (List.mem_singleton_self t))
    simp only [HeaterControllerBase.run]
    refine ⟨hrun.1, ?_⟩
    rw [hallow, GetNextState_allowed, hrun.1]
    exact (nextStateAllowed_closedLoop_recent b _ t.now t0.now t.sensorTemperature
      hrun.2.1 hrun.2.2 h0 h1).1
  · intro now v temp hstab
    rw [GetNextState_allowed]
    simp only [HeaterControllerBase.nextStateAllowed]
    by_cases ho : temp ≤ c.m_targetTempC + 100 <;>
      by_cases hu : temp ≥ c.m_targetTempC - 100 <;>
      simp [ho, hu, hstab]

/-- C9 on the scenario of test_heater.cpp ("allow too hot briefly"): sensor on target
at 12 s, then 1000 °C at 12 s and again 0.1 s later: the heater is still in ClosedLoop
and `GetNextState` returns ClosedLoop. And at 1 s, inside the 5 s stabilisation time,
1000 °C leaves the heater in ClosedLoop. -/
theorem C9_transient_excursion_witness :
    (∀ u ∈ [allowedTick 12000000 1000] ++ [allowedTick 12100000 1000],
        u.heaterAllowState = HeaterAllow.Allowed ∧ (allowedTick 12000000 780).now ≤ u.now ∧
          u.now < (allowedTick 12000000 780).now + 500000) ∧
      (dutRunning.run testBoard
        (allowedTick 12000000 780 :: [allowedTick 12000000 1000])).heaterState
          = HeaterState.ClosedLoop ∧
      ((dutRunning.run testBoard
        (allowedTick 12000000 780 :: [allowedTick 12000000 1000])).GetNextState testBoard
          12100000 HeaterState.ClosedLoop HeaterAllow.Allowed 12 1000).state
            = HeaterState.ClosedLoop ∧
      (dutRunning.GetNextState testBoard 1000000 HeaterState.ClosedLoop HeaterAllow.Allowed
        12 1000).state = HeaterState.ClosedLoop :=
  have h : ∀ u ∈ [allowedTick 12000000 1000] ++ [allowedTick 12100000 1000],
      u.heaterAllowState = HeaterAllow.Allowed ∧ (allowedTick 12000000 780).now ≤ u.now ∧
        u.now < (allowedTick 12000000 780).now + 500000 := by
    intro u hu
    simp only [List.mem_append, List.mem_singleton] at hu
    rcases hu with hu | hu <;> subst hu <;> simp [allowedTick]
  have hseq := (C9_transient_excursion testBoard dutRunning).1 (allowedTick 12000000 780)
    [allowedTick 12000000 1000] (allowedTick 12100000 1000) rfl rfl
    (by norm_num [dutRunning, dut, HeaterControllerBase.Configure, allowedTick])
    (by norm_num [dutRunning, dut, HeaterControllerBase.Configure, allowedTick]) h
  have hlast := hseq.2
  ⟨h, hseq.1, by rw [hseq.1] at hlast; exact hlast,
    (C9_transient_excursion testBoard dutRunning).2 1000000 12 1000
      (by norm_num [Timer.hasElapsedSec, dutRunning, dut, HeaterControllerBase.Configure,
        Timer.reset, testBoard])⟩

/-! ## Stopped and the retry -/

theorem nextStateAllowed_stopped (b : BoardConfig) (c : HeaterControllerBase) (now : Int)
    (temp : ℚ) :
    c.nextStateAllowed b now HeaterState.Stopped temp =
      if c.m_retryTime ≠ 0 ∧ c.m_retryTimer.hasElapsedSec now (c.m_retryTime : ℚ) = true then
        { state := HeaterState.Preheat, ctrl := c, status := none }
      else
        { state := HeaterState.Stopped, ctrl := c, status := none } := by
  simp only [HeaterControllerBase.nextStateAllowed]

theorem nextStateAllowed_overheat (b : BoardConfig) (c : HeaterControllerBase) (now : Int)
    (temp : ℚ)
    (h : (c.nextStateAllowed b now HeaterState.ClosedLoop temp).status
      = some Status.SensorOverheat) :
    (c.nextStateAllowed b now HeaterState.ClosedLoop temp).state = HeaterState.Stopped ∧
      (c.nextStateAllowed b now HeaterState.ClosedLoop temp).ctrl.m_retryTime = 30 ∧
      (c.nextStateAllowed b now HeaterState.ClosedLoop temp).ctrl.m_retryTimer
        = Timer.reset now := by
  simp only [HeaterControllerBase.nextStateAllowed] at h ⊢
  split_ifs at h ⊢ <;> simp_all [HEATER_OVERHEAT_RETRY_TIMEOUT]

/-- C10: with heating allowed, `GetNextState` from Stopped returns Preheat exactly when
the retry time is non-zero and the retry timer has reached it, and Stopped otherwise,
without changing the controller. A freshly constructed and configured controller asked
for the successor of Stopped answers Stopped at every time. After a ClosedLoop call
that stopped the heater with SensorOverheat at time `now`, the call from Stopped
returns Preheat exactly from `now` + 30 s on. -/
theorem C10_stopped_retry (b : BoardConfig) :
    (∀ (c : HeaterControllerBase) (now : Int) (v temp : ℚ),
      ((c.GetNextState b now HeaterState.Stopped HeaterAllow.Allowed v temp).state
          = HeaterState.Preheat ↔
        (c.m_retryTime ≠ 0 ∧ c.m_retryTimer.hasElapsedSec now (c.m_retryTime : ℚ) = true)) ∧
      ((c.GetNextState b now HeaterState.Stopped HeaterAllow.Allowed v temp).state
          = HeaterState.Stopped ↔
        ¬ (c.m_retryTime ≠ 0 ∧ c.m_retryTimer.hasElapsedSec now (c.m_retryTime : ℚ) = true)) ∧
      (c.GetNextState b now HeaterState.Stopped HeaterAllow.Allowed v temp).ctrl = c) ∧
    (∀ (ch : Nat) (fresh : Timer) (cfg0 cfg : HeaterConfig) (cycle tConf now : Int)
      (target esr v temp : ℚ),
      (((HeaterControllerBase.init b ch fresh cfg0 cycle).Configure tConf target esr
        cfg).GetNextState b now HeaterState.Stopped HeaterAllow.Allowed v temp).state
          = HeaterState.Stopped) ∧
    (∀ (c : HeaterControllerBase) (now now2 : Int) (v temp v2 temp2 : ℚ),
      (c.GetNextState b now HeaterState.ClosedLoop HeaterAllow.Allowed v temp).status
          = some Status.SensorOverheat →
      (c.GetNextState b now HeaterState.ClosedLoop HeaterAllow.Allowed v temp).state
          = HeaterState.Stopped ∧
        (((c.GetNextState b now HeaterState.ClosedLoop HeaterAllow.Allowed v temp).ctrl.GetNextState
          b now2 HeaterState.Stopped HeaterAllow.Allowed v2 temp2).state = HeaterState.Preheat ↔
            now + 30000000 ≤ now2)) := by
  refine ⟨?_, ?_, ?_⟩
  · intro c now v temp
    rw [GetNextState_allowed, nextStateAllowed_stopped]
    split_ifs with h
    · simp [h]
    · simp [h]
  · intro ch fresh cfg0 cfg cycle tConf now target esr v temp
    rw [GetNextState_allowed, nextStateAllowed_stopped]
    simp [HeaterControllerBase.init, HeaterControllerBase.Configure]
  · intro c now now2 v temp v2 temp2 h
    rw [GetNextState_allowed] at h ⊢
    obtain ⟨hs, hr, ht⟩ := nextStateAllowed_overheat b c now temp h
    refine ⟨hs, ?_⟩
    rw [GetNextState_allowed, nextStateAllowed_stopped, hr, ht]
    have hiff : (Timer.reset now).hasElapsedSec now2 ((30 : Int) : ℚ) = true ↔
        now + 30000000 ≤ now2 := by
      simp only [Timer.hasElapsedSec, Timer.reset, decide_eq_true_eq]
      constructor
      · intro hq
        have hz : (30000000 : ℚ) ≤ ((now2 - now : Int) : ℚ) := by
          have : ((30 : Int) : ℚ) * 1000000 = 30000000 := by norm_num
          linarith
        have hz2 : (30000000 : Int) ≤ now2 - now := by exact_mod_cast hz
        omega
      · intro hz
        have hz2 : (30000000 : Int) ≤ now2 - now := by omega
        have hq : ((30000000 : Int) : ℚ) ≤ ((now2 - now : Int) : ℚ) := by exact_mod_cast hz2
        have : ((30 : Int) : ℚ) * 1000000 = ((30000000 : Int) : ℚ) := by norm_num
        linarith
    split_ifs with hc
    · simp only [true_iff]
      exact hiff.mp hc.2
    · simp only [false_iff, reduceCtorEq] 
      intro hz
      exact hc ⟨by norm_num, hiff.mpr hz⟩

theorem dutClosedLoop_overheat :
    (dutClosedLoop.GetNextState testBoard 13100000 HeaterState.ClosedLoop HeaterAllow.Allowed
      12 1000).status = some Status.SensorOverheat := by
  rw [dutClosedLoop_eq, GetNextState_allowed]
  simp [HeaterControllerBase.nextStateAllowed, dut, HeaterControllerBase.Configure,
    HeaterControllerBase.init, testBoard, Timer.hasElapsedSec, Timer.reset]
  norm_num

/-- C10 on the scenarios of the tests and of the spec: the freshly configured test
controller stays Stopped (test TerminalStates); after the overheat stop at 13.1 s the
heater is still Stopped one microsecond before 43.1 s and returns to Preheat at
43.1 s. -/
theorem C10_stopped_retry_witness :
    (dut.GetNextState testBoard 0 HeaterState.Stopped HeaterAllow.Allowed 12 780).state
        = HeaterState.Stopped ∧
      (dutClosedLoop.GetNextState testBoard 13100000 HeaterState.ClosedLoop HeaterAllow.Allowed
        12 1000).status = some Status.SensorOverheat ∧
      ((dutClosedLoop.GetNextState testBoard 13100000 HeaterState.ClosedLoop
        HeaterAllow.Allowed 12 1000).ctrl.GetNextState testBoard 43100000 HeaterState.Stopped
          HeaterAllow.Allowed 12 780).state = HeaterState.Preheat ∧
      ¬ ((dutClosedLoop.GetNextState testBoard 13100000 HeaterState.ClosedLoop
        HeaterAllow.Allowed 12 1000).ctrl.GetNextState testBoard 43099999 HeaterState.Stopped
          HeaterAllow.Allowed 12 780).state = HeaterState.Preheat :=
  ⟨(C10_stopped_retry testBoard).2.1 0 { lastReset := 0 } mockConfig mockConfig 0 0 0 780 300
      12 780,
    dutClosedLoop_overheat,
    ((C10_stopped_retry testBoard).2.2 dutClosedLoop 13100000 43100000 12 1000 12 780
      dutClosedLoop_overheat).2.mpr (by norm_num),
    fun h => absurd (((C10_stopped_retry testBoard).2.2 dutClosedLoop 13100000 43099999 12 1000
      12 780 dutClosedLoop_overheat).2.mp h) (by norm_num)⟩

/-! ## The voltage for each state -/

/-- C11: for every controller state and every sensor ESR, `GetVoltageForState` returns
exactly 2 V for Preheat and exactly 0 V for Stopped, and leaves the controller as it
was; the ESR plays no part. -/
theorem C11_preheat_stopped_voltage (b : BoardConfig) (c : HeaterControllerBase) (esr : ℚ) :
    c.GetVoltageForState b HeaterState.Preheat esr = (2, c) ∧
      c.GetVoltageForState b HeaterState.Stopped esr = (0, c) :=
  ⟨rfl, rfl⟩

theorem Pid_GetOutput_zero_error (p : Pid) (r : ℚ) (hi : p.integrator = 0)
    (hl : p.lastError = 0) (hc : 0 ≤ p.config.clamp) :
    p.GetOutput r r = (0, p) := by
  have h1 : ¬ (0 : ℚ) > p.config.clamp := not_lt.mpr hc
  have h2 : ¬ (0 : ℚ) < -p.config.clamp := by linarith
  cases p with
  | mk config period lastError integrator =>
    simp only at hi hl hc h1 h2
    subst hi hl
    simp [Pid.GetOutput, h1, h2]

theorem heaterPid_output_neg (T r e : ℚ) (hT : 0 ≤ T) (he : r < e) :
    (({ config := heaterPidConfig, period := T, lastError := 0, integrator := 0 } : Pid).GetOutput
      r e).1 < 0 := by
  have herr : r - e < 0 := by linarith
  have hI : (r - e) * T * (3 / 10) ≤ 0 := by
    have : (r - e) * T ≤ 0 := mul_nonpos_of_nonpos_of_nonneg (le_of_lt herr) hT
    linarith
  have hD : (r - e - 0) / T ≤ 0 := by
    apply div_nonpos_of_nonpos_of_nonneg _ hT
    linarith
  simp only [Pid.GetOutput, heaterPidConfig, zero_add]
  split_ifs with h1 h2
  · linarith
  · linarith
  · linarith

theorem heaterPid_output_pos (T r e : ℚ) (hT : 0 ≤ T) (he : e < r) :
    0 < (({ config := heaterPidConfig, period := T, lastError := 0, integrator := 0 } : Pid).GetOutput
      r e).1 := by
  have herr : 0 < r - e := by linarith
  have hI : 0 ≤ (r - e) * T * (3 / 10) := by positivity
  have hD : 0 ≤ (r - e - 0) / T := by
    apply div_nonneg _ hT
    linarith
  simp only [Pid.GetOutput, heaterPidConfig, zero_add]
  split_ifs with h1 h2
  · linarith
  · linarith
  · linarith

theorem heaterPid_output_pos_after (T r e2 e3 : ℚ) (hT : 0 ≤ T) (hT2 : 30 * T * T ≤ 1)
    (h2 : r < e2) (h3 : e3 < r) :
    0 < ((({ config := heaterPidConfig, period := T, lastError := 0, integrator := 0 } :
      Pid).GetOutput r e2).2.GetOutput r e3).1 := by
  have hD : 30 * (e2 - r) * T ≤ (r - e3 - (r - e2)) / T := by
    rcases hT.lt_or_eq with hpos | hzero
    · rw [le_div_iff₀ hpos]
      nlinarith [mul_pos (sub_pos.mpr h2) hpos, mul_pos (sub_pos.mpr h3) hpos]
    · rw [← hzero]
      simp
  have hI3 : 0 ≤ (r - e3) * T * (3 / 10) := by
    have : 0 ≤ (r - e3) * T := mul_nonneg (by linarith) hT
    linarith
  have hBT : 0 ≤ (e2 - r) * T := mul_nonneg (by linarith) hT
  have hI2 : (r - e2) * T * (3 / 10) ≤ 0 := by nlinarith
  simp only [Pid.GetOutput, heaterPidConfig, zero_add]
  split_ifs <;> nlinarith

theorem freshPid_GetOutput_target (T r : ℚ) :
    ({ config := heaterPidConfig, period := T, lastError := 0, integrator := 0 } : Pid).GetOutput
      r r = (0, { config := heaterPidConfig, period := T, lastError := 0, integrator := 0 }) :=
  Pid_GetOutput_zero_error _ r rfl rfl (by norm_num [heaterPidConfig])

/-- C13: for a freshly constructed and configured controller with target ESR `R`,
`GetVoltageForState(ClosedLoop, R)` returns exactly 7.5 V; the call that follows it
returns more than 7.5 V when made with an ESR above `R` and less than 7.5 V when made
with an ESR below `R`; and, for a heater period of at most 182 ms, in the sequence of
the unit test (`R`, then an ESR above `R`, then an ESR below `R`) the third call
returns less than 7.5 V. -/
theorem C13_closed_loop_voltage (b : BoardConfig) (c : HeaterControllerBase) (ch : Nat)
    (fresh : Timer) (cfg0 cfg : HeaterConfig) (cycle tConf : Int) (targetTemp R : ℚ)
    (hc : c = (HeaterControllerBase.init b ch fresh cfg0 cycle).Configure tConf targetTemp R
      cfg) :
    (c.GetVoltageForState b HeaterState.ClosedLoop R).1 = 15 / 2 ∧
    (∀ e, R < e →
      15 / 2 < ((c.GetVoltageForState b HeaterState.ClosedLoop R).2.GetVoltageForState b
        HeaterState.ClosedLoop e).1) ∧
    (∀ e, e < R →
      ((c.GetVoltageForState b HeaterState.ClosedLoop R).2.GetVoltageForState b
        HeaterState.ClosedLoop e).1 < 15 / 2) ∧
    (b.HEATER_CONTROL_PERIOD ≤ 182 → ∀ e2 e3, R < e2 → e3 < R →
      (((c.GetVoltageForState b HeaterState.ClosedLoop R).2.GetVoltageForState b
        HeaterState.ClosedLoop e2).2.GetVoltageForState b HeaterState.ClosedLoop e3).1
          < 15 / 2) := by
  have hT : (0 : ℚ) ≤ (b.HEATER_CONTROL_PERIOD : ℚ) / 1000 := by positivity
  subst hc
  simp only [HeaterControllerBase.GetVoltageForState, HeaterControllerBase.init,
    HeaterControllerBase.Configure, Pid.init, freshPid_GetOutput_target]
  refine ⟨by norm_num, ?_, ?_, ?_⟩
  · intro e he
    have := heaterPid_output_neg _ R e hT he
    linarith
  · intro e he
    have := heaterPid_output_pos _ R e hT he
    linarith
  · intro hp e2 e3 h2 h3
    have hpq : (b.HEATER_CONTROL_PERIOD : ℚ) ≤ 182 := by exact_mod_cast hp
    have hp0 : (0 : ℚ) ≤ (b.HEATER_CONTROL_PERIOD : ℚ) := Nat.cast_nonneg _
    have hT2 : 30 * ((b.HEATER_CONTROL_PERIOD : ℚ) / 1000)
        * ((b.HEATER_CONTROL_PERIOD : ℚ) / 1000) ≤ 1 := by nlinarith
    have := heaterPid_output_pos_after _ R e2 e3 hT hT2 h2 h3
    linarith

/-- C13 on the unit test HeaterStateOutput.ClosedLoop: target ESR 300, calls with ESR
300, 400 and 200 return 7.5 V, more than 7.5 V and less than 7.5 V. -/
theorem C13_closed_loop_voltage_witness :
    dut = (HeaterControllerBase.init testBoard 0 { lastReset := 0 } mockConfig 0).Configure 0
        780 300 mockConfig ∧
      (dut.GetVoltageForState testBoard HeaterState.ClosedLoop 300).1 = 15 / 2 ∧
      15 / 2 < ((dut.GetVoltageForState testBoard HeaterState.ClosedLoop 300).2.GetVoltageForState
        testBoard HeaterState.ClosedLoop 400).1 ∧
      (((dut.GetVoltageForState testBoard HeaterState.ClosedLoop 300).2.GetVoltageForState
        testBoard HeaterState.ClosedLoop 400).2.GetVoltageForState testBoard
          HeaterState.ClosedLoop 200).1 < 15 / 2 :=
  ⟨rfl,
    (C13_closed_loop_voltage testBoard dut 0 { lastReset := 0 } mockConfig mockConfig 0 0 780
      300 rfl).1,
    (C13_closed_loop_voltage testBoard dut 0 { lastReset := 0 } mockConfig mockConfig 0 0 780
      300 rfl).2.1 400 (by norm_num),
    (C13_closed_loop_voltage testBoard dut 0 { lastReset := 0 } mockConfig mockConfig 0 0 780
      300 rfl).2.2.2 (by norm_num [testBoard]) 400 200 (by norm_num) (by norm_num)⟩

/-! ## The duty in closed loop -/

theorem heaterPid_output_antitone (p : Pid) (hcfg : p.config = heaterPidConfig)
    (hT : 0 ≤ p.period) (sp o1 o2 : ℚ) (ho : o1 ≤ o2) :
    (p.GetOutput sp o2).1 ≤ (p.GetOutput sp o1).1 := by
  have hI : p.integrator + (sp - o2) * p.period * (3 / 10)
      ≤ p.integrator + (sp - o1) * p.period * (3 / 10) := by
    have : (sp - o2) * p.period ≤ (sp - o1) * p.period :=
      mul_le_mul_of_nonneg_right (by linarith) hT
    linarith
  have hD : (sp - o2 - p.lastError) / p.period ≤ (sp - o1 - p.lastError) / p.period :=
    div_le_div_of_nonneg_right (by linarith) hT
  simp only [Pid.GetOutput, hcfg, heaterPidConfig]
  split_ifs <;> linarith

theorem nextStateAllowed_frame (b : BoardConfig) (c : HeaterControllerBase) (now : Int)
    (s : HeaterState) (t : ℚ) :
    (c.nextStateAllowed b now s t).ctrl.m_pid = c.m_pid ∧
      (c.nextStateAllowed b now s t).ctrl.m_targetEsr = c.m_targetEsr ∧
      (c.nextStateAllowed b now s t).ctrl.cycle = c.cycle ∧
      (c.nextStateAllowed b now s t).ctrl.heaterVoltage = c.heaterVoltage ∧
      (c.nextStateAllowed b now s t).ctrl.m_targetTempC = c.m_targetTempC ∧
      (c.nextStateAllowed b now s t).ctrl.m_configuration = c.m_configuration := by
  cases s
  · simp only [HeaterControllerBase.nextStateAllowed]
    split_ifs <;> exact ⟨rfl, rfl, rfl, rfl, rfl, rfl⟩
  · simp only [HeaterControllerBase.nextStateAllowed]
    split_ifs <;> exact ⟨rfl, rfl, rfl, rfl, rfl, rfl⟩
  · simp only [HeaterControllerBase.nextStateAllowed]
    split_ifs <;> exact ⟨rfl, rfl, rfl, rfl, rfl, rfl⟩
  · simp only [HeaterControllerBase.nextStateAllowed]
    split_ifs <;> exact ⟨rfl, rfl, rfl, rfl, rfl, rfl⟩

theorem GetNextState_frame (b : BoardConfig) (c : HeaterControllerBase) (now : Int)
    (s : HeaterState) (allow : HeaterAllow) (v t : ℚ) :
    (c.GetNextState b now s allow v t).ctrl.m_pid = c.m_pid ∧
      (c.GetNextState b now s allow v t).ctrl.m_targetEsr = c.m_targetEsr ∧
      (c.GetNextState b now s allow v t).ctrl.cycle = c.cycle ∧
      (c.GetNextState b now s allow v t).ctrl.heaterVoltage = c.heaterVoltage ∧
      (c.GetNextState b now s allow v t).ctrl.m_targetTempC = c.m_targetTempC ∧
      (c.GetNextState b now s allow v t).ctrl.m_configuration = c.m_configuration := by
  simp only [HeaterControllerBase.GetNextState]
  split_ifs
  all_goals first
    | exact ⟨rfl, rfl, rfl, rfl, rfl, rfl⟩
    | exact nextStateAllowed_frame b _ now s t

theorem GetVoltageForState_cycle (b : BoardConfig) (c : HeaterControllerBase)
    (s : HeaterState) (esr : ℚ) : (c.GetVoltageForState b s esr).2.cycle = c.cycle := by
  rw [GetVoltageForState_frame]

theorem Update_cycle (b : BoardConfig) (c : HeaterControllerBase) (now : Int)
    (esr temp : ℚ) (allow : HeaterAllow) (v : ℚ) :
    (c.Update b now esr temp allow v).ctrl.cycle =
      match b.HEATER_MAX_DUTY with
      | some _ => incrCycle c.cycle
      | none => c.cycle := by
  have hf := (GetNextState_frame b c now c.heaterState allow v temp).2.2.1
  simp only [HeaterControllerBase.Update]
  cases b.HEATER_MAX_DUTY with
  | none =>
    simp only [GetVoltageForState_cycle]
    exact hf
  | some m =>
    simp only [GetVoltageForState_cycle]
    exact congrArg incrCycle hf

theorem commandedVoltage_closedLoop (b : BoardConfig) (c : HeaterControllerBase) (now : Int)
    (esr temp : ℚ) (allow : HeaterAllow) (v : ℚ)
    (hcl : (c.GetNextState b now c.heaterState allow v temp).state = HeaterState.ClosedLoop) :
    c.commandedVoltage b now esr temp allow v
      = min (15 / 2 - (c.m_pid.GetOutput c.m_targetEsr esr).1) 12 := by
  obtain ⟨hpid, hesr, -⟩ := GetNextState_frame b c now c.heaterState allow v temp
  simp only [HeaterControllerBase.commandedVoltage, hcl,
    HeaterControllerBase.GetVoltageForState, hpid, hesr]
  split_ifs with h
  · exact (min_eq_right (le_of_lt h)).symm
  · exact (min_eq_left (not_lt.mp h)).symm

theorem duty_mono_of_commanded (b : BoardConfig) (c : HeaterControllerBase) (now : Int)
    (e1 e2 temp : ℚ) (allow : HeaterAllow) (v : ℚ)
    (h0 : 0 ≤ c.commandedVoltage b now e1 temp allow v)
    (hle : c.commandedVoltage b now e1 temp allow v ≤ c.commandedVoltage b now e2 temp allow v) :
    (c.Update b now e1 temp allow v).duty ≤ (c.Update b now e2 temp allow v).duty := by
  have h3 := supplyForDuty_ge v
  have hpos : (0 : ℚ) < supplyForDuty v := by linarith
  have hr : c.commandedVoltage b now e1 temp allow v / supplyForDuty v
      ≤ c.commandedVoltage b now e2 temp allow v / supplyForDuty v :=
    div_le_div_of_nonneg_right hle (le_of_lt hpos)
  have hr0 : 0 ≤ c.commandedVoltage b now e1 temp allow v / supplyForDuty v :=
    div_nonneg h0 (le_of_lt hpos)
  have hd := mul_self_le_mul_self hr0 hr
  rw [Update_duty_eq, Update_duty_eq, Update_cycle, Update_cycle]
  split_ifs with hov
  · exact le_refl _
  · cases b.HEATER_MAX_DUTY with
    | none => exact hd
    | some m =>
      simp only []
      split_ifs with ha hb hb
      · exact le_refl _
      · exact absurd ⟨ha.1, lt_of_lt_of_le ha.2 hd⟩ hb
      · have := not_lt.mp (fun hgt => ha ⟨hb.1, hgt⟩)
        exact this
      · exact hd

theorem dutRunning_stays :
    (dutRunning.GetNextState testBoard 1000000 dutRunning.heaterState HeaterAllow.Allowed 12
      780).state = HeaterState.ClosedLoop := by
  simp [dutRunning, GetNextState_allowed, HeaterControllerBase.nextStateAllowed, dut,
    HeaterControllerBase.Configure, HeaterControllerBase.init, testBoard, Timer.hasElapsedSec,
    Timer.reset]

theorem dutRunning_pid (e : ℚ) (h1 : ¬ (300 - e) * (1 / 1000) * (3 / 10) > 3)
    (h2 : ¬ (300 - e) * (1 / 1000) * (3 / 10) < -3) :
    (dutRunning.m_pid.GetOutput dutRunning.m_targetEsr e).1
      = 3 / 10 * (300 - e) + (300 - e) * (1 / 1000) * (3 / 10)
        + 1 / 100 * ((300 - e) / (1 / 1000)) := by
  simp only [dutRunning, dut, HeaterControllerBase.Configure, HeaterControllerBase.init,
    Pid.init, Pid.GetOutput, heaterPidConfig, testBoard, Nat.cast_one, zero_add, sub_zero,
    if_neg h1, if_neg h2]

theorem dutRunning_duty (e : ℚ) (h1 : ¬ (300 - e) * (1 / 1000) * (3 / 10) > 3)
    (h2 : ¬ (300 - e) * (1 / 1000) * (3 / 10) < -3) :
    (dutRunning.Update testBoard 1000000 e 780 HeaterAllow.Allowed 12).duty
      = (min (15 / 2 - (3 / 10 * (300 - e) + (300 - e) * (1 / 1000) * (3 / 10)
          + 1 / 100 * ((300 - e) / (1 / 1000)))) 12 / 12) ^ 2 := by
  rw [Update_duty_eq, commandedVoltage_closedLoop _ _ _ _ _ _ _ dutRunning_stays,
    dutRunning_pid e h1 h2]
  norm_num [supplyForDuty, testBoard]
  ring

/-- C14 (as amended): on a tick that leaves the heater in ClosedLoop, with the heater
PID in any fixed state, the voltage `Update` works with is
min(7.5 − PID(target_esr, measured_esr), 12); below the over-voltage limit and without
`HEATER_MAX_DUTY` the duty is the square of that voltage over the supply voltage
(12 V when the supply is below 3 V); the voltage is monotone in the measured ESR, and
so is the duty for every pair of ESR values the lower of which gives a voltage that is
not negative. -/
theorem C14_closed_loop_duty (b : BoardConfig) (c : HeaterControllerBase) (now : Int)
    (temp : ℚ) (allow : HeaterAllow) (v : ℚ) (hcfg : c.m_pid.config = heaterPidConfig)
    (hT : 0 ≤ c.m_pid.period)
    (hcl : (c.GetNextState b now c.heaterState allow v temp).state = HeaterState.ClosedLoop) :
    (∀ e, c.commandedVoltage b now e temp allow v
      = min (15 / 2 - (c.m_pid.GetOutput c.m_targetEsr e).1) 12) ∧
    (v < 23 → b.HEATER_MAX_DUTY = none → ∀ e,
      (c.Update b now e temp allow v).duty
        = (min (15 / 2 - (c.m_pid.GetOutput c.m_targetEsr e).1) 12 / supplyForDuty v) ^ 2) ∧
    (∀ e1 e2, e1 ≤ e2 →
      c.commandedVoltage b now e1 temp allow v ≤ c.commandedVoltage b now e2 temp allow v) ∧
    (∀ e1 e2, e1 ≤ e2 → 0 ≤ c.commandedVoltage b now e1 temp allow v →
      (c.Update b now e1 temp allow v).duty ≤ (c.Update b now e2 temp allow v).duty) := by
  have hcv := fun e => commandedVoltage_closedLoop b c now e temp allow v hcl
  have hmono : ∀ e1 e2, e1 ≤ e2 →
      c.commandedVoltage b now e1 temp allow v ≤ c.commandedVoltage b now e2 temp allow v := by
    intro e1 e2 he
    rw [hcv e1, hcv e2]
    have := heaterPid_output_antitone c.m_pid hcfg hT c.m_targetEsr e1 e2 he
    exact min_le_min (by linarith) (le_refl _)
  refine ⟨hcv, ?_, hmono, ?_⟩
  · intro hv hmax e
    have hs : ¬ supplyForDuty v ≥ 23 := by
      unfold supplyForDuty
      split_ifs <;> linarith
    rw [Update_duty_eq, if_neg hs, hmax, hcv e]
    simp only []
    ring
  · intro e1 e2 he h0
    exact duty_mono_of_commanded b c now e1 e2 temp allow v h0 (hmono e1 e2 he)

/-- C14 on the test controller in closed loop (target ESR 300, fresh PID, 12 V supply):
with the measured ESR at 300 the voltage is 7.5 V and the duty (7.5 / 12)², and the
duty at ESR 300 is not above the duty at ESR 301. -/
theorem C14_closed_loop_duty_witness :
    dutRunning.m_pid.config = heaterPidConfig ∧ 0 ≤ dutRunning.m_pid.period ∧
      (dutRunning.GetNextState testBoard 1000000 dutRunning.heaterState HeaterAllow.Allowed 12
        780).state = HeaterState.ClosedLoop ∧
      (dutRunning.Update testBoard 1000000 300 780 HeaterAllow.Allowed 12).duty
        = (15 / 2 / 12) ^ 2 ∧
      (dutRunning.Update testBoard 1000000 300 780 HeaterAllow.Allowed 12).duty
        ≤ (dutRunning.Update testBoard 1000000 301 780 HeaterAllow.Allowed 12).duty :=
  have hcfg : dutRunning.m_pid.config = heaterPidConfig := rfl
  have hT : 0 ≤ dutRunning.m_pid.period := by
    norm_num [dutRunning, dut, HeaterControllerBase.Configure, HeaterControllerBase.init,
      Pid.init, testBoard]
  have hcv300 : dutRunning.commandedVoltage testBoard 1000000 300 780 HeaterAllow.Allowed 12
      = 15 / 2 := by
    rw [(C14_closed_loop_duty testBoard dutRunning 1000000 780 HeaterAllow.Allowed 12 hcfg hT
      dutRunning_stays).1 300, dutRunning_pid 300 (by norm_num) (by norm_num)]
    norm_num
  ⟨hcfg, hT, dutRunning_stays,
    by
      rw [(C14_closed_loop_duty testBoard dutRunning 1000000 780 HeaterAllow.Allowed 12 hcfg hT
        dutRunning_stays).2.1 (by norm_num) rfl 300,
        dutRunning_pid 300 (by norm_num) (by norm_num)]
      norm_num [supplyForDuty],
    (C14_closed_loop_duty testBoard dutRunning 1000000 780 HeaterAllow.Allowed 12 hcfg hT
      dutRunning_stays).2.2.2 300 301 (by norm_num) (by rw [hcv300]; norm_num)⟩

/-- C14 fails as stated, on the test controller in closed loop (target ESR 300, fresh
PID, 12 V supply). The lower ESR can yield the higher duty: at a measured ESR of 0 the
voltage 7.5 − PID is −3082.59 V and at 200 it is −1022.53 V, and the squares are
(3082.59 / 12)² > (1022.53 / 12)². And the duty is not (V_eff / V_supply)² when V_eff
exceeds 12 V: at a measured ESR of 400, V_eff is 1037.53 V and the duty is 1. -/
theorem C14_counterexample :
    (dutRunning.GetNextState testBoard 1000000 dutRunning.heaterState HeaterAllow.Allowed 12
        780).state = HeaterState.ClosedLoop ∧
      (dutRunning.Update testBoard 1000000 0 780 HeaterAllow.Allowed 12).duty
        = (308259 / 1200) ^ 2 ∧
      (dutRunning.Update testBoard 1000000 200 780 HeaterAllow.Allowed 12).duty
        = (102253 / 1200) ^ 2 ∧
      ¬ (dutRunning.Update testBoard 1000000 0 780 HeaterAllow.Allowed 12).duty
        ≤ (dutRunning.Update testBoard 1000000 200 780 HeaterAllow.Allowed 12).duty ∧
      (dutRunning.Update testBoard 1000000 400 780 HeaterAllow.Allowed 12).duty = 1 ∧
      ¬ (dutRunning.Update testBoard 1000000 400 780 HeaterAllow.Allowed 12).duty
        = ((15 / 2 - (dutRunning.m_pid.GetOutput dutRunning.m_targetEsr 400).1) / 12) ^ 2 := by
  have h0 : (dutRunning.Update testBoard 1000000 0 780 HeaterAllow.Allowed 12).duty
      = (308259 / 1200) ^ 2 := by
    rw [dutRunning_duty 0 (by norm_num) (by norm_num)]
    norm_num
  have h200 : (dutRunning.Update testBoard 1000000 200 780 HeaterAllow.Allowed 12).duty
      = (102253 / 1200) ^ 2 := by
    rw [dutRunning_duty 200 (by norm_num) (by norm_num)]
    norm_num
  have h400 : (dutRunning.Update testBoard 1000000 400 780 HeaterAllow.Allowed 12).duty
      = 1 := by
    rw [dutRunning_duty 400 (by norm_num) (by norm_num)]
    norm_num
  refine ⟨dutRunning_stays, h0, h200, ?_, h400, ?_⟩
  · rw [h0, h200]
    norm_num
  · rw [h400, dutRunning_pid 400 (by norm_num) (by norm_num)]
    norm_num

/-! ## The duty formula and supply faults -/

/-- C15: for every tick below the over-voltage limit of 23 V, the supply voltage `V_s`
that `Update` divides by is 12 V when the measured supply is below 3 V and the measured
supply otherwise, so it is never below 3: it is not zero and the branch for a supply
below 1 V is not taken. The voltage is min(V_eff, 12) with V_eff the voltage for the new
state, and the duty is (min(V_eff, 12) / V_s)²; on a board that defines
`HEATER_MAX_DUTY` that value is replaced by `HEATER_MAX_DUTY` on every tenth tick when
it exceeds it. -/
theorem C15_duty_formula (b : BoardConfig) (c : HeaterControllerBase) (now : Int)
    (esr temp : ℚ) (allow : HeaterAllow) (v : ℚ) (hv : v < 23) :
    supplyForDuty v = (if v < 3 then 12 else v) ∧
    3 ≤ supplyForDuty v ∧ supplyForDuty v ≠ 0 ∧ ¬ supplyForDuty v < 1 ∧
    c.commandedVoltage b now esr temp allow v
      = min (({ (c.GetNextState b now c.heaterState allow v temp).ctrl with
            heaterState := (c.GetNextState b now c.heaterState allow v temp).state }
          : HeaterControllerBase).GetVoltageForState b
            (c.GetNextState b now c.heaterState allow v temp).state esr).1 12 ∧
    (b.HEATER_MAX_DUTY = none →
      (c.Update b now esr temp allow v).duty
        = (c.commandedVoltage b now esr temp allow v / supplyForDuty v) ^ 2) ∧
    (∀ m, b.HEATER_MAX_DUTY = some m →
      (c.Update b now esr temp allow v).duty
        = if incrCycle c.cycle % 10 = 0
            ∧ (c.commandedVoltage b now esr temp allow v / supplyForDuty v) ^ 2 > m
          then m
          else (c.commandedVoltage b now esr temp allow v / supplyForDuty v) ^ 2) := by
  have h3 := supplyForDuty_ge v
  have hs : ¬ supplyForDuty v ≥ 23 := by
    unfold supplyForDuty
    split_ifs <;> linarith
  refine ⟨rfl, h3, by linarith, by linarith, ?_, ?_, ?_⟩
  · simp only [HeaterControllerBase.commandedVoltage]
    split_ifs with h
    · exact (min_eq_right (le_of_lt h)).symm
    · exact (min_eq_left (not_lt.mp h)).symm
  · intro hmax
    rw [Update_duty_eq, if_neg hs, hmax]
    simp only []
    ring
  · intro m hmax
    rw [Update_duty_eq, if_neg hs, Update_cycle, hmax]
    simp only [sq]

/-- C15 on the first tick of the test controller with a cold sensor and a supply of
2 V: the voltage is 2 V (Preheat), the divisor 12 V and the duty (2 / 12)². -/
theorem C15_duty_formula_witness :
    (2 : ℚ) < 23 ∧ supplyForDuty 2 = 12 ∧
      (dut.Update testBoard 0 300 500 HeaterAllow.Allowed 2).duty = (2 / 12) ^ 2 :=
  have hcv : dut.commandedVoltage testBoard 0 300 500 HeaterAllow.Allowed 2 = 2 := by
    simp [HeaterControllerBase.commandedVoltage, GetNextState_allowed,
      HeaterControllerBase.nextStateAllowed, HeaterControllerBase.GetVoltageForState, dut,
      HeaterControllerBase.Configure, HeaterControllerBase.init, testBoard, mockConfig,
      Timer.hasElapsedSec, Timer.reset, HeaterConfig.preheatTime, getValue_mock_off, getValue_mock_on,
      getValue_mock_preheat]
    norm_num
  have hs : supplyForDuty 2 = 12 := by
    rw [(C15_duty_formula testBoard dut 0 300 500 HeaterAllow.Allowed 2 (by norm_num)).1]
    norm_num
  ⟨by norm_num, hs,
    by
      rw [(C15_duty_formula testBoard dut 0 300 500 HeaterAllow.Allowed 2
        (by norm_num)).2.2.2.2.2.1 rfl, hcv, hs]⟩

theorem GetNextState_known_supply (b : BoardConfig) (c : HeaterControllerBase) (now : Int)
    (s : HeaterState) (allow : HeaterAllow) (v w t : ℚ) (h : allow ≠ HeaterAllow.Unknown) :
    c.GetNextState b now s allow v t = c.GetNextState b now s allow w t := by
  simp [HeaterControllerBase.GetNextState, h]

theorem Update_heaterState (b : BoardConfig) (c : HeaterControllerBase) (now : Int)
    (esr temp : ℚ) (allow : HeaterAllow) (v : ℚ) :
    (c.Update b now esr temp allow v).ctrl.heaterState
      = (c.GetNextState b now c.heaterState allow v temp).state := by
  rw [Update_ctrl_frame]

/-- C16 (as amended): a supply fault neither freezes nor forces the heater state. On
every tick, also one with an under-voltage (below 3 V) or an over-voltage (23 V or
more), the heater state after `Update` is the state `GetNextState` returns for the
tick; and with `heater_allow` Allowed or NotAllowed it is the state that any other
supply voltage would give. -/
theorem C16_supply_fault_state (b : BoardConfig) (c : HeaterControllerBase) (now : Int)
    (esr temp : ℚ) (allow : HeaterAllow) (v : ℚ) :
    (c.Update b now esr temp allow v).ctrl.heaterState
      = (c.GetNextState b now c.heaterState allow v temp).state ∧
    (allow ≠ HeaterAllow.Unknown → ∀ w,
      (c.Update b now esr temp allow v).ctrl.heaterState
        = (c.Update b now esr temp allow w).ctrl.heaterState) := by
  refine ⟨Update_heaterState b c now esr temp allow v, ?_⟩
  intro h w
  rw [Update_heaterState, Update_heaterState, GetNextState_known_supply b c now _ allow v w temp h]

/-- C16 on the test controller, heating allowed, hot sensor: the over-voltage tick at
24 V and the under-voltage tick at 2 V give the same heater state as the tick at 12 V. -/
theorem C16_supply_fault_state_witness :
    HeaterAllow.Allowed ≠ HeaterAllow.Unknown ∧
      (dut.Update testBoard 0 300 780 HeaterAllow.Allowed 24).ctrl.heaterState
        = (dut.Update testBoard 0 300 780 HeaterAllow.Allowed 12).ctrl.heaterState ∧
      (dut.Update testBoard 0 300 780 HeaterAllow.Allowed 2).ctrl.heaterState
        = (dut.Update testBoard 0 300 780 HeaterAllow.Allowed 12).ctrl.heaterState :=
  ⟨by decide,
    (C16_supply_fault_state testBoard dut 0 300 780 HeaterAllow.Allowed 24).2 (by decide) 12,
    (C16_supply_fault_state testBoard dut 0 300 780 HeaterAllow.Allowed 2).2 (by decide) 12⟩

theorem dut_hot_next (v : ℚ) :
    (dut.GetNextState testBoard 0 dut.heaterState HeaterAllow.Allowed v 780).state
      = HeaterState.WarmupRamp := by
  simp [GetNextState_allowed, HeaterControllerBase.nextStateAllowed, dut,
    HeaterControllerBase.Configure, HeaterControllerBase.init, testBoard, Timer.hasElapsedSec,
    Timer.reset]

/-- C16 fails as stated: the test controller is in Preheat; on a tick with heating
allowed and the sensor at 780 °C it moves to WarmupRamp although the supply is an
over-voltage of 24 V, and likewise when the supply is an under-voltage of 2 V. -/
theorem C16_counterexample :
    dut.heaterState = HeaterState.Preheat ∧
      (23 : ℚ) ≤ 24 ∧
      (dut.Update testBoard 0 300 780 HeaterAllow.Allowed 24).ctrl.heaterState
        = HeaterState.WarmupRamp ∧
      ¬ (dut.Update testBoard 0 300 780 HeaterAllow.Allowed 24).ctrl.heaterState
        = dut.heaterState ∧
      (2 : ℚ) < 3 ∧
      (dut.Update testBoard 0 300 780 HeaterAllow.Allowed 2).ctrl.heaterState
        = HeaterState.WarmupRamp ∧
      ¬ (dut.Update testBoard 0 300 780 HeaterAllow.Allowed 2).ctrl.heaterState
        = dut.heaterState := by
  have hp : dut.heaterState = HeaterState.Preheat := rfl
  have h24 : (dut.Update testBoard 0 300 780 HeaterAllow.Allowed 24).ctrl.heaterState
      = HeaterState.WarmupRamp := by
    rw [Update_heaterState, dut_hot_next]
  have h2 : (dut.Update testBoard 0 300 780 HeaterAllow.Allowed 2).ctrl.heaterState
      = HeaterState.WarmupRamp := by
    rw [Update_heaterState, dut_hot_next]
  refine ⟨hp, by norm_num, h24, ?_, by norm_num, h2, ?_⟩
  · rw [h24, hp]
    decide
  · rw [h2, hp]
    decide

/-! ## ECU status over CAN -/

theorem sampleIds_wellFormed : sampleIds.WellFormed := by
  simp [WidebandCan.WellFormed, sampleIds]

theorem Process_ecuStatus (ids : WidebandCan) (n : ChannelCounts) (frame : CANRxFrame)
    (st : RxState) (hwf : ids.WellFormed) (hext : frame.EXT = true)
    (hid : frame.ID = ids.WB_MSG_ECU_STATUS) (hdlc : 2 ≤ frame.DLC) :
    (ProcessRusefiCanMessage ids n frame st).state.configuration = st.configuration ∧
      (ProcessRusefiCanMessage ids n frame st).state.statusData.heaterAllow
        = (if frame.data8 1 &&& 0x1 = 0x1 then HeaterAllow.Allowed
          else HeaterAllow.NotAllowed) ∧
      (ProcessRusefiCanMessage ids n frame st).state.statusData.remoteBatteryVoltage
        = (if (frame.data8 0 : ℚ) * (1 / 10) < 5 then 14 else (frame.data8 0 : ℚ) * (1 / 10)) ∧
      (ProcessRusefiCanMessage ids n frame st).state.pumpGainAdjust
        = (if frame.DLC ≥ 3 then clampF 0 ((frame.data8 2 : ℚ) * (1 / 100)) 1
          else st.pumpGainAdjust) ∧
      (ProcessRusefiCanMessage ids n frame st).effects = [] := by
  have hhdr : ids.WB_MSG_GET_HEADER frame.ID = ids.WB_BL_HEADER := by
    rw [hid]
    exact hwf.2.2.1
  have hc : frame.DLC ≥ 2 ∧ frame.ID = ids.WB_MSG_ECU_STATUS := ⟨hdlc, hid⟩
  unfold ProcessRusefiCanMessage
  rw [if_neg (by simp [hext]), if_neg (not_not.mpr hhdr), if_pos hc]
  refine ⟨?_, ?_, ?_, ?_, rfl⟩ <;> simp only [] <;> split_ifs <;> rfl

/-- C17: for every extended ECU-status frame (identifier `WB_MSG_ECU_STATUS`) with
DLC ≥ 2, `ProcessRusefiCanMessage` stores data[0] / 10 V as the remote battery voltage
when that is at least 5 V and 14 V otherwise, so the stored value is never below 5 V,
and it sets `heater_allow` to Allowed when bit 0 of data[1] is set and to NotAllowed
otherwise. -/
theorem C17_ecu_status (ids : WidebandCan) (n : ChannelCounts) (frame : CANRxFrame)
    (st : RxState) (hwf : ids.WellFormed) (hext : frame.EXT = true)
    (hid : frame.ID = ids.WB_MSG_ECU_STATUS) (hdlc : 2 ≤ frame.DLC) :
    (ProcessRusefiCanMessage ids n frame st).state.statusData.remoteBatteryVoltage
        = (if 5 ≤ (frame.data8 0 : ℚ) / 10 then (frame.data8 0 : ℚ) / 10 else 14) ∧
      5 ≤ (ProcessRusefiCanMessage ids n frame st).state.statusData.remoteBatteryVoltage ∧
      (ProcessRusefiCanMessage ids n frame st).state.statusData.heaterAllow
        = (if (frame.data8 1).testBit 0 = true then HeaterAllow.Allowed
          else HeaterAllow.NotAllowed) := by
  have hbit : (frame.data8 1 &&& 0x1 = 0x1) ↔ (frame.data8 1).testBit 0 = true := by
    rw [Nat.and_one_is_mod, Nat.testBit_zero]
    simp
  have hv : (frame.data8 0 : ℚ) * (1 / 10) = (frame.data8 0 : ℚ) / 10 := by ring
  obtain ⟨-, hallow, hremote, -, -⟩ := Process_ecuStatus ids n frame st hwf hext hid hdlc
  rw [hallow, hremote, hv]
  refine ⟨?_, ?_, ?_⟩
  · by_cases h5 : (frame.data8 0 : ℚ) / 10 < 5
    · rw [if_pos h5, if_neg (not_le.mpr h5)]
    · rw [if_neg h5, if_pos (not_lt.mp h5)]
  · split_ifs <;> linarith
  · by_cases hb : frame.data8 1 &&& 0x1 = 0x1
    · rw [if_pos hb, if_pos (hbit.mp hb)]
    · rw [if_neg hb, if_neg (fun h => hb (hbit.mpr h))]

/-- C17 on two frames of the sample identifiers: data [135, 1] stores 13.5 V and
Allowed; data [30, 2] stores 14 V and NotAllowed. -/
theorem C17_ecu_status_witness :
    sampleIds.WellFormed ∧
      (ProcessRusefiCanMessage sampleIds twoChannels (ecuStatusFrame 2 135 1 0)
        sampleRxState).state.statusData.remoteBatteryVoltage = 27 / 2 ∧
      (ProcessRusefiCanMessage sampleIds twoChannels (ecuStatusFrame 2 135 1 0)
        sampleRxState).state.statusData.heaterAllow = HeaterAllow.Allowed ∧
      (ProcessRusefiCanMessage sampleIds twoChannels (ecuStatusFrame 2 30 2 0)
        sampleRxState).state.statusData.remoteBatteryVoltage = 14 ∧
      (ProcessRusefiCanMessage sampleIds twoChannels (ecuStatusFrame 2 30 2 0)
        sampleRxState).state.statusData.heaterAllow = HeaterAllow.NotAllowed :=
  ⟨sampleIds_wellFormed,
    by
      rw [(C17_ecu_status sampleIds twoChannels (ecuStatusFrame 2 135 1 0) sampleRxState
        sampleIds_wellFormed rfl rfl (le_refl 2)).1]
      norm_num [ecuStatusFrame],
    by
      rw [(C17_ecu_status sampleIds twoChannels (ecuStatusFrame 2 135 1 0) sampleRxState
        sampleIds_wellFormed rfl rfl (le_refl 2)).2.2]
      simp [ecuStatusFrame],
    by
      rw [(C17_ecu_status sampleIds twoChannels (ecuStatusFrame 2 30 2 0) sampleRxState
        sampleIds_wellFormed rfl rfl (le_refl 2)).1]
      norm_num [ecuStatusFrame],
    by
      rw [(C17_ecu_status sampleIds twoChannels (ecuStatusFrame 2 30 2 0) sampleRxState
        sampleIds_wellFormed rfl rfl (le_refl 2)).2.2]
      simp [ecuStatusFrame]⟩

theorem clampF_unit (x : ℚ) : 0 ≤ clampF 0 x 1 ∧ clampF 0 x 1 ≤ 1 := by
  unfold clampF
  exact ⟨le_max_left _ _, max_le (by norm_num) (min_le_right _ _)⟩

theorem Process_pumpGainAdjust (ids : WidebandCan) (n : ChannelCounts) (frame : CANRxFrame)
    (st : RxState) :
    (ProcessRusefiCanMessage ids n frame st).state.pumpGainAdjust = st.pumpGainAdjust ∨
      (ProcessRusefiCanMessage ids n frame st).state.pumpGainAdjust
        = clampF 0 ((frame.data8 2 : ℚ) * (1 / 100)) 1 := by
  unfold ProcessRusefiCanMessage
  split_ifs <;> simp

theorem rusefiRxRun_pumpGainAdjust (ids : WidebandCan) (n : ChannelCounts)
    (frames : List CANRxFrame) (st : RxState) (h0 : 0 ≤ st.pumpGainAdjust)
    (h1 : st.pumpGainAdjust ≤ 1) :
    0 ≤ (rusefiRxRun ids n frames st).state.pumpGainAdjust ∧
      (rusefiRxRun ids n frames st).state.pumpGainAdjust ≤ 1 := by
  induction frames generalizing st with
  | nil => exact ⟨h0, h1⟩
  | cons frame rest ih =>
    have hstep : 0 ≤ (ProcessRusefiCanMessage ids n frame st).state.pumpGainAdjust ∧
        (ProcessRusefiCanMessage ids n frame st).state.pumpGainAdjust ≤ 1 := by
      rcases Process_pumpGainAdjust ids n frame st with h | h
      · rw [h]
        exact ⟨h0, h1⟩
      · rw [h]
        exact clampF_unit _
    simp only [rusefiRxRun]
    split_ifs
    · exact hstep
    · exact ih _ hstep.1 hstep.2

/-- C18: for every extended ECU-status frame with DLC ≥ 3, `ProcessRusefiCanMessage`
sets `pump_gain_adjust` to clamp(data[2] · 0.01, 0, 1), a value in [0, 1]; an
ECU-status frame with DLC = 2 leaves `pump_gain_adjust` unchanged; and after any
sequence of received frames, whatever they contain, `pump_gain_adjust` lies in [0, 1]
when it did before, as it does at start-up. -/
theorem C18_pump_gain (ids : WidebandCan) (n : ChannelCounts) (hwf : ids.WellFormed) :
    (∀ (frame : CANRxFrame) (st : RxState), frame.EXT = true →
      frame.ID = ids.WB_MSG_ECU_STATUS → 3 ≤ frame.DLC →
      (ProcessRusefiCanMessage ids n frame st).state.pumpGainAdjust
          = max 0 (min ((frame.data8 2 : ℚ) * (1 / 100)) 1) ∧
        0 ≤ (ProcessRusefiCanMessage ids n frame st).state.pumpGainAdjust ∧
        (ProcessRusefiCanMessage ids n frame st).state.pumpGainAdjust ≤ 1) ∧
    (∀ (frame : CANRxFrame) (st : RxState), frame.EXT = true →
      frame.ID = ids.WB_MSG_ECU_STATUS → frame.DLC = 2 →
      (ProcessRusefiCanMessage ids n frame st).state.pumpGainAdjust = st.pumpGainAdjust) ∧
    (∀ (frames : List CANRxFrame) (st : RxState),
      0 ≤ st.pumpGainAdjust → st.pumpGainAdjust ≤ 1 →
      0 ≤ (rusefiRxRun ids n frames st).state.pumpGainAdjust ∧
        (rusefiRxRun ids n frames st).state.pumpGainAdjust ≤ 1) ∧
    (0 ≤ pumpGainAdjustInitial ∧ pumpGainAdjustInitial ≤ 1) := by
  refine ⟨?_, ?_, ?_, ?_⟩
  · intro frame st hext hid hdlc
    have h := (Process_ecuStatus ids n frame st hwf hext hid (by omega)).2.2.2.1
    rw [h, if_pos hdlc]
    exact ⟨rfl, clampF_unit _⟩
  · intro frame st hext hid hdlc
    have h := (Process_ecuStatus ids n frame st hwf hext hid (by omega)).2.2.2.1
    rw [h, if_neg (by omega)]
  · intro frames st h0 h1
    exact rusefiRxRun_pumpGainAdjust ids n frames st h0 h1
  · norm_num [pumpGainAdjustInitial]

/-- C18 on frames of the sample identifiers, from the start-up state: data[2] = 50 with
DLC 3 sets the gain to 0.5, data[2] = 200 sets it to 1, a frame with DLC 2 leaves the
gain at 1, and after the three frames in a row the gain is in [0, 1]. -/
theorem C18_pump_gain_witness :
    sampleIds.WellFormed ∧
      (ProcessRusefiCanMessage sampleIds twoChannels (ecuStatusFrame 3 135 1 50)
        sampleRxState).state.pumpGainAdjust = 1 / 2 ∧
      (ProcessRusefiCanMessage sampleIds twoChannels (ecuStatusFrame 3 135 1 200)
        sampleRxState).state.pumpGainAdjust = 1 ∧
      (ProcessRusefiCanMessage sampleIds twoChannels (ecuStatusFrame 2 135 1 50)
        sampleRxState).state.pumpGainAdjust = 1 ∧
      0 ≤ (rusefiRxRun sampleIds twoChannels
        [ecuStatusFrame 3 135 1 50, ecuStatusFrame 3 135 1 200, ecuStatusFrame 2 135 1 50]
        sampleRxState).state.pumpGainAdjust ∧
      (rusefiRxRun sampleIds twoChannels
        [ecuStatusFrame 3 135 1 50, ecuStatusFrame 3 135 1 200, ecuStatusFrame 2 135 1 50]
        sampleRxState).state.pumpGainAdjust ≤ 1 :=
  have h := C18_pump_gain sampleIds twoChannels sampleIds_wellFormed
  have hinit0 : 0 ≤ sampleRxState.pumpGainAdjust := h.2.2.2.1
  have hinit1 : sampleRxState.pumpGainAdjust ≤ 1 := h.2.2.2.2
  ⟨sampleIds_wellFormed,
    by
      rw [(h.1 (ecuStatusFrame 3 135 1 50) sampleRxState rfl rfl (le_refl 3)).1]
      norm_num [ecuStatusFrame],
    by
      rw [(h.1 (ecuStatusFrame 3 135 1 200) sampleRxState rfl rfl (le_refl 3)).1]
      norm_num [ecuStatusFrame],
    by
      rw [h.2.1 (ecuStatusFrame 2 135 1 50) sampleRxState rfl rfl rfl]
      rfl,
    (h.2.2.1 _ sampleRxState hinit0 hinit1).1,
    (h.2.2.1 _ sampleRxState hinit0 hinit1).2⟩

/-! ## The set-index message -/

theorem setRusEfiIdxAt_apply (offset k : Nat) (prev : Fin 2 → ChannelSettings) (i : Fin 2) :
    setRusEfiIdxAt offset prev k i =
      if i.val = k then { prev i with RusEfiIdx := (offset + k) % 256 } else prev i := by
  unfold setRusEfiIdxAt
  by_cases hk : k < 2
  · rw [dif_pos hk]
    by_cases hik : i = ⟨k, hk⟩
    · subst hik
      rw [Function.update_same, if_pos rfl]
    · have hne : i.val ≠ k := fun h => hik (Fin.ext h)
      rw [Function.update_noteq hik, if_neg hne]
  · have hi := i.isLt
    rw [dif_neg hk, if_neg (by omega)]

theorem setRusEfiIdx_apply (offset count : Nat) (entries : Fin 2 → ChannelSettings)
    (i : Fin 2) :
    setRusEfiIdx offset count entries i =
      if i.val < count then { entries i with RusEfiIdx := (offset + i.val) % 256 }
      else entries i := by
  induction count with
  | zero => simp [setRusEfiIdx]
  | succ k ih =>
    unfold setRusEfiIdx at ih ⊢
    rw [List.range_succ, List.foldl_append, List.foldl_cons, List.foldl_nil,
      setRusEfiIdxAt_apply, ih]
    by_cases hik : i.val = k
    · rw [if_pos hik, if_neg (by omega), if_pos (by omega), hik]
    · rw [if_neg hik]
      by_cases hlt : i.val < k
      · rw [if_pos hlt, if_pos (by omega)]
      · rw [if_neg hlt, if_neg (by omega)]

theorem Process_setIndex (ids : WidebandCan) (n : ChannelCounts) (frame : CANRxFrame)
    (st : RxState) (hwf : ids.WellFormed) (hext : frame.EXT = true)
    (hid : frame.ID = ids.WB_MSG_SET_INDEX) (hdlc : frame.DLC = 1) :
    ProcessRusefiCanMessage ids n frame st =
      { state :=
          { st with
            configuration :=
              { st.configuration with
                afr := setRusEfiIdx (frame.data8 0) n.AFR_CHANNELS st.configuration.afr
                egt := setRusEfiIdx (frame.data8 0) n.EGT_CHANNELS st.configuration.egt } }
        effects :=
          [RxEffect.SetConfiguration
              { st.configuration with
                afr := setRusEfiIdx (frame.data8 0) n.AFR_CHANNELS st.configuration.afr
                egt := setRusEfiIdx (frame.data8 0) n.EGT_CHANNELS st.configuration.egt },
            RxEffect.Transmit (SendAck ids)] } := by
  have hhdr : ids.WB_MSG_GET_HEADER frame.ID = ids.WB_BL_HEADER := by
    rw [hid]
    exact hwf.2.1
  have h1 : ¬ (frame.DLC ≥ 2 ∧ frame.ID = ids.WB_MSG_ECU_STATUS) := by
    intro h
    omega
  have h2 : ¬ ((frame.DLC = 0 ∨ frame.DLC = 1) ∧ frame.ID = ids.WB_BL_ENTER) := by
    intro h
    exact hwf.2.2.2.1 (h.2.symm.trans hid)
  have h3 : frame.DLC = 1 ∧ frame.ID = ids.WB_MSG_SET_INDEX := ⟨hdlc, hid⟩
  unfold ProcessRusefiCanMessage
  rw [if_neg (by simp [hext]), if_neg (not_not.mpr hhdr), if_neg h1, if_neg h2, if_pos h3]

theorem setRusEfiIdx_idem (offset count : Nat) (entries : Fin 2 → ChannelSettings) :
    setRusEfiIdx offset count (setRusEfiIdx offset count entries)
      = setRusEfiIdx offset count entries := by
  funext i
  rw [setRusEfiIdx_apply, setRusEfiIdx_apply]
  split_ifs <;> rfl

/-- C20: the set-index message is idempotent: in a build with at most two AFR and two
EGT channels, for every configuration record (and every CAN status and pump gain) and
every data[0], handing the same set-index frame to `ProcessRusefiCanMessage` a second
time yields the same record as handing it over once. -/
theorem C20_set_index_idempotent (ids : WidebandCan) (n : ChannelCounts) (frame : CANRxFrame)
    (st : RxState) (hwf : ids.WellFormed) (_hn : n.Valid) (hext : frame.EXT = true)
    (hid : frame.ID = ids.WB_MSG_SET_INDEX) (hdlc : frame.DLC = 1) :
    (ProcessRusefiCanMessage ids n frame
        (ProcessRusefiCanMessage ids n frame st).state).state.configuration
      = (ProcessRusefiCanMessage ids n frame st).state.configuration := by
  rw [Process_setIndex ids n frame _ hwf hext hid hdlc,
    Process_setIndex ids n frame st hwf hext hid hdlc]
  simp only [setRusEfiIdx_idem]

/-- C20 on the sample record: the set-index frame with data [7] changes the record, and
a second copy of the frame changes nothing more. -/
theorem C20_set_index_idempotent_witness :
    sampleIds.WellFormed ∧ twoChannels.Valid ∧
      ¬ ((ProcessRusefiCanMessage sampleIds twoChannels (setIndexFrame 7)
        sampleRxState).state.configuration.afr 0).RusEfiIdx
          = (sampleRxState.configuration.afr 0).RusEfiIdx ∧
      (ProcessRusefiCanMessage sampleIds twoChannels (setIndexFrame 7)
          (ProcessRusefiCanMessage sampleIds twoChannels (setIndexFrame 7)
            sampleRxState).state).state.configuration
        = (ProcessRusefiCanMessage sampleIds twoChannels (setIndexFrame 7)
          sampleRxState).state.configuration :=
  have hn : twoChannels.Valid := by
    simp [ChannelCounts.Valid, twoChannels]
  ⟨sampleIds_wellFormed, hn,
    by
      rw [Process_setIndex sampleIds twoChannels (setIndexFrame 7) sampleRxState
        sampleIds_wellFormed rfl rfl rfl]
      simp [setRusEfiIdx_apply, twoChannels, setIndexFrame, sampleRxState,
        sampleConfiguration, sampleChannel],
    C20_set_index_idempotent sampleIds twoChannels (setIndexFrame 7) sampleRxState
      sampleIds_wellFormed hn rfl rfl rfl⟩

/-! ## The bootloader-enter message -/

theorem Process_blEnter (ids : WidebandCan) (n : ChannelCounts) (frame : CANRxFrame)
    (st : RxState) (hwf : ids.WellFormed) (hext : frame.EXT = true)
    (hid : frame.ID = ids.WB_BL_ENTER) (hdlc : frame.DLC = 0 ∨ frame.DLC = 1) :
    ProcessRusefiCanMessage ids n frame st =
      if frame.DLC = 0 ∨ frame.data8 0 = 0xFF
          ∨ frame.data8 0 = (st.configuration.afr 0).RusEfiIdx then
        { state := st
          effects :=
            [RxEffect.Transmit (SendAck ids), RxEffect.Sleep 50, RxEffect.SystemReset] }
      else
        { state := st, effects := [] } := by
  have hhdr : ids.WB_MSG_GET_HEADER frame.ID = ids.WB_BL_HEADER := by
    rw [hid]
    exact hwf.1
  have h1 : ¬ (frame.DLC ≥ 2 ∧ frame.ID = ids.WB_MSG_ECU_STATUS) := by
    intro h
    omega
  have h2 : (frame.DLC = 0 ∨ frame.DLC = 1) ∧ frame.ID = ids.WB_BL_ENTER := ⟨hdlc, hid⟩
  unfold ProcessRusefiCanMessage
  rw [if_neg (by simp [hext]), if_neg (not_not.mpr hhdr), if_neg h1, if_pos h2]

/-- C21: for every extended bootloader-enter frame (identifier `WB_BL_ENTER`) with DLC 0
or 1, `ProcessRusefiCanMessage` sends the ACK frame (extended, identifier `WB_ACK`,
DLC 0, no data), sleeps 50 ticks and resets the system, in that order, exactly when
DLC = 0, or data[0] = 0xFF, or data[0] is the internal-protocol index of AFR channel 0;
in every other case it has no effect at all (no ACK, no reset); in both cases the
configuration, the CAN status and the pump gain are as before. -/
theorem C21_bootloader_enter (ids : WidebandCan) (n : ChannelCounts) (frame : CANRxFrame)
    (st : RxState) (hwf : ids.WellFormed) (hext : frame.EXT = true)
    (hid : frame.ID = ids.WB_BL_ENTER) (hdlc : frame.DLC = 0 ∨ frame.DLC = 1) :
    ((frame.DLC = 0 ∨ frame.data8 0 = 0xFF
          ∨ frame.data8 0 = (st.configuration.afr 0).RusEfiIdx) →
        (ProcessRusefiCanMessage ids n frame st).effects =
          [RxEffect.Transmit { EXT := true, EID := ids.WB_ACK, DLC := 0, data8 := [] },
            RxEffect.Sleep 50, RxEffect.SystemReset])
      ∧ (¬ (frame.DLC = 0 ∨ frame.data8 0 = 0xFF
            ∨ frame.data8 0 = (st.configuration.afr 0).RusEfiIdx) →
        (ProcessRusefiCanMessage ids n frame st).effects = [])
      ∧ (ProcessRusefiCanMessage ids n frame st).state = st := by
  rw [Process_blEnter ids n frame st hwf hext hid hdlc]
  refine ⟨fun h => ?_, fun h => ?_, ?_⟩
  · rw [if_pos h]
    rfl
  · rw [if_neg h]
  · split_ifs <;> rfl

/-- C21 at `sampleRxState` (AFR channel 0 has index 0, `WB_ACK` is 0x727573): a frame
with DLC 1 and data[0] = 0 restarts into the bootloader after the ACK, and so does one
with data[0] = 0xFF or with DLC 0; a frame with DLC 1 and data[0] = 2, the index of AFR
channel 1, does nothing. -/
theorem C21_bootloader_enter_witness :
    (ProcessRusefiCanMessage sampleIds twoChannels (blEnterFrame 1 0) sampleRxState).effects =
        [RxEffect.Transmit { EXT := true, EID := 0x727573, DLC := 0, data8 := [] },
          RxEffect.Sleep 50, RxEffect.SystemReset]
      ∧ (ProcessRusefiCanMessage sampleIds twoChannels (blEnterFrame 1 0xFF)
          sampleRxState).effects =
        [RxEffect.Transmit { EXT := true, EID := 0x727573, DLC := 0, data8 := [] },
          RxEffect.Sleep 50, RxEffect.SystemReset]
      ∧ (ProcessRusefiCanMessage sampleIds twoChannels (blEnterFrame 0 7)
          sampleRxState).effects =
        [RxEffect.Transmit { EXT := true, EID := 0x727573, DLC := 0, data8 := [] },
          RxEffect.Sleep 50, RxEffect.SystemReset]
      ∧ (ProcessRusefiCanMessage sampleIds twoChannels (blEnterFrame 1 2)
          sampleRxState).effects = []
      ∧ (ProcessRusefiCanMessage sampleIds twoChannels (blEnterFrame 1 2)
          sampleRxState).state = sampleRxState :=
  ⟨(C21_bootloader_enter sampleIds twoChannels (blEnterFrame 1 0) sampleRxState
      sampleIds_wellFormed rfl rfl (Or.inr rfl)).1
      (by simp [blEnterFrame, sampleRxState, sampleConfiguration, sampleChannel]),
    (C21_bootloader_enter sampleIds twoChannels (blEnterFrame 1 0xFF) sampleRxState
      sampleIds_wellFormed rfl rfl (Or.inr rfl)).1
      (by simp [blEnterFrame]),
    (C21_bootloader_enter sampleIds twoChannels (blEnterFrame 0 7) sampleRxState
      sampleIds_wellFormed rfl rfl (Or.inl rfl)).1
      (by simp [blEnterFrame]),
    (C21_bootloader_enter sampleIds twoChannels (blEnterFrame 1 2) sampleRxState
      sampleIds_wellFormed rfl rfl (Or.inr rfl)).2.1
      (by simp [blEnterFrame, sampleRxState, sampleConfiguration, sampleChannel]),
    (C21_bootloader_enter sampleIds twoChannels (blEnterFrame 1 2) sampleRxState
      sampleIds_wellFormed rfl rfl (Or.inr rfl)).2.2⟩

/-! ## The LinkEcu status message -/

theorem linkEngineRpm_eq (frame : CANRxFrame) (h2 : frame.data8 2 < 256)
    (h3 : frame.data8 3 < 256) :
    linkEngineRpm frame = frame.data8 2 * 256 + frame.data8 3 := by
  unfold linkEngineRpm
  have h3' : frame.data8 3 < 2 ^ 8 := by norm_num; exact h3
  have hor : (frame.data8 2 % 65536) <<< 8 ||| frame.data8 3
      = 2 ^ 8 * frame.data8 2 + frame.data8 3 := by
    rw [Nat.mul_add_lt_is_or h3', Nat.mod_eq_of_lt (by omega), Nat.shiftLeft_eq,
      Nat.mul_comm]
  rw [hor]
  omega

theorem Process_linkStatus (n : ChannelCounts) (frame : CANRxFrame) (st : RxState)
    (hext : frame.EXT = true) (hid : frame.ID = 0x3BE) (hdlc : frame.DLC = 8)
    (h0 : frame.data8 0 = 85) :
    ProcessLinkCanMessage n frame st =
      if linkEngineRpm frame > 400 then
        { state :=
            { st with statusData := { st.statusData with heaterAllow := HeaterAllow.Allowed } }
          effects := [] }
      else if linkEngineRpm frame < 10 then
        { state :=
            { st with
              statusData := { st.statusData with heaterAllow := HeaterAllow.NotAllowed } }
          effects := [] }
      else
        { state := st, effects := [] } := by
  unfold ProcessLinkCanMessage
  rw [if_neg (by simp [hext]), if_pos ⟨hid, hdlc, h0⟩]

/-- C22: for every LinkEcu status frame (extended, identifier 0x3BE, DLC 8, data[0] =
85, data bytes below 256), `ProcessLinkCanMessage` decodes the engine speed as
data[2]·256 + data[3]; it sets `heaterAllow` to Allowed when that speed is above 400,
to NotAllowed when it is below 10, and leaves `heaterAllow` as it was for a speed from
10 to 400. Nothing else changes and nothing is sent. -/
theorem C22_link_status (n : ChannelCounts) (frame : CANRxFrame) (st : RxState)
    (hext : frame.EXT = true) (hid : frame.ID = 0x3BE) (hdlc : frame.DLC = 8)
    (h0 : frame.data8 0 = 85) (h2 : frame.data8 2 < 256) (h3 : frame.data8 3 < 256) :
    linkEngineRpm frame = frame.data8 2 * 256 + frame.data8 3
      ∧ (frame.data8 2 * 256 + frame.data8 3 > 400 →
          (ProcessLinkCanMessage n frame st).state.statusData.heaterAllow
            = HeaterAllow.Allowed)
      ∧ (frame.data8 2 * 256 + frame.data8 3 < 10 →
          (ProcessLinkCanMessage n frame st).state.statusData.heaterAllow
            = HeaterAllow.NotAllowed)
      ∧ (10 ≤ frame.data8 2 * 256 + frame.data8 3
            ∧ frame.data8 2 * 256 + frame.data8 3 ≤ 400 →
          (ProcessLinkCanMessage n frame st).state.statusData.heaterAllow
            = st.statusData.heaterAllow)
      ∧ (ProcessLinkCanMessage n frame st).state.statusData.remoteBatteryVoltage
          = st.statusData.remoteBatteryVoltage
      ∧ (ProcessLinkCanMessage n frame st).state.configuration = st.configuration
      ∧ (ProcessLinkCanMessage n frame st).state.pumpGainAdjust = st.pumpGainAdjust
      ∧ (ProcessLinkCanMessage n frame st).effects = [] := by
  have hrpm := linkEngineRpm_eq frame h2 h3
  rw [Process_linkStatus n frame st hext hid hdlc h0, hrpm]
  refine ⟨rfl, fun h => ?_, fun h => ?_, fun h => ?_, ?_, ?_, ?_, ?_⟩
  · rw [if_pos h]
  · rw [if_neg (by omega), if_pos h]
  · rw [if_neg (by omega), if_neg (by omega)]
  all_goals split_ifs <;> rfl

/-- C22 on three frames: 401 rpm (bytes 0x01, 0x91) allows the heater, 9 rpm forbids
it, and 400 rpm leaves a gate that was Allowed as it is. -/
theorem C22_link_status_witness :
    (ProcessLinkCanMessage twoChannels (linkStatusFrame 1 0x91)
        sampleRxState).state.statusData.heaterAllow = HeaterAllow.Allowed
      ∧ (ProcessLinkCanMessage twoChannels (linkStatusFrame 0 9)
        sampleRxState).state.statusData.heaterAllow = HeaterAllow.NotAllowed
      ∧ (ProcessLinkCanMessage twoChannels (linkStatusFrame 1 0x90)
        (sampleRxStateWith HeaterAllow.Allowed)).state.statusData.heaterAllow
          = HeaterAllow.Allowed :=
  ⟨(C22_link_status twoChannels (linkStatusFrame 1 0x91) sampleRxState rfl rfl rfl rfl
      (by decide) (by decide)).2.1 (by decide),
    (C22_link_status twoChannels (linkStatusFrame 0 9) sampleRxState rfl rfl rfl rfl
      (by decide) (by decide)).2.2.1 (by decide),
    (C22_link_status twoChannels (linkStatusFrame 1 0x90)
      (sampleRxStateWith HeaterAllow.Allowed) rfl rfl rfl rfl
      (by decide) (by decide)).2.2.2.1 (by decide)⟩

/-! ## The LinkEcu set-index message -/

theorem link_offset_match (k off : Nat) (hk : k ≤ 7) (hoff : off < 256) :
    (((0x3BC + k : Nat) : Int) - (off : Int)) % 4294967296 = ((0x3BC : Nat) : Int)
      ↔ off = k := by
  omega

theorem linkSetIdx_fold (frame : CANRxFrame) (st : RxState) (k : Nat) (hk : k ≤ 7)
    (hid : frame.ID = 0x3BC + k)
    (hoff : ∀ j : Fin 2, (st.configuration.afr j).ExtraCanIdOffset < 256) (count : Nat) :
    ((List.range count).foldl (linkSetIdxAt frame)
        { state := st, effects := [] }).state =
      { st with
        configuration :=
          { st.configuration with
            afr := fun j =>
              if j.val < count ∧ (st.configuration.afr j).ExtraCanIdOffset = k then
                { st.configuration.afr j with ExtraCanIdOffset := frame.data8 1 &&& 0x0F }
              else st.configuration.afr j } } := by
  induction count with
  | zero => simp
  | succ c ih =>
    rw [List.range_succ, List.foldl_append, List.foldl_cons, List.foldl_nil]
    generalize (List.range c).foldl (linkSetIdxAt frame) { state := st, effects := [] } = r
      at ih
    unfold linkSetIdxAt
    by_cases hc : c < 2
    · rw [dif_pos hc]
      have hcur : r.state.configuration.afr ⟨c, hc⟩ = st.configuration.afr ⟨c, hc⟩ := by
        rw [ih]
        simp
      simp only [hcur, hid, LINKECU_L2C_SET_IDX_ID, link_offset_match k _ hk (hoff ⟨c, hc⟩)]
      by_cases hm : (st.configuration.afr ⟨c, hc⟩).ExtraCanIdOffset = k
      · rw [if_pos hm, ih]
        dsimp only
        congr 2
        funext j
        by_cases hj : j = ⟨c, hc⟩
        · subst hj
          simp [hm]
        · have hjc : j.val ≠ c := fun h => hj (Fin.ext h)
          rw [Function.update_noteq hj]
          by_cases hlt : j.val < c
          · simp [hlt, Nat.lt_succ_of_lt hlt]
          · have hlt2 : ¬ j.val < c + 1 := by omega
            simp [hlt, hlt2]
      · rw [if_neg hm, ih]
        dsimp only
        congr 2
        funext j
        by_cases hj : j = ⟨c, hc⟩
        · subst hj
          simp [hm]
        · have hjc : j.val ≠ c := fun h => hj (Fin.ext h)
          by_cases hlt : j.val < c
          · simp [hlt, Nat.lt_succ_of_lt hlt]
          · have hlt2 : ¬ j.val < c + 1 := by omega
            simp [hlt, hlt2]
    · rw [dif_neg hc, ih]
      dsimp only
      congr 2
      funext j
      have hj1 : j.val < c := by omega
      have hj2 : j.val < c + 1 := by omega
      simp [hj1, hj2]

theorem Process_linkSetIdx (n : ChannelCounts) (frame : CANRxFrame) (st : RxState)
    (k : Nat) (hext : frame.EXT = true) (hk : k ≤ 7) (hid : frame.ID = 0x3BC + k)
    (hdlc : frame.DLC = 8) (h0 : frame.data8 0 = 24)
    (hoff : ∀ j : Fin 2, (st.configuration.afr j).ExtraCanIdOffset < 256) :
    (ProcessLinkCanMessage n frame st).state =
      { st with
        configuration :=
          { st.configuration with
            afr := fun j =>
              if j.val < n.AFR_CHANNELS ∧ (st.configuration.afr j).ExtraCanIdOffset = k then
                { st.configuration.afr j with ExtraCanIdOffset := frame.data8 1 &&& 0x0F }
              else st.configuration.afr j } } := by
  unfold ProcessLinkCanMessage
  rw [if_neg (by simp [hext]), if_neg (by simp [h0]),
    if_pos ⟨by rw [hid]; unfold LINKECU_L2C_SET_IDX_ID; omega,
      by rw [hid]; unfold LINKECU_L2C_SET_IDX_ID; omega, hdlc, h0⟩]
  exact linkSetIdx_fold frame st k hk hid hoff n.AFR_CHANNELS

/-- C23: for every LinkEcu set-index frame (extended, identifier 0x3BC + k with k ≤ 7,
DLC 8, data[0] = 24), in a build with at most two AFR channels whose identifier offsets
are bytes, `ProcessLinkCanMessage` sets `ExtraCanIdOffset` to the low nibble of data[1]
on exactly those AFR channels whose offset before the call equals k; the other fields
of such a channel, every other AFR channel and entry, every other field of the
configuration record, the CAN status and the pump gain are unchanged; the new offset is
at most 15. -/
theorem C23_link_set_index (n : ChannelCounts) (frame : CANRxFrame) (st : RxState)
    (k : Nat) (hn : n.Valid) (hext : frame.EXT = true) (hk : k ≤ 7)
    (hid : frame.ID = 0x3BC + k) (hdlc : frame.DLC = 8) (h0 : frame.data8 0 = 24)
    (hoff : ∀ j : Fin 2, (st.configuration.afr j).ExtraCanIdOffset < 256) :
    (∀ i, i < n.AFR_CHANNELS → ∃ h2 : i < 2,
        ((st.configuration.afr ⟨i, h2⟩).ExtraCanIdOffset = k →
          (ProcessLinkCanMessage n frame st).state.configuration.afr ⟨i, h2⟩ =
            { st.configuration.afr ⟨i, h2⟩ with ExtraCanIdOffset := frame.data8 1 % 16 })
        ∧ ((st.configuration.afr ⟨i, h2⟩).ExtraCanIdOffset ≠ k →
          (ProcessLinkCanMessage n frame st).state.configuration.afr ⟨i, h2⟩ =
            st.configuration.afr ⟨i, h2⟩))
      ∧ (∀ j : Fin 2, n.AFR_CHANNELS ≤ j.val →
          (ProcessLinkCanMessage n frame st).state.configuration.afr j =
            st.configuration.afr j)
      ∧ frame.data8 1 % 16 ≤ 15
      ∧ (ProcessLinkCanMessage n frame st).state.configuration =
          { st.configuration with
            afr := (ProcessLinkCanMessage n frame st).state.configuration.afr }
      ∧ (ProcessLinkCanMessage n frame st).state.statusData = st.statusData
      ∧ (ProcessLinkCanMessage n frame st).state.pumpGainAdjust = st.pumpGainAdjust := by
  have hand : frame.data8 1 &&& 0x0F = frame.data8 1 % 16 :=
    Nat.and_pow_two_sub_one_eq_mod (frame.data8 1) 4
  rw [Process_linkSetIdx n frame st k hext hk hid hdlc h0 hoff, hand]
  refine ⟨fun i hi => ⟨by have := hn.1; omega, fun h => ?_, fun h => ?_⟩, fun j hj => ?_,
    by omega, rfl, rfl, rfl⟩
  · simp [hi, h]
  · simp [h]
  · have hj2 : ¬ j.val < n.AFR_CHANNELS := by omega
    simp [hj2]

/-- C23 at `linkRxState` (AFR offsets 0 and 3): the frame with identifier 0x3BC + 3 and
data[1] = 0x35 moves AFR channel 1 to offset 5 and leaves AFR channel 0 as it is. -/
theorem C23_link_set_index_witness :
    (ProcessLinkCanMessage twoChannels (linkSetIdxFrame 3 0x35)
        linkRxState).state.configuration.afr 1 = linkChannel 5
      ∧ (ProcessLinkCanMessage twoChannels (linkSetIdxFrame 3 0x35)
        linkRxState).state.configuration.afr 0 = linkChannel 0 := by
  have hoff : ∀ j : Fin 2, (linkRxState.configuration.afr j).ExtraCanIdOffset < 256 := by
    decide
  have h := C23_link_set_index twoChannels (linkSetIdxFrame 3 0x35) linkRxState 3
    (by decide) rfl (by decide) rfl rfl rfl hoff
  obtain ⟨_, h1⟩ := h.1 1 (by decide)
  obtain ⟨_, h0⟩ := h.1 0 (by decide)
  exact ⟨(h1.1 rfl).trans rfl,
    h0.2 (by simp [linkRxState, linkChannel, sampleChannel])⟩

/-! ## The transmit scheduler -/

theorem cycleAt_wrap (k : Nat) :
    CanTxThread.cycleAt k = ((k : Int) + 2147483648) % 4294967296 - 2147483648 := by
  induction k with
  | zero => rfl
  | succ j ih =>
    unfold CanTxThread.cycleAt
    rw [ih]
    unfold incrCycle
    omega

theorem cycleAt_eq (k : Nat) (hk : k < 2147483648) : CanTxThread.cycleAt k = (k : Int) := by
  rw [cycleAt_wrap]
  omega

theorem tick_eq (n : ChannelCounts) (k : Nat) (hk : k < 2147483648) :
    CanTxThread.tick n k =
      (List.range n.AFR_CHANNELS).map TxCall.SendCanForChannel ++
        (if k % 5 = 0 then (List.range n.EGT_CHANNELS).map TxCall.SendCanEgtForChannel
        else []) := by
  unfold CanTxThread.tick CanTxThread.iteration
  rw [cycleAt_eq k hk, Int.tmod_eq_emod (by omega) (by omega)]
  have hiff : ((k : Int) % 5 = 0) ↔ (k % 5 = 0) := by omega
  simp only [hiff]

theorem mem_tick_afr (n : ChannelCounts) (k ch : Nat) (hch : ch < n.AFR_CHANNELS) :
    TxCall.SendCanForChannel ch ∈ CanTxThread.tick n k :=
  List.mem_append_left _ (List.mem_map.mpr ⟨ch, List.mem_range.mpr hch, rfl⟩)

theorem mem_tick_egt (n : ChannelCounts) (k ch : Nat) (hch : ch < n.EGT_CHANNELS) :
    TxCall.SendCanEgtForChannel ch ∈ CanTxThread.tick n k
      ↔ Int.tmod (CanTxThread.cycleAt k) 5 = 0 := by
  unfold CanTxThread.tick CanTxThread.iteration
  by_cases h5 : Int.tmod (CanTxThread.cycleAt k) 5 = 0
  · simp [h5, hch]
  · simp [h5]

/-- C24: in every tick of the loop of `CanTxThread`, `SendCanForChannel` is called for
every AFR channel. In tick number k below 2^31, the range in which the `int` counter
has not overflowed, `SendCanEgtForChannel` is called for an EGT channel exactly when k
is a multiple of 5, and then once for every EGT channel after the AFR calls, and nothing
else is called. In every tick the EGT calls are made exactly when the counter, k wrapped
to 32 bits in two's complement, has the C++ remainder 0 modulo 5. -/
theorem C24_tx_schedule (n : ChannelCounts) (k : Nat) :
    (∀ ch, ch < n.AFR_CHANNELS → TxCall.SendCanForChannel ch ∈ CanTxThread.tick n k)
      ∧ (k < 2147483648 →
          CanTxThread.tick n k =
              (List.range n.AFR_CHANNELS).map TxCall.SendCanForChannel ++
                (if k % 5 = 0 then
                  (List.range n.EGT_CHANNELS).map TxCall.SendCanEgtForChannel
                else [])
            ∧ (∀ ch, ch < n.EGT_CHANNELS →
                (TxCall.SendCanEgtForChannel ch ∈ CanTxThread.tick n k ↔ k % 5 = 0)))
      ∧ (∀ ch, ch < n.EGT_CHANNELS →
          (TxCall.SendCanEgtForChannel ch ∈ CanTxThread.tick n k ↔
            Int.tmod (((k : Int) + 2147483648) % 4294967296 - 2147483648) 5 = 0)) := by
  refine ⟨fun ch hch => mem_tick_afr n k ch hch, fun hk => ⟨tick_eq n k hk, fun ch hch => ?_⟩,
    fun ch hch => ?_⟩
  · rw [mem_tick_egt n k ch hch, cycleAt_eq k hk, Int.tmod_eq_emod (by omega) (by omega)]
    omega
  · rw [mem_tick_egt n k ch hch, cycleAt_wrap]

/-- C24 on a build with two AFR and two EGT channels: tick 10 serves both AFR channels
and then both EGT channels, tick 11 serves the AFR channels only. -/
theorem C24_tx_schedule_witness :
    CanTxThread.tick twoChannels 10 =
        [TxCall.SendCanForChannel 0, TxCall.SendCanForChannel 1,
          TxCall.SendCanEgtForChannel 0, TxCall.SendCanEgtForChannel 1]
      ∧ CanTxThread.tick twoChannels 11 =
        [TxCall.SendCanForChannel 0, TxCall.SendCanForChannel 1] :=
  ⟨((C24_tx_schedule twoChannels 10).2.1 (by decide)).1,
    ((C24_tx_schedule twoChannels 11).2.1 (by decide)).1⟩

/-- C24 as stated fails once the counter has overflowed: tick number 2147483650 is a
multiple of 5, the counter is then −2147483646, whose remainder is −1, and the tick
serves the two AFR channels only. -/
theorem C24_counterexample :
    2147483650 % 5 = 0
      ∧ CanTxThread.cycleAt 2147483650 = -2147483646
      ∧ Int.tmod (-2147483646) 5 = -1
      ∧ CanTxThread.tick twoChannels 2147483650 =
          [TxCall.SendCanForChannel 0, TxCall.SendCanForChannel 1]
      ∧ TxCall.SendCanEgtForChannel 0 ∉ CanTxThread.tick twoChannels 2147483650 := by
  have hc : CanTxThread.cycleAt 2147483650 = -2147483646 := by
    rw [cycleAt_wrap]
    norm_num
  have ht : CanTxThread.tick twoChannels 2147483650 =
      [TxCall.SendCanForChannel 0, TxCall.SendCanForChannel 1] := by
    unfold CanTxThread.tick CanTxThread.iteration
    rw [hc]
    decide
  refine ⟨by norm_num, hc, by decide, ht, ?_⟩
  rw [ht]
  decide

/-- C25, what the code does: with Emtron as the extra protocol of AFR channel 0,
`SendCanEgtForChannel(0)` calls the internal EGT encoder, the Emtron EGT encoder and
then also the MoTeC E888 encoder; and with AemNet on the EGT entries but no extra
protocol on the AFR entries it calls the internal EGT encoder only, because the switch
reads the AFR entry of the channel. -/
theorem C25_egt_dispatch :
    SendCanEgtForChannel twoChannels
        (protocolConfiguration CanProtocol.Emtron CanProtocol.Emtron) 0 =
        [EgtEncoder.SendRusefiEgtFormat, EgtEncoder.SendEmtronEgtFormat,
          EgtEncoder.SendMotec888Format]
      ∧ SendCanEgtForChannel twoChannels
        (protocolConfiguration CanProtocol.None CanProtocol.AemNet) 0 =
        [EgtEncoder.SendRusefiEgtFormat] := by
  constructor <;> rfl

/-! ## Byte order -/

theorem and_byte_mask (y k : Nat) : y &&& (255 * 2 ^ k) = (y / 2 ^ k % 256) * 2 ^ k := by
  apply Nat.eq_of_testBit_eq
  intro j
  have h255 : (255 : Nat) = 2 ^ 8 - 1 := rfl
  have h256 : (256 : Nat) = 2 ^ 8 := rfl
  rw [Nat.testBit_and, Nat.mul_comm 255, Nat.mul_comm _ (2 ^ k), Nat.testBit_mul_pow_two,
    Nat.testBit_mul_pow_two, h255, h256, Nat.testBit_two_pow_sub_one,
    Nat.testBit_mod_two_pow, ← Nat.shiftRight_eq_div_pow, Nat.testBit_shiftRight]
  by_cases hj : k ≤ j
  · have hkj : k + (j - k) = j := by omega
    simp [hj, hkj, Bool.and_comm]
  · simp [hj]

theorem or_shift_add (hi lo k : Nat) (h : lo < 2 ^ k) :
    hi * 2 ^ k ||| lo = hi * 2 ^ k + lo := by
  rw [Nat.mul_comm, ← Nat.mul_add_lt_is_or h]

theorem SWAP_UINT16_eq (x : Nat) (hx : x < 65536) :
    SWAP_UINT16 x = x / 256 + 256 * (x % 256) := by
  unfold SWAP_UINT16
  have hlo : x >>> 8 < 2 ^ 8 := by
    rw [Nat.shiftRight_eq_div_pow]
    omega
  rw [Nat.shiftLeft_eq, or_shift_add x (x >>> 8) 8 hlo, Nat.shiftRight_eq_div_pow]
  omega

theorem SWAP_UINT32_eq (x : Nat) (hx : x < 4294967296) :
    SWAP_UINT32 x =
      x / 16777216 + 256 * (x / 65536 % 256) + 65536 * (x / 256 % 256)
        + 16777216 * (x % 256) := by
  unfold SWAP_UINT32
  have m0 : (0x000000ff : Nat) = 255 * 2 ^ 0 := rfl
  have m1 : (0x00ff0000 : Nat) = 255 * 2 ^ 16 := rfl
  have m2 : (0x0000ff00 : Nat) = 255 * 2 ^ 8 := rfl
  have m3 : (0xff000000 : Nat) = 255 * 2 ^ 24 := rfl
  rw [m0, m1, m2, m3, and_byte_mask, and_byte_mask, and_byte_mask, and_byte_mask,
    Nat.shiftLeft_eq, Nat.shiftLeft_eq, Nat.shiftRight_eq_div_pow,
    Nat.shiftRight_eq_div_pow]
  have e0 : x / 2 ^ 24 / 2 ^ 0 % 256 * 2 ^ 0 = x / 16777216 := by omega
  have e1 : x * 2 ^ 8 % 4294967296 / 2 ^ 16 % 256 = x / 256 % 256 := by omega
  have e2 : x / 2 ^ 8 / 2 ^ 8 % 256 = x / 65536 % 256 := by omega
  have e3 : x * 2 ^ 24 % 4294967296 / 2 ^ 24 % 256 = x % 256 := by omega
  rw [e0, e1, e2, e3]
  have ac : x / 16777216 ||| x / 256 % 256 * 2 ^ 16 ||| x / 65536 % 256 * 2 ^ 8
        ||| x % 256 * 2 ^ 24
      = x % 256 * 2 ^ 24 ||| (x / 256 % 256 * 2 ^ 16
        ||| (x / 65536 % 256 * 2 ^ 8 ||| x / 16777216)) := by
    ac_rfl
  rw [ac, or_shift_add _ _ 8 (by omega), or_shift_add _ _ 16 (by omega),
    or_shift_add _ _ 24 (by omega)]
  omega

theorem swap16_little (v : Nat) : swap false 2 v true = v / 256 % 256 + 256 * (v % 256) := by
  simp [swap, toMemory, ofMemory, leBytes, ofLeBytes]

theorem swap32_little (v : Nat) :
    swap false 4 v true =
      v / 256 / 256 / 256 % 256 + 256 * (v / 256 / 256 % 256
        + 256 * (v / 256 % 256 + 256 * (v % 256))) := by
  simp [swap, toMemory, ofMemory, leBytes, ofLeBytes]

theorem byte_lo (x b : Nat) : (x % 256 + 256 * b) % 256 = x % 256 := by
  omega

theorem byte_hi (x b : Nat) : (x % 256 + 256 * b) / 256 = b := by
  omega

theorem bigEndian16 (host : Bool) (v : Nat) (hv : v < 65536) :
    BigEndian.memory host 2 (BigEndian.ofT host 2 v) = [v / 256, v % 256]
      ∧ BigEndian.toT host 2 (BigEndian.ofT host 2 v) = v := by
  cases host
  · constructor
    · simp only [BigEndian.memory, BigEndian.ofT, swap16_little, toMemory, leBytes,
        Bool.false_eq_true, if_false, byte_lo, byte_hi, Nat.mod_mod]
      congr 1
      omega
    · simp only [BigEndian.toT, BigEndian.ofT, swap16_little, byte_lo, byte_hi, Nat.mod_mod]
      omega
  · constructor
    · simp only [BigEndian.memory, BigEndian.ofT, swap, if_true, toMemory,
        leBytes, List.reverse_cons, List.reverse_nil, List.nil_append, List.singleton_append]
      congr 1
      omega
    · simp [BigEndian.toT, BigEndian.ofT, swap]

theorem bigEndian32 (host : Bool) (v : Nat) (hv : v < 4294967296) :
    BigEndian.memory host 4 (BigEndian.ofT host 4 v)
        = [v / 16777216, v / 65536 % 256, v / 256 % 256, v % 256]
      ∧ BigEndian.toT host 4 (BigEndian.ofT host 4 v) = v := by
  cases host
  · constructor
    · simp only [BigEndian.memory, BigEndian.ofT, swap32_little, toMemory, leBytes,
        Bool.false_eq_true, if_false, byte_lo, byte_hi, Nat.mod_mod]
      congr 1
      · omega
      · congr 1
        omega
    · simp only [BigEndian.toT, BigEndian.ofT, swap32_little, byte_lo, byte_hi, Nat.mod_mod]
      omega
  · constructor
    · simp only [BigEndian.memory, BigEndian.ofT, swap, if_true, toMemory,
        leBytes, List.reverse_cons, List.reverse_nil, List.nil_append, List.singleton_append,
        List.cons_append]
      congr 1
      · omega
      · congr 1
        omega
    · simp [BigEndian.toT, BigEndian.ofT, swap]

theorem pattern_roundtrip16 (i : Int) (hlo : -32768 ≤ i) (hhi : i < 32768) :
    toPattern 2 i < 65536 ∧ ofPattern 2 (toPattern 2 i) = i := by
  unfold ofPattern toPattern
  norm_num
  constructor
  · omega
  · split_ifs <;> omega

theorem pattern_roundtrip32 (i : Int) (hlo : -2147483648 ≤ i) (hhi : i < 2147483648) :
    toPattern 4 i < 4294967296 ∧ ofPattern 4 (toPattern 4 i) = i := by
  unfold ofPattern toPattern
  norm_num
  constructor
  · omega
  · split_ifs <;> omega

/-- C30: on a little-endian and on a big-endian host alike, `BigEndian<T>(v)` for a
16-bit or 32-bit integer `v` (given by its bit pattern) occupies in memory the bytes of
`v` with the most significant byte first, and converting it back to `T` returns `v`; a
signed value survives the round trip through its two's-complement pattern; and on a
little-endian host the byte-reversing `swap` returns what `SWAP_UINT16` and
`SWAP_UINT32` return. -/
theorem C30_big_endian (host : Bool) :
    (∀ v, v < 65536 →
        BigEndian.memory host 2 (BigEndian.ofT host 2 v) = [v / 256, v % 256]
          ∧ BigEndian.toT host 2 (BigEndian.ofT host 2 v) = v
          ∧ swap false 2 v true = SWAP_UINT16 v)
      ∧ (∀ v, v < 4294967296 →
        BigEndian.memory host 4 (BigEndian.ofT host 4 v)
            = [v / 16777216, v / 65536 % 256, v / 256 % 256, v % 256]
          ∧ BigEndian.toT host 4 (BigEndian.ofT host 4 v) = v
          ∧ swap false 4 v true = SWAP_UINT32 v)
      ∧ (∀ i : Int, -32768 ≤ i → i < 32768 →
        ofPattern 2 (BigEndian.toT host 2 (BigEndian.ofT host 2 (toPattern 2 i))) = i)
      ∧ (∀ i : Int, -2147483648 ≤ i → i < 2147483648 →
        ofPattern 4 (BigEndian.toT host 4 (BigEndian.ofT host 4 (toPattern 4 i))) = i) := by
  refine ⟨fun v hv => ⟨(bigEndian16 host v hv).1, (bigEndian16 host v hv).2, ?_⟩,
    fun v hv => ⟨(bigEndian32 host v hv).1, (bigEndian32 host v hv).2, ?_⟩,
    fun i hlo hhi => ?_, fun i hlo hhi => ?_⟩
  · rw [swap16_little, SWAP_UINT16_eq v hv]
    omega
  · rw [swap32_little, SWAP_UINT32_eq v hv]
    simp only [Nat.div_div_eq_div_mul, Nat.reduceMul]
    have h : v / 16777216 % 256 = v / 16777216 := Nat.mod_eq_of_lt (by omega)
    rw [h]
    ring
  · rw [(bigEndian16 host _ (pattern_roundtrip16 i hlo hhi).1).2]
    exact (pattern_roundtrip16 i hlo hhi).2
  · rw [(bigEndian32 host _ (pattern_roundtrip32 i hlo hhi).1).2]
    exact (pattern_roundtrip32 i hlo hhi).2

/-- C30 at 0x1234 and 0x12345678 on a little-endian host and at -2 as an `int16_t`: the
bytes in memory are 12 34 and 12 34 56 78, `swap` gives 0x3412 as `SWAP_UINT16` does, and
-2 (pattern 0xFFFE) is read back as -2. -/
theorem C30_big_endian_witness :
    BigEndian.memory false 2 (BigEndian.ofT false 2 0x1234) = [0x12, 0x34]
      ∧ BigEndian.memory false 4 (BigEndian.ofT false 4 0x12345678) = [0x12, 0x34, 0x56, 0x78]
      ∧ swap false 2 0x1234 true = SWAP_UINT16 0x1234
      ∧ ofPattern 2 (BigEndian.toT false 2 (BigEndian.ofT false 2 (toPattern 2 (-2)))) = -2 :=
  ⟨((C30_big_endian false).1 0x1234 (by decide)).1,
    ((C30_big_endian false).2.1 0x12345678 (by decide)).1,
    ((C30_big_endian false).1 0x1234 (by decide)).2.2,
    (C30_big_endian false).2.2.1 (-2) (by decide) (by decide)⟩

/-! ## Conversions to integer fields -/

theorem truncate_eq_of_nonneg (x : ℚ) (z : Int) (h0 : (z : ℚ) ≤ x) (h1 : x < z + 1)
    (hz : 0 ≤ z) : truncate x = z := by
  have hx : (0 : ℚ) ≤ x := le_trans (by exact_mod_cast hz) h0
  unfold truncate
  rw [if_pos hx]
  exact Int.floor_eq_iff.mpr ⟨h0, h1⟩

theorem truncate_eq_of_neg (x : ℚ) (z : Int) (h0 : (z : ℚ) - 1 < x) (h1 : x ≤ z)
    (hz : z < 0) : truncate x = z := by
  have hx : ¬ (0 : ℚ) ≤ x := by
    have : (z : ℚ) < 0 := by exact_mod_cast hz
    linarith
  unfold truncate
  rw [if_neg hx]
  exact Int.ceil_eq_iff.mpr ⟨h0, h1⟩

theorem floatToUnsigned_of_fits (bits : Nat) (x : ℚ) (h : fitsUnsigned bits x) :
    floatToUnsigned bits x = some (truncate x).toNat :=
  if_pos h

theorem floatToSigned_of_fits (bits : Nat) (x : ℚ) (h : fitsSigned bits x) :
    floatToSigned bits x = some (truncate x) :=
  if_pos h

theorem floatToUnsigned_eq (bits : Nat) (x : ℚ) (n : Nat) (h0 : (n : ℚ) ≤ x)
    (h1 : x < n + 1) (hn : n < 2 ^ bits) : floatToUnsigned bits x = some n := by
  have ht : truncate x = (n : Int) :=
    truncate_eq_of_nonneg x n (by exact_mod_cast h0) (by exact_mod_cast h1) (by omega)
  have hfits : fitsUnsigned bits x := by
    unfold fitsUnsigned
    rw [ht]
    exact ⟨by omega, by exact_mod_cast hn⟩
  rw [floatToUnsigned_of_fits bits x hfits, ht]
  simp

theorem floatToSigned_eq (bits : Nat) (x : ℚ) (z : Int) (ht : truncate x = z)
    (hlo : -(2 ^ (bits - 1)) ≤ z) (hhi : z < 2 ^ (bits - 1)) :
    floatToSigned bits x = some z := by
  have hfits : fitsSigned bits x := by
    unfold fitsSigned
    rw [ht]
    exact ⟨hlo, hhi⟩
  rw [floatToSigned_of_fits bits x hfits, ht]

theorem truncate_of_nonneg (x : ℚ) (h0 : 0 ≤ x) : truncate x = ⌊x⌋ :=
  if_pos h0

theorem floatToUnsigned_of_range (bits : Nat) (x : ℚ) (h0 : 0 ≤ x) (h1 : x < 2 ^ bits) :
    floatToUnsigned bits x = some ⌊x⌋.toNat := by
  have hf : 0 ≤ ⌊x⌋ := Int.floor_nonneg.mpr h0
  have hlt : ⌊x⌋ < 2 ^ bits := by
    rw [Int.floor_lt]
    exact_mod_cast h1
  have hfits : fitsUnsigned bits x := by
    unfold fitsUnsigned
    rw [truncate_of_nonneg x h0]
    exact ⟨hf, hlt⟩
  rw [floatToUnsigned_of_fits bits x hfits, truncate_of_nonneg x h0]

theorem floatToUnsigned_zero (bits : Nat) : floatToUnsigned bits 0 = some 0 :=
  floatToUnsigned_eq bits 0 0 (by norm_num) (by norm_num) (Nat.two_pow_pos bits)

theorem limits_of_bits (T : IntegralType) (hb : T.bits ≤ 16) :
    -(2 ^ 16) < T.minRawValue ∧ T.minRawValue ≤ 0 ∧ 0 ≤ T.maxRawValue
      ∧ T.maxRawValue < 2 ^ 16 := by
  have h1 : (2 : Int) ^ (T.bits - 1) ≤ 2 ^ 15 := pow_le_pow_right₀ (by norm_num) (by omega)
  have h2 : (2 : Int) ^ T.bits ≤ 2 ^ 16 := pow_le_pow_right₀ (by norm_num) hb
  have h3 : (0 : Int) < 2 ^ (T.bits - 1) := by positivity
  have h4 : (0 : Int) < 2 ^ T.bits := by positivity
  unfold IntegralType.minRawValue IntegralType.maxRawValue
  cases T.signed <;> simp <;> omega

theorem wrap_of_range (T : IntegralType) (hb : 1 ≤ T.bits) (z : Int)
    (h1 : T.minRawValue ≤ z) (h2 : z ≤ T.maxRawValue) : T.wrap z = z := by
  have hpow : (2 : Int) ^ T.bits = 2 * 2 ^ (T.bits - 1) := by
    obtain ⟨k, hk⟩ : ∃ k, T.bits = k + 1 := ⟨T.bits - 1, by omega⟩
    rw [hk, pow_succ]
    simp
    ring
  have h3 : (0 : Int) < 2 ^ (T.bits - 1) := by positivity
  unfold IntegralType.minRawValue at h1
  unfold IntegralType.maxRawValue at h2
  unfold IntegralType.wrap
  cases hs : T.signed
  · rw [hs] at h1 h2
    simp only [Bool.false_eq_true, if_false] at h1 h2 ⊢
    exact Int.emod_eq_of_lt h1 (by omega)
  · rw [hs] at h1 h2
    simp only [if_true] at h1 h2 ⊢
    rw [Int.emod_eq_of_lt (by omega) (by omega)]
    ring

theorem ofFloat_of_range (T : IntegralType) (hb : 1 ≤ T.bits) (hb16 : T.bits ≤ 16) (x : ℚ)
    (h1 : T.minRawValue ≤ truncate x) (h2 : truncate x ≤ T.maxRawValue) :
    T.ofFloat x = truncate x := by
  obtain ⟨l1, _, _, l4⟩ := limits_of_bits T hb16
  unfold IntegralType.ofFloat truncateToSigned
  rw [if_pos (Or.inl (by omega))]
  rw [if_pos ⟨by norm_num; omega, by norm_num; omega⟩]
  exact wrap_of_range T hb _ h1 h2

theorem truncate_nonneg_bounds (t : ℚ) (h : 0 ≤ t) :
    0 ≤ truncate t ∧ (truncate t : ℚ) ≤ t ∧ t - 1 < (truncate t : ℚ) := by
  unfold truncate
  rw [if_pos h]
  have := Int.floor_le t
  have := Int.lt_floor_add_one t
  exact ⟨Int.floor_nonneg.mpr h, by linarith, by linarith⟩

theorem truncate_neg_bounds (t : ℚ) (h : t < 0) :
    truncate t ≤ 0 ∧ t ≤ (truncate t : ℚ) ∧ (truncate t : ℚ) < t + 1 := by
  unfold truncate
  rw [if_neg (not_le.mpr h)]
  have := Int.le_ceil t
  have := Int.ceil_lt_add_one t
  exact ⟨Int.ceil_le.mpr (by exact_mod_cast h.le), by linarith, by linarith⟩

theorem ofFloat_uint16_range (x : ℚ) :
    0 ≤ uint16_t.ofFloat x ∧ uint16_t.ofFloat x < 65536 := by
  unfold IntegralType.ofFloat IntegralType.wrap
  simp only [uint16_t, Bool.false_eq_true, if_false]
  constructor
  · exact Int.emod_nonneg _ (by norm_num)
  · exact Int.emod_lt_of_pos _ (by norm_num)

theorem ofFloat_zero (T : IntegralType) (hb : 1 ≤ T.bits) (hb16 : T.bits ≤ 16) :
    T.ofFloat 0 = 0 := by
  obtain ⟨_, l2, l3, _⟩ := limits_of_bits T hb16
  have ht : truncate 0 = 0 := by simp [truncate]
  rw [ofFloat_of_range T hb hb16 0 (by rw [ht]; exact l2) (by rw [ht]; exact l3), ht]

theorem ofFloat_floor (T : IntegralType) (hb : 1 ≤ T.bits) (hb16 : T.bits ≤ 16) (x : ℚ)
    (h0 : 0 ≤ x) (h1 : x ≤ (T.maxRawValue : ℚ)) : T.ofFloat x = ⌊x⌋ := by
  obtain ⟨_, l2, _, _⟩ := limits_of_bits T hb16
  have ht : truncate x = ⌊x⌋ := if_pos h0
  have hf0 : 0 ≤ ⌊x⌋ := Int.floor_nonneg.mpr h0
  have hf1 : ⌊x⌋ ≤ T.maxRawValue := by
    have : (⌊x⌋ : ℚ) ≤ (T.maxRawValue : ℚ) := le_trans (Int.floor_le x) h1
    exact_mod_cast this
  rw [ofFloat_of_range T hb hb16 x (by rw [ht]; omega) (by rw [ht]; exact hf1), ht]

/-! ## The AEMNet UEGO frame -/

theorem floatToSigned_of_nonneg (bits : Nat) (x : ℚ) (h0 : 0 ≤ x)
    (h1 : x < 2 ^ (bits - 1)) : floatToSigned bits x = some ⌊x⌋ := by
  have hf : 0 ≤ ⌊x⌋ := Int.floor_nonneg.mpr h0
  have hlt : ⌊x⌋ < 2 ^ (bits - 1) := by
    rw [Int.floor_lt]
    exact_mod_cast h1
  have hpow : (0 : Int) ≤ 2 ^ (bits - 1) := by positivity
  have hfits : fitsSigned bits x := by
    unfold fitsSigned
    rw [truncate_of_nonneg x h0]
    exact ⟨by omega, hlt⟩
  rw [floatToSigned_of_fits bits x hfits, truncate_of_nonneg x h0]

theorem SendEcuMasterAfrFormat_lean (configuration : Configuration) (ch : Fin 2)
    (inp : AfrInputs) (hvalid : inp.LambdaIsValid = true) (hl0 : 1 ≤ inp.GetLambda)
    (hl1 : inp.GetLambda * 1000 < 65536) (hv0 : 0 ≤ inp.GetInternalHeaterVoltage)
    (hv1 : inp.GetInternalHeaterVoltage * 10 < 65536) (ht0 : 0 ≤ inp.GetSensorTemperature)
    (ht1 : inp.GetSensorTemperature / 4 < 256) (hi0 : 0 ≤ inp.GetPumpNominalCurrent)
    (hi1 : inp.GetPumpNominalCurrent * 1000 < 32768)
    (hr0 : 0 ≤ inp.GetSensorInternalResistance)
    (hr1 : inp.GetSensorInternalResistance * 10 < 65536) :
    ∃ frames, SendEcuMasterAfrFormat configuration ch inp = some frames
      ∧ frames.frame.EID = 0x664 + 2 * (configuration.afr ch).ExtraCanIdOffset
      ∧ frames.frame2.EID = frames.frame.EID + 1
      ∧ frames.frame.EXT = true ∧ frames.frame2.EXT = true
      ∧ frames.frame.data.SystemVolts = ⌊inp.GetInternalHeaterVoltage * 10⌋.toNat
      ∧ frames.frame.data.SensorTemp = ⌊inp.GetSensorTemperature / 4⌋.toNat
      ∧ frames.frame.data.Lambda = ⌊inp.GetLambda * 1000⌋.toNat := by
  have hpos : 0 < inp.GetLambda := by linarith
  have hfrac0 : 0 ≤ (inp.GetLambda - 1) / inp.GetLambda := div_nonneg (by linarith) hpos.le
  have hfrac1 : (inp.GetLambda - 1) / inp.GetLambda < 1 := by
    rw [div_lt_one hpos]
    linarith
  have ho0 : 0 ≤ (inp.GetLambda - 1) / inp.GetLambda * (2095 / 100) * 100 := by positivity
  have ho1 : (inp.GetLambda - 1) / inp.GetLambda * (2095 / 100) * 100 < 2 ^ (16 - 1) := by
    norm_num
    nlinarith
  unfold SendEcuMasterAfrFormat
  simp only [hvalid, hpos, gt_iff_lt, and_self, if_true,
    floatToUnsigned_of_range 16 (inp.GetInternalHeaterVoltage * 10)
      (mul_nonneg hv0 (by norm_num)) (by norm_num; exact hv1),
    floatToUnsigned_of_range 8 (inp.GetSensorTemperature / 4)
      (div_nonneg ht0 (by norm_num)) (by norm_num; exact ht1),
    floatToUnsigned_of_range 16 (inp.GetLambda * 1000) (mul_nonneg hpos.le (by norm_num))
      (by norm_num; exact hl1),
    floatToSigned_of_nonneg 16 (inp.GetPumpNominalCurrent * 1000)
      (mul_nonneg hi0 (by norm_num)) (by norm_num; exact hi1),
    floatToSigned_of_nonneg 16 _ ho0 ho1,
    floatToUnsigned_of_range 16 (inp.GetSensorInternalResistance * 10)
      (mul_nonneg hr0 (by norm_num)) (by norm_num; exact hr1),
    Option.some_bind, ECUMASTER_L2C_BASE_ID]
  exact ⟨_, rfl, by simp only []; omega, rfl, rfl, rfl, rfl, rfl, rfl⟩

/-- C27, what the code does: at a supply voltage of 12 V (sensor at 780 °C, valid lambda
1.0, channel at offset 0) `SendEcuMasterAfrFormat` sends Frame A at identifier 0x664 and
Frame B at 0x665, with `SensorTemp` 195 and `Lambda` 1000, and with `SystemVolts` 120,
the supply voltage times 10; the voltage times 100, at 0.01 V per bit, would be 1200. -/
theorem C27_ecumaster_system_volts :
    (SendEcuMasterAfrFormat sampleConfiguration 0 (sampleInputs 1 true 12)).map
        (fun frames =>
          (frames.frame.EID, frames.frame2.EID, frames.frame.data.SystemVolts,
            frames.frame.data.SensorTemp, frames.frame.data.Lambda))
      = some (0x664, 0x665, 120, 195, 1000) := by
  obtain ⟨frames, hsome, h1, h2, _, _, h3, h4, h5⟩ :=
    SendEcuMasterAfrFormat_lean sampleConfiguration 0 (sampleInputs 1 true 12) rfl
      (by norm_num [sampleInputs]) (by norm_num [sampleInputs]) (by norm_num [sampleInputs])
      (by norm_num [sampleInputs]) (by norm_num [sampleInputs]) (by norm_num [sampleInputs])
      (by norm_num [sampleInputs]) (by norm_num [sampleInputs]) (by norm_num [sampleInputs])
      (by norm_num [sampleInputs])
  rw [hsome, Option.map_some', h2, h1, h3, h4, h5]
  norm_num [sampleInputs, sampleConfiguration, sampleChannel]
  decide

/-! ## The effective heater voltage -/

theorem Update_heaterVoltage (b : BoardConfig) (c : HeaterControllerBase) (now : Int)
    (esr temp : ℚ) (allow : HeaterAllow) (v : ℚ) :
    (c.Update b now esr temp allow v).ctrl.heaterVoltage = c.heaterVoltage := by
  rw [Update_ctrl_frame]
  exact (GetNextState_frame b c now c.heaterState allow v temp).2.2.2.1

theorem SendLinkAfrFormat_heaterVoltage (configuration : Configuration) (ch : Fin 2)
    (inp : AfrInputs) (hh : inp.heater.heaterVoltage = 0)
    (hl0 : 0 ≤ inp.GetLambda) (hl1 : inp.GetLambda * 1000 < 65536)
    (hv0 : 0 ≤ inp.GetInternalHeaterVoltage)
    (hv1 : inp.GetInternalHeaterVoltage * 100 < 65536) (ht0 : 0 ≤ inp.GetSensorTemperature)
    (ht1 : inp.GetSensorTemperature < 65536) (hi0 : 0 ≤ inp.GetPumpNominalCurrent)
    (hi1 : inp.GetPumpNominalCurrent * 1000 < 65536) :
    ∃ frames, SendLinkAfrFormat configuration ch inp = some frames
      ∧ frames.frame2.data.FrameIndex = 51 ∧ frames.frame2.data.HeaterVoltage = 0 := by
  have hlam : 0 ≤ (if inp.LambdaIsValid = true then inp.GetLambda * 1000 else 0)
      ∧ (if inp.LambdaIsValid = true then inp.GetLambda * 1000 else 0) < 2 ^ 16 := by
    split_ifs
    · exact ⟨mul_nonneg hl0 (by norm_num), by norm_num; exact hl1⟩
    · norm_num
  unfold SendLinkAfrFormat
  simp only [HeaterControllerBase.GetHeaterEffectiveVoltage, hh, zero_mul,
    floatToUnsigned_zero, floatToUnsigned_of_range 16 _ hlam.1 hlam.2,
    floatToUnsigned_of_range 16 inp.GetSensorTemperature ht0 (by norm_num; exact ht1),
    floatToUnsigned_of_range 16 (inp.GetPumpNominalCurrent * 1000)
      (mul_nonneg hi0 (by norm_num)) (by norm_num; exact hi1),
    floatToUnsigned_of_range 16 (inp.GetInternalHeaterVoltage * 100)
      (mul_nonneg hv0 (by norm_num)) (by norm_num; exact hv1),
    Option.some_bind]
  exact ⟨_, rfl, rfl, rfl⟩

theorem dut_heaterVoltage : dut.heaterVoltage = 0 := by
  simp [dut, HeaterControllerBase.Configure, HeaterControllerBase.init]

/-- C28, what the code does: `Update` never assigns the data member `heaterVoltage`
that `GetHeaterEffectiveVoltage` returns (the voltage it computes is a local variable of
the same name), so the getter returns after a tick what it returned before it. For the
controller of test_heater.cpp, a tick with a cold sensor, heating allowed and a 12 V
supply commands 2 V, yet the getter returns 0 V afterwards and the LinkEcu frame with
frame index 51 carries 0 in `HeaterVoltage`, not 200. -/
theorem C28_effective_voltage :
    (∀ (b : BoardConfig) (c : HeaterControllerBase) (now : Int) (esr temp : ℚ)
        (allow : HeaterAllow) (v : ℚ),
        (c.Update b now esr temp allow v).ctrl.GetHeaterEffectiveVoltage
          = c.GetHeaterEffectiveVoltage)
      ∧ dut.commandedVoltage testBoard 0 300 500 HeaterAllow.Allowed 12 = 2
      ∧ (dut.Update testBoard 0 300 500 HeaterAllow.Allowed 12).ctrl.GetHeaterEffectiveVoltage
          = 0
      ∧ (SendLinkAfrFormat sampleConfiguration 0 linkInputs).map
          (fun frames => (frames.frame2.data.FrameIndex, frames.frame2.data.HeaterVoltage))
          = some (51, 0) := by
  have hupd : (dut.Update testBoard 0 300 500 HeaterAllow.Allowed 12).ctrl.heaterVoltage = 0 :=
    (Update_heaterVoltage testBoard dut 0 300 500 HeaterAllow.Allowed 12).trans dut_heaterVoltage
  refine ⟨fun b c now esr temp allow v => Update_heaterVoltage b c now esr temp allow v,
    dut_commanded_cold, hupd, ?_⟩
  obtain ⟨frames, hsome, h1, h2⟩ :=
    SendLinkAfrFormat_heaterVoltage sampleConfiguration 0 linkInputs hupd
      (by norm_num [linkInputs, sampleInputs]) (by norm_num [linkInputs, sampleInputs])
      (by norm_num [linkInputs, sampleInputs]) (by norm_num [linkInputs, sampleInputs])
      (by norm_num [linkInputs, sampleInputs]) (by norm_num [linkInputs, sampleInputs])
      (by norm_num [linkInputs, sampleInputs]) (by norm_num [linkInputs, sampleInputs])
  rw [hsome, Option.map_some', h1, h2]

/-! ## The frames of the internal protocol -/

theorem round_sub_le_512 (q : ℚ) (h : |q| < 65536) : |binary32.round q - q| ≤ 1 / 512 := by
  have := round_sub_le_of_lt q 15 (by norm_num) (by norm_num; exact h)
  norm_num at this ⊢
  exact this

theorem isSome_ite {α : Type} (b : Bool) (x : α) :
    (if b = true then some x else none).isSome = b := by
  cases b <;> rfl

/-- C29: for every AFR channel and every reading, `SendRusefiFormat` sends the
StandardData frame exactly when the channel's `RusEfiTx` flag is set, at identifier
`WB_DATA_BASE_ADDR` + 2·`RusEfiIdx`, and the DiagData frame exactly when `RusEfiTxDiag`
is set, at that identifier + 1 (so it sends nothing when both flags are clear). In
StandardData the field `Lambda` is the float lambda × 10000 converted to 16 bits
unsigned when lambda is valid and 0 otherwise; for a valid lambda with
0 ≤ lambda × 10000 ≤ 65535 that is the float product truncated, and the float product
is within 1/512 of the exact one. `Valid` is 1 when lambda is valid and 0 otherwise. -/
theorem C29_rusefi_frames (ids : WidebandCan) (version : Nat) (isExtended : Bool)
    (configuration : Configuration) (ch : Fin 2) (inp : AfrInputs) :
    (SendRusefiFormat ids version isExtended configuration ch inp).standard.isSome
        = (configuration.afr ch).RusEfiTx
      ∧ (SendRusefiFormat ids version isExtended configuration ch inp).diag.isSome
        = (configuration.afr ch).RusEfiTxDiag
      ∧ (∀ f, (SendRusefiFormat ids version isExtended configuration ch inp).standard = some f →
          f.EID = ids.WB_DATA_BASE_ADDR + 2 * (configuration.afr ch).RusEfiIdx
            ∧ (f.data.Lambda : Int) =
              (if inp.LambdaIsValid = true then
                uint16_t.ofFloat (binary32.round (inp.GetLambda * 10000))
              else 0)
            ∧ (inp.LambdaIsValid = true → 0 ≤ inp.GetLambda → inp.GetLambda * 10000 ≤ 65535 →
                (f.data.Lambda : Int) = ⌊binary32.round (inp.GetLambda * 10000)⌋
                  ∧ |binary32.round (inp.GetLambda * 10000) - inp.GetLambda * 10000|
                      ≤ 1 / 512)
            ∧ f.data.Valid = (if inp.LambdaIsValid = true then 1 else 0)
            ∧ (f.data.Valid = 1 ↔ inp.LambdaIsValid = true))
      ∧ (∀ g, (SendRusefiFormat ids version isExtended configuration ch inp).diag = some g →
          g.EID = ids.WB_DATA_BASE_ADDR + 2 * (configuration.afr ch).RusEfiIdx + 1) := by
  have hz16 : uint16_t.ofFloat 0 = 0 := ofFloat_zero uint16_t (by decide) (by decide)
  have hL := ofFloat_uint16_range
    (if inp.LambdaIsValid = true then binary32.round (inp.GetLambda * 10000) else 0)
  have hfl : (65535 : ℚ) = ((65535 : Int) : ℚ) := by norm_num
  have h65 : binary32.IsFloat (65535 : ℚ) := by
    rw [hfl]
    exact isFloat_intCast 65535 (by norm_num)
  have hlam : ((uint16_t.ofFloat
      (if inp.LambdaIsValid = true then binary32.round (inp.GetLambda * 10000)
        else 0)).toNat : Int)
      = (if inp.LambdaIsValid = true then
          uint16_t.ofFloat (binary32.round (inp.GetLambda * 10000))
        else 0) := by
    rw [Int.toNat_of_nonneg hL.1]
    split_ifs
    · rfl
    · exact hz16
  refine ⟨?_, ?_, ?_, ?_⟩
  · simp only [SendRusefiFormat]
    exact isSome_ite _ _
  · simp only [SendRusefiFormat]
    exact isSome_ite _ _
  · intro f hf
    simp only [SendRusefiFormat] at hf
    by_cases htx : (configuration.afr ch).RusEfiTx = true
    · rw [if_pos htx] at hf
      cases hf
      refine ⟨rfl, hlam, ?_, rfl, ?_⟩
      · intro hv h0 h1
        have hq0 : (0 : ℚ) ≤ inp.GetLambda * 10000 := by linarith
        have hr0 := round_nonneg _ hq0
        have hr1 := round_le_of_isFloat _ _ h65 h1
        refine ⟨?_, ?_⟩
        · show ((uint16_t.ofFloat
            (if inp.LambdaIsValid = true then binary32.round (inp.GetLambda * 10000)
              else 0)).toNat : Int) = _
          rw [hlam, if_pos hv]
          exact ofFloat_floor uint16_t (by decide) (by decide) _ hr0
            (by rw [show uint16_t.maxRawValue = 65535 by decide]; exact_mod_cast hr1)
        · apply round_sub_le_512
          rw [abs_of_nonneg hq0]
          linarith
      · by_cases hv : inp.LambdaIsValid = true
        · simp [hv]
        · simp [hv]
    · rw [if_neg htx] at hf
      cases hf
  · intro g hg
    simp only [SendRusefiFormat] at hg
    by_cases htx : (configuration.afr ch).RusEfiTxDiag = true
    · rw [if_pos htx] at hg
      cases hg
      rfl
    · rw [if_neg htx] at hg
      cases hg

theorem rusefi_lambda_example :
    uint16_t.ofFloat (binary32.round ((11744051 / 16777216 : ℚ) * 10000)) = 7000
      ∧ truncate ((11744051 / 16777216 : ℚ) * 10000) = 6999 := by
  have h1 : binary32.round ((11744051 / 16777216 : ℚ) * 10000) = 7000 :=
    round_eval _ _ 12 14336000 (by norm_num)
  refine ⟨?_, truncate_eq_of_nonneg _ _ (by norm_num) (by norm_num) (by norm_num)⟩
  rw [h1, ofFloat_floor uint16_t (by decide) (by decide) _ (by norm_num)
    (by rw [show uint16_t.maxRawValue = 65535 by decide]; norm_num)]
  exact Int.floor_eq_iff.mpr ⟨by norm_num, by norm_num⟩

/-- C29 on AFR channel 1 of `sampleConfiguration` (index 2, both flags set) with a valid
lambda that is the float nearest to 0.7: both frames are sent, StandardData at 0x194
with `Lambda` 7000 and `Valid` 1, DiagData at 0x195. On channel 1 of
`rusefiConfiguration`, whose flags are both clear, nothing is sent. -/
theorem C29_rusefi_frames_witness :
    (∃ f g,
      (SendRusefiFormat sampleIds 0xA0 false sampleConfiguration 1
          (sampleInputs (11744051 / 16777216) true 12)).standard = some f
        ∧ (SendRusefiFormat sampleIds 0xA0 false sampleConfiguration 1
          (sampleInputs (11744051 / 16777216) true 12)).diag = some g
        ∧ f.EID = 0x194 ∧ f.data.Lambda = 7000 ∧ f.data.Valid = 1 ∧ g.EID = 0x195)
      ∧ (SendRusefiFormat sampleIds 0xA0 false rusefiConfiguration 1
          (sampleInputs (11744051 / 16777216) true 12)).standard = none
      ∧ (SendRusefiFormat sampleIds 0xA0 false rusefiConfiguration 1
          (sampleInputs (11744051 / 16777216) true 12)).diag = none := by
  obtain ⟨h1, h2, h3, h4⟩ :=
    C29_rusefi_frames sampleIds 0xA0 false sampleConfiguration 1
      (sampleInputs (11744051 / 16777216) true 12)
  obtain ⟨k1, k2, -, -⟩ :=
    C29_rusefi_frames sampleIds 0xA0 false rusefiConfiguration 1
      (sampleInputs (11744051 / 16777216) true 12)
  have g1 : (sampleInputs (11744051 / 16777216) true 12).GetLambda = 11744051 / 16777216 :=
    rfl
  have g2 : (sampleInputs (11744051 / 16777216) true 12).LambdaIsValid = true := rfl
  have t1 : (sampleConfiguration.afr 1).RusEfiTx = true := rfl
  have t2 : (sampleConfiguration.afr 1).RusEfiTxDiag = true := rfl
  have t3 : (rusefiConfiguration.afr 1).RusEfiTx = false := rfl
  have t4 : (rusefiConfiguration.afr 1).RusEfiTxDiag = false := rfl
  rw [t1] at h1
  rw [t2] at h2
  rw [t3] at k1
  rw [t4] at k2
  refine ⟨?_, Option.not_isSome_iff_eq_none.mp (by rw [k1]; decide),
    Option.not_isSome_iff_eq_none.mp (by rw [k2]; decide)⟩
  obtain ⟨f, hf⟩ := Option.isSome_iff_exists.mp h1
  obtain ⟨g, hg⟩ := Option.isSome_iff_exists.mp h2
  obtain ⟨e1, e2, -, e4, -⟩ := h3 f hf
  rw [g2, g1, if_pos rfl, rusefi_lambda_example.1] at e2
  rw [g2, if_pos rfl] at e4
  exact ⟨f, g, hf, hg, e1, by omega, e4, h4 g hg⟩

/-! ## The configuration defaults -/

theorem loadCurvePoint_frame (c : port.Configuration) (i : Nat) :
    (port.loadCurvePoint c i).Tag = c.Tag
      ∧ (port.loadCurvePoint c i).NoLongerUsed0 = c.NoLongerUsed0
      ∧ (port.loadCurvePoint c i).auxOutputSource = c.auxOutputSource
      ∧ (port.loadCurvePoint c i).sensorType = c.sensorType
      ∧ (port.loadCurvePoint c i).afr = c.afr
      ∧ (port.loadCurvePoint c i).egt = c.egt := by
  unfold port.loadCurvePoint
  split_ifs <;> exact ⟨rfl, rfl, rfl, rfl, rfl, rfl⟩

theorem loadCurve_fold (c : port.Configuration) (count : Nat) :
    ((List.range count).foldl port.loadCurvePoint c).Tag = c.Tag
      ∧ ((List.range count).foldl port.loadCurvePoint c).NoLongerUsed0 = c.NoLongerUsed0
      ∧ ((List.range count).foldl port.loadCurvePoint c).auxOutputSource = c.auxOutputSource
      ∧ ((List.range count).foldl port.loadCurvePoint c).sensorType = c.sensorType
      ∧ ((List.range count).foldl port.loadCurvePoint c).afr = c.afr
      ∧ ((List.range count).foldl port.loadCurvePoint c).egt = c.egt
      ∧ (∀ j k, ((List.range count).foldl port.loadCurvePoint c).auxOutBins j k =
          if k.val < count then 17 / 2 + (18 - 17 / 2) / 7 * (k.val : ℚ)
          else c.auxOutBins j k)
      ∧ (∀ j k, ((List.range count).foldl port.loadCurvePoint c).auxOutValues j k =
          if k.val < count then 0 + (5 - 0) / 7 * (k.val : ℚ) else c.auxOutValues j k) := by
  induction count with
  | zero => simp
  | succ m ih =>
    rw [List.range_succ, List.foldl_append, List.foldl_cons, List.foldl_nil]
    generalize (List.range m).foldl port.loadCurvePoint c = r at ih
    obtain ⟨h1, h2, h3, h4, h5, h6, h7, h8⟩ := ih
    obtain ⟨f1, f2, f3, f4, f5, f6⟩ := loadCurvePoint_frame r m
    refine ⟨f1.trans h1, f2.trans h2, f3.trans h3, f4.trans h4, f5.trans h5, f6.trans h6,
      fun j k => ?_, fun j k => ?_⟩
    · unfold port.loadCurvePoint
      by_cases hm : m < 8
      · rw [dif_pos hm]
        by_cases hk : k = ⟨m, hm⟩
        · subst hk
          simp
        · have hkm : k.val ≠ m := fun h => hk (Fin.ext h)
          simp only [hk, if_false, h7]
          by_cases hlt : k.val < m
          · rw [if_pos hlt, if_pos (by omega)]
          · rw [if_neg hlt, if_neg (by omega)]
      · rw [dif_neg hm, h7]
        have hk1 : k.val < m := by omega
        rw [if_pos hk1, if_pos (by omega)]
    · unfold port.loadCurvePoint
      by_cases hm : m < 8
      · rw [dif_pos hm]
        by_cases hk : k = ⟨m, hm⟩
        · subst hk
          simp
        · have hkm : k.val ≠ m := fun h => hk (Fin.ext h)
          simp only [hk, if_false, h8]
          by_cases hlt : k.val < m
          · rw [if_pos hlt, if_pos (by omega)]
          · rw [if_neg hlt, if_neg (by omega)]
      · rw [dif_neg hm, h8]
        have hk1 : k.val < m := by omega
        rw [if_pos hk1, if_pos (by omega)]

theorem loadAfr_fold (c : port.Configuration) (count : Nat) :
    (List.range count).foldl port.loadAfrChannel c =
      { c with
        afr := fun j =>
          if j.val < count then
            { c.afr j with
              RusEfiTx := true
              RusEfiTxDiag := true
              RusEfiIdOffset := (2 * j.val) % 256
              AemNetTx := false
              AemNetIdOffset := j.val % 256 }
          else c.afr j } := by
  induction count with
  | zero => simp
  | succ m ih =>
    rw [List.range_succ, List.foldl_append, List.foldl_cons, List.foldl_nil, ih]
    unfold port.loadAfrChannel
    by_cases hm : m < 2
    · rw [dif_pos hm]
      dsimp only
      congr 1
      funext j
      by_cases hj : j = ⟨m, hm⟩
      · subst hj
        simp
      · have hjm : j.val ≠ m := fun h => hj (Fin.ext h)
        rw [Function.update_noteq hj]
        by_cases hlt : j.val < m
        · rw [if_pos hlt, if_pos (by omega)]
        · rw [if_neg hlt, if_neg (by omega)]
    · rw [dif_neg hm]
      congr 1
      funext j
      have hj1 : j.val < m := by omega
      rw [if_pos hj1, if_pos (by omega)]

theorem loadEgt_fold (c : port.Configuration) (count : Nat) :
    (List.range count).foldl port.loadEgtChannel c =
      { c with
        egt := fun j =>
          if j.val < count then
            { c.egt j with
              RusEfiTx := false
              RusEfiTxDiag := false
              RusEfiIdOffset := j.val % 256
              AemNetTx := true
              AemNetIdOffset := j.val % 256 }
          else c.egt j } := by
  induction count with
  | zero => simp
  | succ m ih =>
    rw [List.range_succ, List.foldl_append, List.foldl_cons, List.foldl_nil, ih]
    unfold port.loadEgtChannel
    by_cases hm : m < 2
    · rw [dif_pos hm]
      dsimp only
      congr 1
      funext j
      by_cases hj : j = ⟨m, hm⟩
      · subst hj
        simp
      · have hjm : j.val ≠ m := fun h => hj (Fin.ext h)
        rw [Function.update_noteq hj]
        by_cases hlt : j.val < m
        · rw [if_pos hlt, if_pos (by omega)]
        · rw [if_neg hlt, if_neg (by omega)]
    · rw [dif_neg hm]
      congr 1
      funext j
      have hj1 : j.val < m := by omega
      rw [if_pos hj1, if_pos (by omega)]

theorem LoadDefaults_fields (n : ChannelCounts) (sensor : SensorType)
    (c : port.Configuration) :
    (port.Configuration.LoadDefaults n sensor c).Tag = port.ExpectedTag
      ∧ (port.Configuration.LoadDefaults n sensor c).NoLongerUsed0 = 0
      ∧ (∀ j k, (port.Configuration.LoadDefaults n sensor c).auxOutBins j k =
          17 / 2 + (18 - 17 / 2) / 7 * (k.val : ℚ))
      ∧ (∀ j k, (port.Configuration.LoadDefaults n sensor c).auxOutValues j k =
          0 + (5 - 0) / 7 * (k.val : ℚ))
      ∧ (port.Configuration.LoadDefaults n sensor c).auxOutputSource 0 = AuxOutputMode.Afr0
      ∧ (port.Configuration.LoadDefaults n sensor c).auxOutputSource 1 = AuxOutputMode.Afr1
      ∧ (port.Configuration.LoadDefaults n sensor c).sensorType = sensor
      ∧ (∀ j, (port.Configuration.LoadDefaults n sensor c).afr j =
          if j.val < n.AFR_CHANNELS then
            { port.ChannelSettings.zero with
              RusEfiTx := true
              RusEfiTxDiag := true
              RusEfiIdOffset := (2 * j.val) % 256
              AemNetTx := false
              AemNetIdOffset := j.val % 256 }
          else port.ChannelSettings.zero)
      ∧ (∀ j, (port.Configuration.LoadDefaults n sensor c).egt j =
          if j.val < n.EGT_CHANNELS then
            { port.ChannelSettings.zero with
              RusEfiTx := false
              RusEfiTxDiag := false
              RusEfiIdOffset := j.val % 256
              AemNetTx := true
              AemNetIdOffset := j.val % 256 }
          else port.ChannelSettings.zero) := by
  have hL : port.Configuration.LoadDefaults n sensor c =
      { (List.range n.EGT_CHANNELS).foldl port.loadEgtChannel
          ((List.range n.AFR_CHANNELS).foldl port.loadAfrChannel
            { (List.range 8).foldl port.loadCurvePoint
                { port.Configuration.zero with NoLongerUsed0 := 0, sensorType := sensor } with
              auxOutputSource := fun j =>
                if j = 0 then AuxOutputMode.Afr0 else AuxOutputMode.Afr1 }) with
        Tag := port.ExpectedTag } := rfl
  rw [hL, loadEgt_fold, loadAfr_fold]
  obtain ⟨_, h2, _, h4, h5, h6, h7, h8⟩ :=
    loadCurve_fold
      { port.Configuration.zero with NoLongerUsed0 := 0, sensorType := sensor } 8
  refine ⟨rfl, h2, fun j k => ?_, fun j k => ?_, rfl, rfl, h4, fun j => ?_, fun j => ?_⟩
  · have := h7 j k
    rw [if_pos k.isLt] at this
    exact this
  · have := h8 j k
    rw [if_pos k.isLt] at this
    exact this
  · show (if j.val < n.AFR_CHANNELS then _ else _) = _
    rw [h5]
    rfl
  · show (if j.val < n.EGT_CHANNELS then _ else _) = _
    rw [h6]
    rfl

/-- C31: after `Configuration::LoadDefaults`, whatever the record held before, the
record is valid with tag 0xDEADBE02; both aux curves have the bins
8.5 + i·(18.0 − 8.5)/7 and the outputs i·5/7 volts for i = 0..7, so 8.5 maps to 0 V and
18.0 to 5 V and the bins are strictly increasing; aux output 0 takes AFR0 and aux
output 1 takes AFR1 as its source; the sensor type is the board default; and the
legacy byte is 0. -/
theorem C31_load_defaults (n : ChannelCounts) (sensor : SensorType)
    (c : port.Configuration) :
    (port.Configuration.LoadDefaults n sensor c).IsValid = true
      ∧ (port.Configuration.LoadDefaults n sensor c).Tag = 0xDEADBE02
      ∧ (∀ j i, (port.Configuration.LoadDefaults n sensor c).auxOutBins j i =
          17 / 2 + (i.val : ℚ) * (18 - 17 / 2) / 7)
      ∧ (∀ j i, (port.Configuration.LoadDefaults n sensor c).auxOutValues j i =
          (i.val : ℚ) * 5 / 7)
      ∧ (∀ j, (port.Configuration.LoadDefaults n sensor c).auxOutBins j 0 = 17 / 2
          ∧ (port.Configuration.LoadDefaults n sensor c).auxOutValues j 0 = 0
          ∧ (port.Configuration.LoadDefaults n sensor c).auxOutBins j 7 = 18
          ∧ (port.Configuration.LoadDefaults n sensor c).auxOutValues j 7 = 5)
      ∧ (∀ j, StrictMono ((port.Configuration.LoadDefaults n sensor c).auxOutBins j))
      ∧ (port.Configuration.LoadDefaults n sensor c).auxOutputSource 0 = AuxOutputMode.Afr0
      ∧ (port.Configuration.LoadDefaults n sensor c).auxOutputSource 1 = AuxOutputMode.Afr1
      ∧ (port.Configuration.LoadDefaults n sensor c).sensorType = sensor
      ∧ (port.Configuration.LoadDefaults n sensor c).NoLongerUsed0 = 0 := by
  obtain ⟨hTag, hZero, hBins, hValues, hS0, hS1, hSensor, _, _⟩ :=
    LoadDefaults_fields n sensor c
  refine ⟨?_, hTag, fun j i => ?_, fun j i => ?_, fun j => ⟨?_, ?_, ?_, ?_⟩, fun j => ?_,
    hS0, hS1, hSensor, hZero⟩
  · simp [port.Configuration.IsValid, hTag]
  · rw [hBins]
    ring
  · rw [hValues]
    ring
  · rw [hBins]
    norm_num
  · rw [hValues]
    norm_num
  · have e7 : ((7 : Fin 8) : ℕ) = 7 := rfl
    rw [hBins, e7]
    norm_num
  · have e7 : ((7 : Fin 8) : ℕ) = 7 := rfl
    rw [hValues, e7]
    norm_num
  · intro a b hab
    rw [hBins, hBins]
    have hlt : (a.val : ℚ) < (b.val : ℚ) := by exact_mod_cast hab
    linarith

/-- C32 (as amended): after `Configuration::LoadDefaults`, in a build with at most two
AFR and two EGT channels, every AFR channel ch has the internal protocol enabled (data
and diagnostic frames) with identifier offset 2·ch and AemNet off, and every EGT
channel ch has the internal protocol off and AemNet enabled with identifier offset
ch. -/
theorem C32_load_defaults_channels (n : ChannelCounts) (hn : n.Valid) (sensor : SensorType)
    (c : port.Configuration) :
    (∀ i, i < n.AFR_CHANNELS → ∃ h2 : i < 2,
        ((port.Configuration.LoadDefaults n sensor c).afr ⟨i, h2⟩).RusEfiTx = true
          ∧ ((port.Configuration.LoadDefaults n sensor c).afr ⟨i, h2⟩).RusEfiTxDiag = true
          ∧ ((port.Configuration.LoadDefaults n sensor c).afr ⟨i, h2⟩).RusEfiIdOffset = 2 * i
          ∧ ((port.Configuration.LoadDefaults n sensor c).afr ⟨i, h2⟩).AemNetTx = false
          ∧ ((port.Configuration.LoadDefaults n sensor c).afr ⟨i, h2⟩).AemNetIdOffset = i)
      ∧ (∀ i, i < n.EGT_CHANNELS → ∃ h2 : i < 2,
        ((port.Configuration.LoadDefaults n sensor c).egt ⟨i, h2⟩).RusEfiTx = false
          ∧ ((port.Configuration.LoadDefaults n sensor c).egt ⟨i, h2⟩).RusEfiTxDiag = false
          ∧ ((port.Configuration.LoadDefaults n sensor c).egt ⟨i, h2⟩).AemNetTx = true
          ∧ ((port.Configuration.LoadDefaults n sensor c).egt ⟨i, h2⟩).AemNetIdOffset = i
          ∧ ((port.Configuration.LoadDefaults n sensor c).egt ⟨i, h2⟩).RusEfiIdOffset
            = i) := by
  obtain ⟨_, _, _, _, _, _, _, hAfr, hEgt⟩ := LoadDefaults_fields n sensor c
  constructor
  · intro i hi
    have h2 : i < 2 := by have := hn.1; omega
    refine ⟨h2, ?_⟩
    rw [hAfr, if_pos hi]
    refine ⟨rfl, rfl, ?_, rfl, ?_⟩
    · show (2 * i) % 256 = 2 * i
      omega
    · show i % 256 = i
      omega
  · intro i hi
    have h2 : i < 2 := by have := hn.2; omega
    refine ⟨h2, ?_⟩
    rw [hEgt, if_pos hi]
    refine ⟨rfl, rfl, rfl, ?_, ?_⟩
    · show i % 256 = i
      omega
    · show i % 256 = i
      omega

/-- C32 on a build with two AFR and two EGT channels, from a blank record: AFR channel 1
sends the internal protocol at offset 2 with AemNet off, EGT channel 1 has AemNet on at
offset 1 and the internal protocol off. -/
theorem C32_load_defaults_channels_witness :
    ((port.Configuration.LoadDefaults twoChannels SensorType.LSU49
          port.blankConfiguration).afr 1).RusEfiTx = true
      ∧ ((port.Configuration.LoadDefaults twoChannels SensorType.LSU49
          port.blankConfiguration).afr 1).RusEfiIdOffset = 2
      ∧ ((port.Configuration.LoadDefaults twoChannels SensorType.LSU49
          port.blankConfiguration).afr 1).AemNetTx = false
      ∧ ((port.Configuration.LoadDefaults twoChannels SensorType.LSU49
          port.blankConfiguration).egt 1).AemNetTx = true
      ∧ ((port.Configuration.LoadDefaults twoChannels SensorType.LSU49
          port.blankConfiguration).egt 1).RusEfiTx = false := by
  have h := C32_load_defaults_channels twoChannels (by decide) SensorType.LSU49
    port.blankConfiguration
  obtain ⟨_, a1, _, a3, a4, _⟩ := h.1 1 (by decide)
  obtain ⟨_, e1, _, e3, _, _⟩ := h.2 1 (by decide)
  exact ⟨a1, a3, a4, e3, e1⟩

/-- C32 as stated fails: after `LoadDefaults` on a build with two EGT channels it is not
the case that AemNet is off on every EGT channel; EGT channel 0 has `AemNetTx` set. -/
theorem C32_counterexample :
    ¬ (∀ ch : Fin 2, ch.val < twoChannels.EGT_CHANNELS →
        ((port.Configuration.LoadDefaults twoChannels SensorType.LSU49
          port.blankConfiguration).egt ch).AemNetTx = false) := by
  intro h
  have h0 := h 0 (by decide)
  have hEgt := (LoadDefaults_fields twoChannels SensorType.LSU49
    port.blankConfiguration).2.2.2.2.2.2.2.2 0
  rw [hEgt, if_pos (by decide)] at h0
  exact Bool.noConfusion h0

/-! ## Scaled storage -/

theorem round_sub_le_256 (q : ℚ) (h : |q| < 131072) : |binary32.round q - q| ≤ 1 / 256 := by
  have := round_sub_le_of_lt q 16 (by norm_num) (by norm_num; exact h)
  norm_num at this ⊢
  exact this

theorem isFloat_half (z : Int) (hz : |z| < 2 ^ 22) : binary32.IsFloat ((z : ℚ) + 1 / 2) := by
  have := isFloat_of_mul_two_pow (2 * z + 1) (-1) (by rw [abs_lt] at hz ⊢; omega) (by norm_num)
  have e : ((2 * z + 1 : Int) : ℚ) * 2 ^ (-1 : Int) = (z : ℚ) + 1 / 2 := by
    push_cast
    norm_num
    ring
  rwa [e] at this

theorem isFloat_sub_half (z : Int) (hz : |z| < 2 ^ 22) :
    binary32.IsFloat ((z : ℚ) - 1 / 2) := by
  have := isFloat_of_mul_two_pow (2 * z - 1) (-1) (by rw [abs_lt] at hz ⊢; omega) (by norm_num)
  have e : ((2 * z - 1 : Int) : ℚ) * 2 ^ (-1 : Int) = (z : ℚ) - 1 / 2 := by
    push_cast
    norm_num
    ring
  rwa [e] at this

theorem setValue_near (T : IntegralType) (hb : 1 ≤ T.bits) (hb16 : T.bits ≤ 16)
    (num den : Nat) (v : ℚ)
    (hlo : (T.minRawValue : ℚ) ≤ v / ScaledValue.scale num den)
    (hhi : v / ScaledValue.scale num den ≤ (T.maxRawValue : ℚ)) :
    T.minRawValue ≤ ScaledValue.setValue T num den v
      ∧ ScaledValue.setValue T num den v ≤ T.maxRawValue
      ∧ |(ScaledValue.setValue T num den v : ℚ) - v / ScaledValue.scale num den|
          ≤ 1 / 2 + 1 / 128 := by
  obtain ⟨l1, l2, l3, l4⟩ := limits_of_bits T hb16
  have q1 : (-65536 : ℚ) < (T.minRawValue : ℚ) := by exact_mod_cast l1
  have q2 : (T.minRawValue : ℚ) ≤ 0 := by exact_mod_cast l2
  have q3 : (0 : ℚ) ≤ (T.maxRawValue : ℚ) := by exact_mod_cast l3
  have q4 : (T.maxRawValue : ℚ) < 65536 := by exact_mod_cast l4
  have hmin : binary32.round (T.minRawValue : ℚ) = T.minRawValue :=
    round_intCast _ (by rw [abs_lt]; constructor <;> omega)
  have hmax : binary32.round (T.maxRawValue : ℚ) = T.maxRawValue :=
    round_intCast _ (by rw [abs_lt]; constructor <;> omega)
  have hx := round_sub_le_256 (v / ScaledValue.scale num den)
    (by rw [abs_lt]; constructor <;> linarith)
  rw [abs_le] at hx
  unfold ScaledValue.setValue
  simp only [hmin, hmax]
  generalize binary32.round (v / ScaledValue.scale num den) = scaled at hx ⊢
  by_cases hc1 : scaled < (T.minRawValue : ℚ)
  · rw [if_pos hc1]
    refine ⟨le_refl _, by omega, ?_⟩
    rw [abs_le]
    constructor <;> linarith [hx.1, hx.2]
  rw [if_neg hc1]
  by_cases hc2 : scaled > (T.maxRawValue : ℚ)
  · rw [if_pos hc2]
    refine ⟨by omega, le_refl _, ?_⟩
    rw [abs_le]
    constructor <;> linarith [hx.1, hx.2]
  rw [if_neg hc2]
  have hs1 : (T.minRawValue : ℚ) ≤ scaled := not_lt.mp hc1
  have hs2 : scaled ≤ (T.maxRawValue : ℚ) := not_lt.mp hc2
  by_cases hpos : scaled ≥ 0
  · rw [if_pos hpos]
    have ht := round_sub_le_256 (scaled + 1 / 2) (by rw [abs_lt]; constructor <;> linarith)
    rw [abs_le] at ht
    have ht0 : 0 ≤ binary32.round (scaled + 1 / 2) := round_nonneg _ (by linarith)
    have ht1 : binary32.round (scaled + 1 / 2) ≤ (T.maxRawValue : ℚ) + 1 / 2 :=
      round_le_of_isFloat _ _ (isFloat_half _ (by rw [abs_lt]; constructor <;> omega))
        (by linarith)
    obtain ⟨k0, k1, k2⟩ := truncate_nonneg_bounds _ ht0
    have kmax : truncate (binary32.round (scaled + 1 / 2)) ≤ T.maxRawValue := by
      have : (truncate (binary32.round (scaled + 1 / 2)) : ℚ) < (T.maxRawValue : ℚ) + 1 := by
        linarith
      have : truncate (binary32.round (scaled + 1 / 2)) < T.maxRawValue + 1 := by
        exact_mod_cast this
      omega
    rw [ofFloat_of_range T hb hb16 _ (by omega) kmax]
    refine ⟨by omega, kmax, ?_⟩
    rw [abs_le]
    constructor <;> linarith [hx.1, hx.2, ht.1, ht.2]
  · rw [if_neg hpos]
    have hneg : scaled < 0 := not_le.mp hpos
    have ht := round_sub_le_256 (scaled + -(1 / 2)) (by rw [abs_lt]; constructor <;> linarith)
    rw [abs_le] at ht
    have hfh : binary32.IsFloat (-(1 / 2) : ℚ) := by
      have := isFloat_sub_half 0 (by norm_num)
      norm_num at this ⊢
      exact this
    have ht0 : binary32.round (scaled + -(1 / 2)) < 0 := by
      have := round_le_of_isFloat (scaled + -(1 / 2)) _ hfh (by linarith)
      linarith
    have ht1 : (T.minRawValue : ℚ) - 1 / 2 ≤ binary32.round (scaled + -(1 / 2)) :=
      le_round_of_isFloat _ _ (isFloat_sub_half _ (by rw [abs_lt]; constructor <;> omega))
        (by linarith)
    obtain ⟨k0, k1, k2⟩ := truncate_neg_bounds _ ht0
    have kmin : T.minRawValue ≤ truncate (binary32.round (scaled + -(1 / 2))) := by
      have : (T.minRawValue : ℚ) - 1 < (truncate (binary32.round (scaled + -(1 / 2))) : ℚ) := by
        linarith
      have : T.minRawValue - 1 < truncate (binary32.round (scaled + -(1 / 2))) := by
        exact_mod_cast this
      omega
    rw [ofFloat_of_range T hb hb16 _ kmin (by omega)]
    refine ⟨kmin, by omega, ?_⟩
    rw [abs_le]
    constructor <;> linarith [hx.1, hx.2, ht.1, ht.2]
theorem setValue_eq_low (T : IntegralType) (num den : Nat) (v scaled : ℚ)
    (hs : binary32.round (v / ScaledValue.scale num den) = scaled)
    (h : scaled < binary32.round (T.minRawValue : ℚ)) :
    ScaledValue.setValue T num den v = T.minRawValue := by
  unfold ScaledValue.setValue
  simp only [hs]
  rw [if_pos h]

theorem setValue_eq_high (T : IntegralType) (num den : Nat) (v scaled : ℚ)
    (hs : binary32.round (v / ScaledValue.scale num den) = scaled)
    (h1 : binary32.round (T.minRawValue : ℚ) ≤ scaled)
    (h : scaled > binary32.round (T.maxRawValue : ℚ)) :
    ScaledValue.setValue T num den v = T.maxRawValue := by
  unfold ScaledValue.setValue
  simp only [hs]
  rw [if_neg (not_lt.mpr h1), if_pos h]

theorem setValue_eq_nonneg (T : IntegralType) (num den : Nat) (v scaled t : ℚ)
    (hs : binary32.round (v / ScaledValue.scale num den) = scaled)
    (h1 : binary32.round (T.minRawValue : ℚ) ≤ scaled)
    (h2 : scaled ≤ binary32.round (T.maxRawValue : ℚ)) (h0 : 0 ≤ scaled)
    (ht : binary32.round (scaled + 1 / 2) = t) :
    ScaledValue.setValue T num den v = T.ofFloat t := by
  unfold ScaledValue.setValue
  simp only [hs]
  rw [if_neg (not_lt.mpr h1), if_neg (not_lt.mpr h2), if_pos h0, ht]

theorem setValue_eq_neg (T : IntegralType) (num den : Nat) (v scaled t : ℚ)
    (hs : binary32.round (v / ScaledValue.scale num den) = scaled)
    (h1 : binary32.round (T.minRawValue : ℚ) ≤ scaled)
    (h2 : scaled ≤ binary32.round (T.maxRawValue : ℚ)) (h0 : scaled < 0)
    (ht : binary32.round (scaled + -(1 / 2)) = t) :
    ScaledValue.setValue T num den v = T.ofFloat t := by
  unfold ScaledValue.setValue
  simp only [hs]
  rw [if_neg (not_lt.mpr h1), if_neg (not_lt.mpr h2), if_neg (not_le.mpr h0), ht]

theorem scale_one_one : ScaledValue.scale 1 1 = 1 := by
  have h1 := round_natCast 1 (by norm_num)
  unfold ScaledValue.scale
  rw [h1]
  have := round_intCast 1 (by norm_num)
  norm_num at this ⊢
  exact this

theorem scale_ten_one : ScaledValue.scale 10 1 = 10 := by
  have h1 := round_natCast 1 (by norm_num)
  have h10 := round_natCast 10 (by norm_num)
  unfold ScaledValue.scale
  rw [h1, h10]
  have := round_intCast 10 (by norm_num)
  norm_num at this ⊢
  exact this

theorem int16_limits :
    binary32.round (int16_t.minRawValue : ℚ) = -32768
      ∧ binary32.round (int16_t.maxRawValue : ℚ) = 32767 := by
  have e1 : int16_t.minRawValue = -32768 := by decide
  have e2 : int16_t.maxRawValue = 32767 := by decide
  rw [e1, e2]
  have h1 := round_intCast (-32768) (by norm_num)
  have h2 := round_intCast 32767 (by norm_num)
  push_cast at h1 h2 ⊢
  exact ⟨h1, h2⟩

theorem int32_limits :
    binary32.round (int32_t.minRawValue : ℚ) = -2147483648
      ∧ binary32.round (int32_t.maxRawValue : ℚ) = 2147483648 := by
  have e1 : int32_t.minRawValue = -2147483648 := by decide
  have e2 : int32_t.maxRawValue = 2147483647 := by decide
  rw [e1, e2]
  push_cast
  constructor
  · exact round_eval_neg _ _ 31 8388608 (by norm_num)
  · exact round_eval _ _ 30 16777216 (by norm_num)

theorem ofFloat_int32_high (x : ℚ) (z : Int) (hz : truncate x = z) (h : 2147483648 ≤ z) :
    int32_t.ofFloat x = -2147483648 := by
  unfold IntegralType.ofFloat truncateToSigned IntegralType.wrap
  simp only [int32_t, hz]
  norm_num
  rw [if_neg (by omega)]
  norm_num

theorem int8_limits :
    binary32.round (int8_t.minRawValue : ℚ) = -128
      ∧ binary32.round (int8_t.maxRawValue : ℚ) = 127 := by
  have e1 : int8_t.minRawValue = -128 := by decide
  have e2 : int8_t.maxRawValue = 127 := by decide
  rw [e1, e2]
  have h1 := round_intCast (-128) (by norm_num)
  have h2 := round_intCast 127 (by norm_num)
  push_cast at h1 h2 ⊢
  exact ⟨h1, h2⟩

theorem uint8_limits :
    binary32.round (uint8_t.minRawValue : ℚ) = 0
      ∧ binary32.round (uint8_t.maxRawValue : ℚ) = 255 := by
  have e1 : uint8_t.minRawValue = 0 := by decide
  have e2 : uint8_t.maxRawValue = 255 := by decide
  rw [e1, e2]
  have h2 := round_intCast 255 (by norm_num)
  push_cast at h2 ⊢
  exact ⟨round_zero, h2⟩

/-- The values that the unit tests of test_fixed_point.cpp expect, with scale 0.1: an
`int16_t` stores 1.24f as 12, 1.25f as 13 and -1.26f as -13; an `int8_t` stores 20 as
127 and -20 as -128; a `uint8_t` stores -5 as 0 and 30 as 255. -/
theorem setValue_examples :
    ScaledValue.setValue int16_t 1 10 (binary32.round (31 / 25)) = 12
      ∧ ScaledValue.setValue int16_t 1 10 (binary32.round (5 / 4)) = 13
      ∧ ScaledValue.setValue int16_t 1 10 (binary32.round (-(63 / 50))) = -13
      ∧ ScaledValue.setValue int8_t 1 10 20 = 127
      ∧ ScaledValue.setValue int8_t 1 10 (-20) = -128
      ∧ ScaledValue.setValue uint8_t 1 10 (-5) = 0
      ∧ ScaledValue.setValue uint8_t 1 10 30 = 255 := by
  have hv1 : binary32.round (31 / 25) = (5200937 / 4194304) :=
    round_eval _ _ (0) 10401874 (by norm_num)
  have hv2 : binary32.round (5 / 4) = (5 / 4) :=
    round_eval _ _ (0) 10485760 (by norm_num)
  have hv3 : binary32.round (-(63 / 50)) = (-(5284823 / 4194304)) :=
    round_eval_neg _ _ (0) 10569646 (by norm_num)
  have h1a : ScaledValue.setValue int16_t 1 10 (5200937 / 4194304)
      = int16_t.ofFloat (6763315 / 524288) :=
    setValue_eq_nonneg int16_t 1 10 _ (6501171 / 524288) _
      (by rw [scale_one_ten]; exact round_eval _ _ (3) 13002342 (by norm_num))
      (by rw [int16_limits.1]; norm_num) (by rw [int16_limits.2]; norm_num) (by norm_num)
      (round_eval _ _ (3) 13526630 (by norm_num))
  have h1b : truncate (6763315 / 524288) = 12 :=
    truncate_eq_of_nonneg _ _ (by norm_num) (by norm_num) (by norm_num)
  have h1 : ScaledValue.setValue int16_t 1 10 (5200937 / 4194304) = 12 := by
    rw [h1a, ofFloat_of_range int16_t (by decide) (by decide) _ (by rw [h1b]; decide)
      (by rw [h1b]; decide), h1b]
  have h2a : ScaledValue.setValue int16_t 1 10 (5 / 4) = int16_t.ofFloat 13 :=
    setValue_eq_nonneg int16_t 1 10 _ (25 / 2) _
      (by rw [scale_one_ten]; exact round_eval _ _ (3) 13107200 (by norm_num))
      (by rw [int16_limits.1]; norm_num) (by rw [int16_limits.2]; norm_num) (by norm_num)
      (round_eval _ _ (3) 13631488 (by norm_num))
  have h2b : truncate 13 = 13 :=
    truncate_eq_of_nonneg _ _ (by norm_num) (by norm_num) (by norm_num)
  have h2 : ScaledValue.setValue int16_t 1 10 (5 / 4) = 13 := by
    rw [h2a, ofFloat_of_range int16_t (by decide) (by decide) _ (by rw [h2b]; decide)
      (by rw [h2b]; decide), h2b]
  have h3a : ScaledValue.setValue int16_t 1 10 (-(5284823 / 4194304))
      = int16_t.ofFloat (-(13736345 / 1048576)) :=
    setValue_eq_neg int16_t 1 10 _ (-(13212057 / 1048576)) _
      (by rw [scale_one_ten]; exact round_eval_neg _ _ (3) 13212057 (by norm_num))
      (by rw [int16_limits.1]; norm_num) (by rw [int16_limits.2]; norm_num) (by norm_num)
      (round_eval_neg _ _ (3) 13736345 (by norm_num))
  have h3b : truncate (-(13736345 / 1048576)) = (-13) :=
    truncate_eq_of_neg _ _ (by norm_num) (by norm_num) (by norm_num)
  have h3 : ScaledValue.setValue int16_t 1 10 (-(5284823 / 4194304)) = (-13) := by
    rw [h3a, ofFloat_of_range int16_t (by decide) (by decide) _ (by rw [h3b]; decide)
      (by rw [h3b]; decide), h3b]
  have h4 : ScaledValue.setValue int8_t 1 10 20 = int8_t.maxRawValue :=
    setValue_eq_high int8_t 1 10 _ 200
      (by rw [scale_one_ten]; exact round_eval _ _ (7) 13107200 (by norm_num))
      (by rw [int8_limits.1]; norm_num) (by rw [int8_limits.2]; norm_num)
  have h5 : ScaledValue.setValue int8_t 1 10 (-20) = int8_t.minRawValue :=
    setValue_eq_low int8_t 1 10 _ (-200)
      (by rw [scale_one_ten]; exact round_eval_neg _ _ (7) 13107200 (by norm_num))
      (by rw [int8_limits.1]; norm_num)
  have h6 : ScaledValue.setValue uint8_t 1 10 (-5) = uint8_t.minRawValue :=
    setValue_eq_low uint8_t 1 10 _ (-50)
      (by rw [scale_one_ten]; exact round_eval_neg _ _ (5) 13107200 (by norm_num))
      (by rw [uint8_limits.1]; norm_num)
  have h7 : ScaledValue.setValue uint8_t 1 10 30 = uint8_t.maxRawValue :=
    setValue_eq_high uint8_t 1 10 _ 300
      (by rw [scale_one_ten]; exact round_eval _ _ (8) 9830400 (by norm_num))
      (by rw [uint8_limits.1]; norm_num) (by rw [uint8_limits.2]; norm_num)
  rw [hv1, hv2, hv3]
  exact ⟨h1, h2, h3, h4, h5, h6, h7⟩

/-- C34, what the code does: `setValue` rounds by adding 0.5f in `float` and truncating.
The values that test_fixed_point.cpp expects are stored (scale 0.1: 1.24f as 12, 1.25f
as 13, -1.26f as -13; `int8_t` 20 as 127 and -20 as -128; `uint8_t` -5 as 0 and 30 as
255), and for a storage type of at most 16 bits a value whose quotient v/scale lies in
the range of the type is stored as a value of the type within 1/2 + 1/128 of the
quotient. But through a `ScaledValue<int16_t, 1, 1>` the float 0.5 − 2^-25, the largest
one below one half, is stored as 1 although it is nearer to 0 than to 1 (the sum
1 − 2^-25 is not a float and rounds to 1.0); and through a `ScaledValue<int32_t, 10, 1>`
the float 10 · 2^31, whose quotient 2^31 lies above the maximum 2^31 − 1 of the type, is
not stored as the maximum: the limit converted to `float` is 2^31, so the value passes
the comparison, and the conversion yields the minimum -2^31. -/
theorem C34_setValue_rounding :
    (ScaledValue.setValue int16_t 1 10 (binary32.round (31 / 25)) = 12
        ∧ ScaledValue.setValue int16_t 1 10 (binary32.round (5 / 4)) = 13
        ∧ ScaledValue.setValue int16_t 1 10 (binary32.round (-(63 / 50))) = -13
        ∧ ScaledValue.setValue int8_t 1 10 20 = 127
        ∧ ScaledValue.setValue int8_t 1 10 (-20) = -128
        ∧ ScaledValue.setValue uint8_t 1 10 (-5) = 0
        ∧ ScaledValue.setValue uint8_t 1 10 30 = 255)
      ∧ (∀ (T : IntegralType) (num den : Nat) (v : ℚ), 1 ≤ T.bits → T.bits ≤ 16 →
          (T.minRawValue : ℚ) ≤ v / ScaledValue.scale num den →
          v / ScaledValue.scale num den ≤ (T.maxRawValue : ℚ) →
          T.minRawValue ≤ ScaledValue.setValue T num den v
            ∧ ScaledValue.setValue T num den v ≤ T.maxRawValue
            ∧ |(ScaledValue.setValue T num den v : ℚ) - v / ScaledValue.scale num den|
                ≤ 1 / 2 + 1 / 128)
      ∧ (binary32.IsFloat (16777215 / 33554432)
        ∧ (16777215 / 33554432 : ℚ) / ScaledValue.scale 1 1 = 16777215 / 33554432
        ∧ |(16777215 / 33554432 : ℚ) - 0| < 1 / 2
        ∧ (int16_t.minRawValue : ℚ) ≤ 16777215 / 33554432
        ∧ (16777215 / 33554432 : ℚ) ≤ (int16_t.maxRawValue : ℚ)
        ∧ ScaledValue.setValue int16_t 1 1 (16777215 / 33554432) = 1)
      ∧ (binary32.IsFloat 21474836480
        ∧ (21474836480 : ℚ) / ScaledValue.scale 10 1 = 2147483648
        ∧ (int32_t.maxRawValue : ℚ) < 2147483648
        ∧ ScaledValue.setValue int32_t 10 1 21474836480 = int32_t.minRawValue) := by
  have hslipa : ScaledValue.setValue int16_t 1 1 (16777215 / 33554432) = int16_t.ofFloat 1 :=
    setValue_eq_nonneg int16_t 1 1 _ (16777215 / 33554432) _
      (by rw [scale_one_one]; exact round_eval _ _ (-2) 16777215 (by norm_num))
      (by rw [int16_limits.1]; norm_num) (by rw [int16_limits.2]; norm_num) (by norm_num)
      (round_eval_tie _ _ (-1) 16777215 16777216 (by norm_num))
  have hslipb : truncate 1 = 1 :=
    truncate_eq_of_nonneg _ _ (by norm_num) (by norm_num) (by norm_num)
  have hslip : ScaledValue.setValue int16_t 1 1 (16777215 / 33554432) = 1 := by
    rw [hslipa, ofFloat_of_range int16_t (by decide) (by decide) _ (by rw [hslipb]; decide)
      (by rw [hslipb]; decide), hslipb]
  have hclampa : ScaledValue.setValue int32_t 10 1 21474836480 = int32_t.ofFloat 2147483648 :=
    setValue_eq_nonneg int32_t 10 1 _ 2147483648 _
      (by rw [scale_ten_one]; exact round_eval _ _ (31) 8388608 (by norm_num))
      (by rw [int32_limits.1]; norm_num) (by rw [int32_limits.2]) (by norm_num)
      (round_eval _ _ (31) 8388608 (by norm_num))
  have hclampb : truncate 2147483648 = 2147483648 :=
    truncate_eq_of_nonneg _ _ (by norm_num) (by norm_num) (by norm_num)
  have hclamp : ScaledValue.setValue int32_t 10 1 21474836480 = (-2147483648) := by
    rw [hclampa]
    exact ofFloat_int32_high _ _ hclampb (by norm_num)
  have hf1 : binary32.IsFloat (16777215 / 33554432) := by
    have := isFloat_of_mul_two_pow 16777215 (-25) (by norm_num) (by norm_num)
    norm_num at this ⊢
    exact this
  have hf2 : binary32.IsFloat 21474836480 := by
    have := isFloat_of_mul_two_pow 5 32 (by norm_num) (by norm_num)
    norm_num at this ⊢
    exact this
  have e1 : int16_t.minRawValue = -32768 := by decide
  have e2 : int16_t.maxRawValue = 32767 := by decide
  have e3 : int32_t.maxRawValue = 2147483647 := by decide
  have e4 : int32_t.minRawValue = -2147483648 := by decide
  refine ⟨setValue_examples,
    fun T num den v hb hb16 hlo hhi => setValue_near T hb hb16 num den v hlo hhi,
    ⟨hf1, ?_, ?_, ?_, ?_, hslip⟩, hf2, ?_, ?_, ?_⟩
  · rw [scale_one_one]
    norm_num
  · rw [abs_lt]
    constructor <;> norm_num
  · rw [e1]
    norm_num
  · rw [e2]
    norm_num
  · rw [scale_ten_one]
    norm_num
  · rw [e3]
    norm_num
  · rw [hclamp, e4]

/-- C36: in every pass of the pump loop for a channel whose heater is not in closed
loop and whose sensor temperature is below both the target temperature minus
`START_PUMP_TEMP_OFFSET` and the target temperature minus
`START_SENSOR_DETECTION_TEMP_OFFSET`, the loop commands a pump current of exactly 0 and
resets the sensor detector to its initial state; the pump PID is not touched. -/
theorem C36_pump_cold (k : PumpConfig) (pumpGainAdjust : ℚ) (heater : HeaterControllerBase)
    (temp nernst : ℚ) (c : PumpChannel) (hstate : heater.heaterState ≠ HeaterState.ClosedLoop)
    (hpump : temp < heater.m_targetTempC - k.START_PUMP_TEMP_OFFSET)
    (hdetect : temp < heater.m_targetTempC - k.START_SENSOR_DETECTION_TEMP_OFFSET) :
    (PumpThread.channel k pumpGainAdjust heater temp nernst c).target = 0
      ∧ (PumpThread.channel k pumpGainAdjust heater temp nernst c).channel.sensorDetector
          = SensorDetector.initial
      ∧ (PumpThread.channel k pumpGainAdjust heater temp nernst c).channel.state
          = c.state := by
  have h1 : ¬ (heater.IsRunningClosedLoop = true
      ∨ temp ≥ heater.GetTargetTemp - k.START_PUMP_TEMP_OFFSET) := by
    intro h
    rcases h with h | h
    · apply hstate
      simpa [HeaterControllerBase.IsRunningClosedLoop] using h
    · unfold HeaterControllerBase.GetTargetTemp at h
      linarith
  have h2 : ¬ (temp ≥ heater.GetTargetTemp - k.START_SENSOR_DETECTION_TEMP_OFFSET) := by
    unfold HeaterControllerBase.GetTargetTemp
    linarith
  unfold PumpThread.channel
  rw [if_neg h1, if_neg h2]
  exact ⟨rfl, rfl, rfl⟩

/-- C36 for the controller of test_heater.cpp (Preheat, target 780 °C) at 500 °C with
the offsets 200 °C and 250 °C: the command is 0 and a detector in mid-cycle is back in
its initial state. -/
theorem C36_pump_cold_witness :
    (PumpThread.channel samplePumpConfig 1 dut 500 (9 / 20) busyPumpChannel).target = 0
      ∧ (PumpThread.channel samplePumpConfig 1 dut 500 (9 / 20)
          busyPumpChannel).channel.sensorDetector = SensorDetector.initial
      ∧ (PumpThread.channel samplePumpConfig 1 dut 500 (9 / 20) busyPumpChannel).channel.state
          = busyPumpChannel.state :=
  C36_pump_cold samplePumpConfig 1 dut 500 (9 / 20) busyPumpChannel
    (by simp [dut, HeaterControllerBase.Configure, HeaterControllerBase.init])
    (by norm_num [dut, HeaterControllerBase.Configure, HeaterControllerBase.init,
      samplePumpConfig])
    (by norm_num [dut, HeaterControllerBase.Configure, HeaterControllerBase.init,
      samplePumpConfig])

/-! ## The sensor detector -/

theorem feed_hi (d : SensorDetector) (x : ℚ) (h0 : 0 ≤ d.cycle) (h1 : d.cycle < 25) :
    (d.feed x).detector = { d with nernstHi := x, cycle := d.cycle + 1 }
      ∧ (d.feed x).target = 1000 := by
  have hinc : incrCycle d.cycle = d.cycle + 1 := by
    unfold incrCycle
    omega
  unfold SensorDetector.feed
  simp only [if_pos h1, hinc]
  rw [if_neg (by omega)]
  exact ⟨rfl, by norm_num⟩

theorem feed_lo (d : SensorDetector) (x : ℚ) (h0 : 25 ≤ d.cycle) (h1 : d.cycle < 49) :
    (d.feed x).detector = { d with nernstLo := x, cycle := d.cycle + 1 }
      ∧ (d.feed x).target = -1000 := by
  have hinc : incrCycle d.cycle = d.cycle + 1 := by
    unfold incrCycle
    omega
  have hnot : ¬ d.cycle < 25 := by omega
  unfold SensorDetector.feed
  simp only [if_neg hnot, hinc]
  rw [if_neg (by omega)]
  exact ⟨rfl, by norm_num⟩

theorem feed_last (d : SensorDetector) (x : ℚ) (h : d.cycle = 49) :
    (d.feed x).detector =
        { d with
          nernstLo := x
          cycle := 0
          counter := incrCycle d.counter
          maxAmplitude :=
            if f_abs (d.nernstHi - x) > d.maxAmplitude then f_abs (d.nernstHi - x)
            else d.maxAmplitude }
      ∧ (d.feed x).target = -1000 := by
  have hinc : incrCycle d.cycle = 50 := by
    unfold incrCycle
    omega
  have hnot : ¬ d.cycle < 25 := by omega
  unfold SensorDetector.feed
  simp only [if_neg hnot, hinc]
  rw [if_pos (by norm_num)]
  constructor
  · split_ifs <;> rfl
  · norm_num

theorem afterFeeds_succ (d : SensorDetector) (s : Nat → ℚ) (n : Nat) :
    d.afterFeeds s (n + 1) = ((d.afterFeeds s n).feed (s n)).detector :=
  rfl

theorem afterFeeds_add (d : SensorDetector) (s : Nat → ℚ) (m r : Nat) :
    d.afterFeeds s (m + r) = (d.afterFeeds s m).afterFeeds (fun i => s (m + i)) r := by
  induction r with
  | zero => rfl
  | succ r ih =>
    rw [← Nat.add_assoc, afterFeeds_succ, afterFeeds_succ, ih]

theorem afterFeeds_hi (d : SensorDetector) (s : Nat → ℚ) (hd : d.cycle = 0) (r : Nat)
    (hr : r ≤ 25) :
    (d.afterFeeds s r).cycle = r
      ∧ (d.afterFeeds s r).maxAmplitude = d.maxAmplitude
      ∧ (0 < r → (d.afterFeeds s r).nernstHi = s (r - 1)) := by
  induction r with
  | zero => exact ⟨by simpa using hd, rfl, fun h => absurd h (by omega)⟩
  | succ r ih =>
    obtain ⟨hc, hm, _⟩ := ih (by omega)
    rw [afterFeeds_succ, (feed_hi (d.afterFeeds s r) (s r) (by omega) (by omega)).1]
    refine ⟨?_, hm, fun _ => ?_⟩
    · show (d.afterFeeds s r).cycle + 1 = _
      rw [hc]
      push_cast
      rfl
    · simp

theorem afterFeeds_lo (d : SensorDetector) (s : Nat → ℚ) (hd : d.cycle = 0) (r : Nat)
    (hr0 : 25 ≤ r) (hr : r ≤ 49) :
    (d.afterFeeds s r).cycle = r
      ∧ (d.afterFeeds s r).maxAmplitude = d.maxAmplitude
      ∧ (d.afterFeeds s r).nernstHi = s 24 := by
  induction r with
  | zero => omega
  | succ r ih =>
    by_cases h25 : r + 1 = 25
    · have hr25 : r = 24 := by omega
      subst hr25
      have h := afterFeeds_hi d s hd 25 (by omega)
      exact ⟨h.1, h.2.1, h.2.2 (by omega)⟩
    · obtain ⟨hc, hm, hh⟩ := ih (by omega) (by omega)
      rw [afterFeeds_succ, (feed_lo (d.afterFeeds s r) (s r) (by omega) (by omega)).1]
      refine ⟨?_, hm, hh⟩
      show (d.afterFeeds s r).cycle + 1 = _
      rw [hc]
      push_cast
      rfl

theorem afterFeeds_cycle (d : SensorDetector) (s : Nat → ℚ) (hd : d.cycle = 0) :
    (d.afterFeeds s 50).cycle = 0
      ∧ (d.afterFeeds s 50).nernstHi = s 24
      ∧ (d.afterFeeds s 50).nernstLo = s 49
      ∧ (d.afterFeeds s 50).maxAmplitude =
          if f_abs (s 24 - s 49) > d.maxAmplitude then f_abs (s 24 - s 49)
          else d.maxAmplitude := by
  obtain ⟨hc, hm, hh⟩ := afterFeeds_lo d s hd 49 (by omega) (by omega)
  have e : d.afterFeeds s 50 = ((d.afterFeeds s 49).feed (s 49)).detector :=
    afterFeeds_succ d s 49
  rw [e, (feed_last (d.afterFeeds s 49) (s 49) (by simpa using hc)).1]
  dsimp only
  rw [hh, hm]
  exact ⟨rfl, rfl, rfl, rfl⟩

theorem f_abs_eq (x : ℚ) : f_abs x = |x| := by
  unfold f_abs
  split_ifs with h
  · exact (abs_of_pos h).symm
  · exact (abs_of_nonpos (not_lt.mp h)).symm

theorem afterFeeds_boundary (d : SensorDetector) (s : Nat → ℚ) (hd : d.cycle = 0) (k : Nat) :
    (d.afterFeeds s (50 * k)).cycle = 0 := by
  induction k with
  | zero => exact hd
  | succ k ih =>
    have e : 50 * (k + 1) = 50 * k + 50 := by ring
    rw [e, afterFeeds_add]
    exact (afterFeeds_cycle _ _ ih).1

theorem afterFeeds_complete (d : SensorDetector) (s : Nat → ℚ) (hd : d.cycle = 0) (k : Nat) :
    (d.afterFeeds s (50 * (k + 1))).nernstHi = s (50 * k + 24)
      ∧ (d.afterFeeds s (50 * (k + 1))).nernstLo = s (50 * k + 49)
      ∧ (d.afterFeeds s (50 * (k + 1))).maxAmplitude =
          if |s (50 * k + 24) - s (50 * k + 49)| > (d.afterFeeds s (50 * k)).maxAmplitude
          then |s (50 * k + 24) - s (50 * k + 49)|
          else (d.afterFeeds s (50 * k)).maxAmplitude := by
  have e : 50 * (k + 1) = 50 * k + 50 := by ring
  rw [e, afterFeeds_add]
  obtain ⟨_, h2, h3, h4⟩ :=
    afterFeeds_cycle (d.afterFeeds s (50 * k)) (fun i => s (50 * k + i))
      (afterFeeds_boundary d s hd k)
  rw [f_abs_eq] at h4
  exact ⟨h2, h3, h4⟩

theorem afterFeeds_within (d : SensorDetector) (s : Nat → ℚ) (hd : d.cycle = 0) (k r : Nat)
    (hr : r < 50) :
    (d.afterFeeds s (50 * k + r)).cycle = r
      ∧ (d.afterFeeds s (50 * k + r)).maxAmplitude
          = (d.afterFeeds s (50 * k)).maxAmplitude := by
  rw [afterFeeds_add]
  by_cases h25 : r ≤ 25
  · have h := afterFeeds_hi (d.afterFeeds s (50 * k)) (fun i => s (50 * k + i))
      (afterFeeds_boundary d s hd k) r h25
    exact ⟨h.1, h.2.1⟩
  · have h := afterFeeds_lo (d.afterFeeds s (50 * k)) (fun i => s (50 * k + i))
      (afterFeeds_boundary d s hd k) r (by omega) (by omega)
    exact ⟨h.1, h.2.1⟩

theorem afterFeeds_cycle_mod (d : SensorDetector) (s : Nat → ℚ) (hd : d.cycle = 0) (n : Nat) :
    (d.afterFeeds s n).cycle = ((n % 50 : Nat) : Int) := by
  have h := (afterFeeds_within d s hd (n / 50) (n % 50) (Nat.mod_lt n (by norm_num))).1
  rw [Nat.div_add_mod] at h
  exact h

theorem afterFeeds_mono (d : SensorDetector) (s : Nat → ℚ) (hd : d.cycle = 0) (n : Nat) :
    (d.afterFeeds s n).maxAmplitude ≤ (d.afterFeeds s (n + 1)).maxAmplitude := by
  have hn : n = 50 * (n / 50) + n % 50 := (Nat.div_add_mod n 50).symm
  have hlt : n % 50 < 50 := Nat.mod_lt n (by norm_num)
  have h1 := (afterFeeds_within d s hd (n / 50) (n % 50) hlt).2
  rw [← hn] at h1
  by_cases h49 : n % 50 = 49
  · have e : n + 1 = 50 * (n / 50 + 1) := by omega
    rw [e, (afterFeeds_complete d s hd (n / 50)).2.2, h1]
    split_ifs with h
    · exact le_of_lt h
    · exact le_refl _
  · have h2 := (afterFeeds_within d s hd (n / 50) (n % 50 + 1) (by omega)).2
    have e : n + 1 = 50 * (n / 50) + (n % 50 + 1) := by omega
    rw [e, h2, ← h1]

theorem afterFeeds_peak (d : SensorDetector) (s : Nat → ℚ) (hd : d.cycle = 0)
    (hm : d.maxAmplitude = 0) (k : Nat) :
    (∀ j, j ≤ k →
        |s (50 * j + 24) - s (50 * j + 49)| ≤ (d.afterFeeds s (50 * (k + 1))).maxAmplitude)
      ∧ (∃ j, j ≤ k ∧
        (d.afterFeeds s (50 * (k + 1))).maxAmplitude = |s (50 * j + 24) - s (50 * j + 49)|) := by
  induction k with
  | zero =>
    have h := (afterFeeds_complete d s hd 0).2.2
    have h0 : (d.afterFeeds s (50 * 0)).maxAmplitude = 0 := hm
    rw [h0] at h
    have hval : (d.afterFeeds s (50 * (0 + 1))).maxAmplitude
        = |s (50 * 0 + 24) - s (50 * 0 + 49)| := by
      rw [h]
      split_ifs with hgt
      · rfl
      · exact le_antisymm (abs_nonneg _) (not_lt.mp hgt)
    refine ⟨fun j hj => ?_, 0, le_refl 0, hval⟩
    have hj0 : j = 0 := by omega
    subst hj0
    rw [hval]
  | succ k ih =>
    obtain ⟨hall, jmax, hjmax, heq⟩ := ih
    have h := (afterFeeds_complete d s hd (k + 1)).2.2
    by_cases hgt : |s (50 * (k + 1) + 24) - s (50 * (k + 1) + 49)|
        > (d.afterFeeds s (50 * (k + 1))).maxAmplitude
    · rw [if_pos hgt] at h
      refine ⟨fun j hj => ?_, k + 1, le_refl _, h⟩
      rw [h]
      by_cases hjk : j = k + 1
      · subst hjk
        exact le_refl _
      · exact le_trans (hall j (by omega)) (le_of_lt hgt)
    · rw [if_neg hgt] at h
      refine ⟨fun j hj => ?_, jmax, by omega, h.trans heq⟩
      rw [h]
      by_cases hjk : j = k + 1
      · subst hjk
        exact not_lt.mp hgt
      · exact hall j (by omega)

/-- C37: starting from a reset `SensorDetector`, call number n of `feed` (n = 0, 1, 2, …)
commands +1000 µA when n mod 50 < 25 and -1000 µA otherwise; before every call the cycle
index is n mod 50, so it stays in 0..49; when cycle number k (from 0) is complete the
detector holds the Nernst voltages of calls 50k + 24 and 50k + 49 as `nernstHi` and
`nernstLo`, and its maximum amplitude is the largest |`nernstHi` − `nernstLo`| over the
cycles 0..k; and the maximum amplitude never decreases from one call to the next. -/
theorem C37_sensor_detector (d : SensorDetector) (s : Nat → ℚ) :
    (∀ n, ((d.reset.afterFeeds s n).feed (s n)).target
        = if n % 50 < 25 then 1000 else -1000)
      ∧ (∀ n, (d.reset.afterFeeds s n).cycle = ((n % 50 : Nat) : Int)
          ∧ 0 ≤ (d.reset.afterFeeds s n).cycle ∧ (d.reset.afterFeeds s n).cycle ≤ 49)
      ∧ (∀ k, (d.reset.afterFeeds s (50 * (k + 1))).nernstHi = s (50 * k + 24)
          ∧ (d.reset.afterFeeds s (50 * (k + 1))).nernstLo = s (50 * k + 49)
          ∧ (∀ j, j ≤ k → |s (50 * j + 24) - s (50 * j + 49)|
              ≤ (d.reset.afterFeeds s (50 * (k + 1))).maxAmplitude)
          ∧ (∃ j, j ≤ k ∧ (d.reset.afterFeeds s (50 * (k + 1))).maxAmplitude
              = |s (50 * j + 24) - s (50 * j + 49)|))
      ∧ (∀ n, (d.reset.afterFeeds s n).maxAmplitude
          ≤ (d.reset.afterFeeds s (n + 1)).maxAmplitude) := by
  have hd : d.reset.cycle = 0 := rfl
  have hm : d.reset.maxAmplitude = 0 := rfl
  refine ⟨fun n => ?_, fun n => ?_, fun k => ?_, fun n => afterFeeds_mono d.reset s hd n⟩
  · have hc := afterFeeds_cycle_mod d.reset s hd n
    have hlt : n % 50 < 50 := Nat.mod_lt n (by norm_num)
    by_cases h25 : n % 50 < 25
    · rw [if_pos h25]
      exact (feed_hi _ (s n) (by omega) (by omega)).2
    · rw [if_neg h25]
      by_cases h49 : n % 50 = 49
      · exact (feed_last _ (s n) (by omega)).2
      · exact (feed_lo _ (s n) (by omega) (by omega)).2
  · have hc := afterFeeds_cycle_mod d.reset s hd n
    have hlt : n % 50 < 50 := Nat.mod_lt n (by norm_num)
    exact ⟨hc, by omega, by omega⟩
  · obtain ⟨h1, h2, _⟩ := afterFeeds_complete d.reset s hd k
    obtain ⟨h3, h4⟩ := afterFeeds_peak d.reset s hd hm k
    exact ⟨h1, h2, h3, h4⟩

/-- C37 on a Nernst voltage of 0.5 V in the first and 0.4 V in the second half of
every cycle, from a detector that was in mid-cycle before its reset: call 0 commands
+1000 µA, call 25 commands -1000 µA, and after the first 50 calls the cycle index is 0
and the maximum amplitude is 0.1 V. -/
theorem C37_sensor_detector_witness :
    ((busyPumpChannel.sensorDetector.reset.afterFeeds squareNernst 0).feed
        (squareNernst 0)).target = 1000
      ∧ ((busyPumpChannel.sensorDetector.reset.afterFeeds squareNernst 25).feed
        (squareNernst 25)).target = -1000
      ∧ (busyPumpChannel.sensorDetector.reset.afterFeeds squareNernst 50).cycle = 0
      ∧ (busyPumpChannel.sensorDetector.reset.afterFeeds squareNernst 50).maxAmplitude
        = 1 / 10 := by
  have h := C37_sensor_detector busyPumpChannel.sensorDetector squareNernst
  obtain ⟨j, hj, hmax⟩ := (h.2.2.1 0).2.2.2
  have hj0 : j = 0 := by omega
  subst hj0
  refine ⟨(h.1 0).trans (if_pos (by decide)), (h.1 25).trans (if_neg (by decide)),
    (h.2.1 50).1, ?_⟩
  have e : (50 * (0 + 1) : Nat) = 50 := rfl
  rw [e] at hmax
  rw [hmax]
  norm_num [squareNernst]

/-! ## No command over CAN and a supply at or below the on threshold -/

theorem GetNextState_unknown_not_high (b : BoardConfig) (c : HeaterControllerBase)
    (now : Int) (s : HeaterState) (v t : ℚ) (hv : v ≤ c.m_configuration.onVoltage) :
    c.GetNextState b now s HeaterAllow.Unknown v t =
      { state := HeaterState.Preheat
        ctrl :=
          if v < c.m_configuration.offVoltage then
            { c with
              m_heaterStableTimer := Timer.reset now
              m_preheatTimer := Timer.reset now }
          else { c with m_preheatTimer := Timer.reset now }
        status := some Status.Preheat } := by
  have hon : ¬ v > c.m_configuration.onVoltage := not_lt.mpr hv
  by_cases hoff : v < c.m_configuration.offVoltage
  · simp [HeaterControllerBase.GetNextState, hoff]
  · simp [HeaterControllerBase.GetNextState, hoff, hon]

/-- C38: with `heater_allow` Unknown and a supply voltage that is not above
`HeaterSupplyOnVoltage` (below the off threshold, or in the band from the off to the on
threshold), `GetNextState` returns Preheat from every current state and restarts the
preheat timer at the current time; it restarts the heater-stable timer as well when the
supply is below the off threshold, changes nothing else and reports the status Preheat.
The heater state after an `Update` with these inputs is Preheat, whatever it was. -/
theorem C38_unknown_forces_preheat (b : BoardConfig) (c : HeaterControllerBase) (now : Int)
    (s : HeaterState) (esr v t : ℚ) (hv : v ≤ c.m_configuration.onVoltage) :
    (c.GetNextState b now s HeaterAllow.Unknown v t).state = HeaterState.Preheat
      ∧ (c.GetNextState b now s HeaterAllow.Unknown v t).ctrl.m_preheatTimer
          = Timer.reset now
      ∧ (c.GetNextState b now s HeaterAllow.Unknown v t).ctrl =
          (if v < c.m_configuration.offVoltage then
            { c with
              m_heaterStableTimer := Timer.reset now
              m_preheatTimer := Timer.reset now }
          else { c with m_preheatTimer := Timer.reset now })
      ∧ (c.GetNextState b now s HeaterAllow.Unknown v t).status = some Status.Preheat
      ∧ (c.Update b now esr t HeaterAllow.Unknown v).ctrl.heaterState
          = HeaterState.Preheat := by
  rw [Update_heaterState, GetNextState_unknown_not_high b c now s v t hv,
    GetNextState_unknown_not_high b c now c.heaterState v t hv]
  refine ⟨rfl, ?_, rfl, rfl, rfl⟩
  split_ifs <;> rfl

/-- C38 on the test controller (thresholds 6.0 V and 11.0 V) running in closed loop: at
8 V, inside the band, with no command over CAN, `GetNextState` returns Preheat and the
heater state after `Update` is Preheat. -/
theorem C38_unknown_forces_preheat_witness :
    (dutRunning.GetNextState testBoard 1000 HeaterState.ClosedLoop HeaterAllow.Unknown 8
        780).state = HeaterState.Preheat
      ∧ (dutRunning.GetNextState testBoard 1000 HeaterState.ClosedLoop HeaterAllow.Unknown 8
        780).ctrl.m_preheatTimer = Timer.reset 1000
      ∧ (dutRunning.Update testBoard 1000 300 780 HeaterAllow.Unknown 8).ctrl.heaterState
        = HeaterState.Preheat :=
  have h := C38_unknown_forces_preheat testBoard dutRunning 1000 HeaterState.ClosedLoop 300 8
    780
    (by norm_num [dutRunning, dut, HeaterControllerBase.Configure, mockConfig,
      HeaterConfig.onVoltage, getValue_mock_off, getValue_mock_on,
      getValue_mock_preheat])
  ⟨h.1, h.2.1, h.2.2.2.2⟩

/-! ## The tick after a retry -/

theorem hasElapsedSec_mono (t : Timer) (now later : Int) (seconds : ℚ) (h : now ≤ later)
    (he : t.hasElapsedSec now seconds = true) : t.hasElapsedSec later seconds = true := by
  simp only [Timer.hasElapsedSec, decide_eq_true_eq] at he ⊢
  have hq : ((now - t.lastReset : Int) : ℚ) ≤ ((later - t.lastReset : Int) : ℚ) := by
    exact_mod_cast (by omega : now - t.lastReset ≤ later - t.lastReset)
  linarith

theorem nextStateAllowed_preheat_elapsed (b : BoardConfig) (c : HeaterControllerBase)
    (now : Int) (t : ℚ)
    (he : c.m_preheatTimer.hasElapsedSec now c.m_configuration.preheatTime = true) :
    (c.nextStateAllowed b now HeaterState.Preheat t).state = HeaterState.WarmupRamp := by
  simp only [HeaterControllerBase.nextStateAllowed, he, true_or, if_true]
  split_ifs <;> rfl

theorem GetNextState_retry (b : BoardConfig) (c : HeaterControllerBase) (now : Int)
    (v t : ℚ)
    (hretry : c.m_retryTime ≠ 0 ∧ c.m_retryTimer.hasElapsedSec now (c.m_retryTime : ℚ) = true) :
    c.GetNextState b now HeaterState.Stopped HeaterAllow.Allowed v t =
      { state := HeaterState.Preheat, ctrl := c, status := none } := by
  rw [GetNextState_allowed, nextStateAllowed_stopped, if_pos hretry]

/-- C39: the retry transition of `GetNextState` from Stopped to Preheat returns the
controller as it was, the preheat timer included. So when the preheat time has already
elapsed on that timer at the retry, a `GetNextState` call from Preheat with heating
allowed at that or any later time returns WarmupRamp; and a heater in Stopped whose
retry is due is in Preheat after that `Update` and in WarmupRamp after the next one. -/
theorem C39_retry_skips_preheat (b : BoardConfig) (c : HeaterControllerBase)
    (now later : Int) (esr v t esr' v' t' : ℚ) (hstopped : c.heaterState = HeaterState.Stopped)
    (hretry : c.m_retryTime ≠ 0 ∧ c.m_retryTimer.hasElapsedSec now (c.m_retryTime : ℚ) = true)
    (hpre : c.m_preheatTimer.hasElapsedSec now c.m_configuration.preheatTime = true)
    (hlater : now ≤ later) :
    (c.GetNextState b now HeaterState.Stopped HeaterAllow.Allowed v t).state
        = HeaterState.Preheat
      ∧ (c.GetNextState b now HeaterState.Stopped HeaterAllow.Allowed v t).ctrl = c
      ∧ (c.GetNextState b now HeaterState.Stopped HeaterAllow.Allowed v t).ctrl.m_preheatTimer
          = c.m_preheatTimer
      ∧ ((c.GetNextState b now HeaterState.Stopped HeaterAllow.Allowed v t).ctrl.GetNextState
          b later HeaterState.Preheat HeaterAllow.Allowed v' t').state
          = HeaterState.WarmupRamp
      ∧ (c.Update b now esr t HeaterAllow.Allowed v).ctrl.heaterState = HeaterState.Preheat
      ∧ ((c.Update b now esr t HeaterAllow.Allowed v).ctrl.Update b later esr' t'
          HeaterAllow.Allowed v').ctrl.heaterState = HeaterState.WarmupRamp := by
  have hnext := GetNextState_retry b c now v t hretry
  have hlaterPre := hasElapsedSec_mono c.m_preheatTimer now later _ hlater hpre
  have hupd : (c.Update b now esr t HeaterAllow.Allowed v).ctrl.heaterState
      = HeaterState.Preheat := by
    rw [Update_heaterState, hstopped, hnext]
  have hframe := Update_ctrl_frame b c now esr t HeaterAllow.Allowed v
  rw [hstopped, hnext] at hframe
  have htimer : (c.Update b now esr t HeaterAllow.Allowed v).ctrl.m_preheatTimer
      = c.m_preheatTimer := by
    rw [hframe]
  have hconf : (c.Update b now esr t HeaterAllow.Allowed v).ctrl.m_configuration
      = c.m_configuration := by
    rw [hframe]
  refine ⟨by rw [hnext], by rw [hnext], by rw [hnext], ?_, hupd, ?_⟩
  · rw [hnext, GetNextState_allowed]
    exact nextStateAllowed_preheat_elapsed b c later t' hlaterPre
  · rw [Update_heaterState, hupd, GetNextState_allowed]
    apply nextStateAllowed_preheat_elapsed
    rw [htimer, hconf]
    exact hlaterPre

/-- C39 on the test controller (preheat time 5 s, preheat timer reset at time 0) stopped
with a 30 s retry: the `Update` at 30 s leaves the heater in Preheat, the `Update` 1 ms
later leaves it in WarmupRamp. -/
theorem C39_retry_skips_preheat_witness :
    (dutStopped.Update testBoard 30000000 300 500 HeaterAllow.Allowed 12).ctrl.heaterState
        = HeaterState.Preheat
      ∧ ((dutStopped.Update testBoard 30000000 300 500 HeaterAllow.Allowed 12).ctrl.Update
          testBoard 30001000 300 500 HeaterAllow.Allowed 12).ctrl.heaterState
        = HeaterState.WarmupRamp :=
  have h := C39_retry_skips_preheat testBoard dutStopped 30000000 30001000 300 12 500 300 12
    500 rfl
    (by
      constructor
      · decide
      · norm_num [Timer.hasElapsedSec, dutStopped])
    (by norm_num [Timer.hasElapsedSec, dutStopped, dut, HeaterControllerBase.Configure,
      Timer.reset, mockConfig, HeaterConfig.preheatTime, getValue_mock_off, getValue_mock_on,
      getValue_mock_preheat])
    (by decide)
  ⟨h.2.2.2.2.1, h.2.2.2.2.2⟩

/-! ## The heater gate over the received frames -/

theorem Process_rusefi_heaterAllow (ids : WidebandCan) (n : ChannelCounts)
    (frame : CANRxFrame) (st : RxState)
    (h : (ProcessRusefiCanMessage ids n frame st).state.statusData.heaterAllow
      = HeaterAllow.Unknown) :
    st.statusData.heaterAllow = HeaterAllow.Unknown := by
  unfold ProcessRusefiCanMessage at h
  split_ifs at h
  all_goals exact h

theorem linkSetIdxAt_statusData (frame : CANRxFrame) (r : RxResult) (i : Nat) :
    (linkSetIdxAt frame r i).state.statusData = r.state.statusData := by
  unfold linkSetIdxAt
  split_ifs <;> rfl

theorem linkSetIdx_statusData (frame : CANRxFrame) (r : RxResult) (count : Nat) :
    ((List.range count).foldl (linkSetIdxAt frame) r).state.statusData
      = r.state.statusData := by
  induction count with
  | zero => rfl
  | succ m ih =>
    rw [List.range_succ, List.foldl_append, List.foldl_cons, List.foldl_nil,
      linkSetIdxAt_statusData, ih]

theorem Process_link_heaterAllow (n : ChannelCounts) (frame : CANRxFrame) (st : RxState)
    (h : (ProcessLinkCanMessage n frame st).state.statusData.heaterAllow
      = HeaterAllow.Unknown) :
    st.statusData.heaterAllow = HeaterAllow.Unknown := by
  unfold ProcessLinkCanMessage at h
  split_ifs at h
  all_goals first
    | exact h
    | (rw [linkSetIdx_statusData] at h; exact h)

theorem CanRxThread_frame_heaterAllow (ids : WidebandCan) (n : ChannelCounts)
    (frame : CANRxFrame) (st : RxState)
    (h : (CanRxThread.frame ids n frame st).state.statusData.heaterAllow
      = HeaterAllow.Unknown) :
    st.statusData.heaterAllow = HeaterAllow.Unknown := by
  unfold CanRxThread.frame at h
  simp only [] at h
  split_ifs at h
  · exact Process_rusefi_heaterAllow ids n frame st h
  · exact Process_rusefi_heaterAllow ids n frame st
      (Process_link_heaterAllow n frame _ h)

theorem CanRxThread_run_heaterAllow (ids : WidebandCan) (n : ChannelCounts)
    (frames : List CANRxFrame) (st : RxState)
    (h : (CanRxThread.run ids n frames st).state.statusData.heaterAllow
      = HeaterAllow.Unknown) :
    st.statusData.heaterAllow = HeaterAllow.Unknown := by
  induction frames generalizing st with
  | nil => exact h
  | cons frame frames ih =>
    unfold CanRxThread.run at h
    simp only [] at h
    split_ifs at h
    · exact CanRxThread_frame_heaterAllow ids n frame st h
    · exact CanRxThread_frame_heaterAllow ids n frame st (ih _ h)

theorem CanRxThread_run_append (ids : WidebandCan) (n : ChannelCounts)
    (frames more : List CANRxFrame) (st : RxState)
    (hrun : (CanRxThread.run ids n frames st).effects.any RxEffect.isReset = false) :
    (CanRxThread.run ids n (frames ++ more) st).state
      = (CanRxThread.run ids n more (CanRxThread.run ids n frames st).state).state := by
  induction frames generalizing st with
  | nil => rfl
  | cons frame frames ih =>
    unfold CanRxThread.run at hrun
    simp only [] at hrun
    rw [List.cons_append]
    conv_lhs => unfold CanRxThread.run
    conv_rhs => rw [CanRxThread.run]
    simp only []
    by_cases hr : (CanRxThread.frame ids n frame st).effects.any RxEffect.isReset = true
    · rw [if_pos hr] at hrun
      rw [hr] at hrun
      exact absurd hrun (by simp)
    · rw [if_neg hr] at hrun ⊢
      rw [if_neg hr]
      simp only [List.any_append, Bool.or_eq_false_iff] at hrun
      exact ih _ hrun.2

theorem Process_rusefi_standard (ids : WidebandCan) (n : ChannelCounts) (frame : CANRxFrame)
    (st : RxState) (hext : frame.EXT = false) :
    ProcessRusefiCanMessage ids n frame st = { state := st, effects := [] } := by
  unfold ProcessRusefiCanMessage
  rw [if_pos (by simp [hext])]

theorem Process_link_standard (n : ChannelCounts) (frame : CANRxFrame) (st : RxState)
    (hext : frame.EXT = false) :
    ProcessLinkCanMessage n frame st = { state := st, effects := [] } := by
  unfold ProcessLinkCanMessage
  rw [if_pos (by simp [hext])]

/-- C40: no receive handler writes `heater_allow` = Unknown. Whenever `heater_allow` is
Unknown after `ProcessRusefiCanMessage`, after `ProcessLinkCanMessage`, or after the
receive loop has handled any sequence of frames, it was Unknown before; so once it is
Allowed or NotAllowed after some frames it is not Unknown after any further frames. A
frame that is not extended leaves the CAN status, the configuration and the pump gain as
they were and has no effect. -/
theorem C40_heater_allow_known (ids : WidebandCan) (n : ChannelCounts) :
    (∀ (frame : CANRxFrame) (st : RxState),
        ((ProcessRusefiCanMessage ids n frame st).state.statusData.heaterAllow
            = HeaterAllow.Unknown → st.statusData.heaterAllow = HeaterAllow.Unknown)
          ∧ ((ProcessLinkCanMessage n frame st).state.statusData.heaterAllow
            = HeaterAllow.Unknown → st.statusData.heaterAllow = HeaterAllow.Unknown))
      ∧ (∀ (frames : List CANRxFrame) (st : RxState),
        st.statusData.heaterAllow ≠ HeaterAllow.Unknown →
          (CanRxThread.run ids n frames st).state.statusData.heaterAllow
            ≠ HeaterAllow.Unknown)
      ∧ (∀ (frames more : List CANRxFrame) (st : RxState),
        (CanRxThread.run ids n frames st).effects.any RxEffect.isReset = false →
          (CanRxThread.run ids n frames st).state.statusData.heaterAllow
            ≠ HeaterAllow.Unknown →
          (CanRxThread.run ids n (frames ++ more) st).state.statusData.heaterAllow
            ≠ HeaterAllow.Unknown)
      ∧ (∀ (frame : CANRxFrame) (st : RxState), frame.EXT = false →
        CanRxThread.frame ids n frame st = { state := st, effects := [] }) := by
  refine ⟨fun frame st => ⟨Process_rusefi_heaterAllow ids n frame st,
      Process_link_heaterAllow n frame st⟩,
    fun frames st hst h => hst (CanRxThread_run_heaterAllow ids n frames st h),
    fun frames more st hrun hknown h => ?_, fun frame st hext => ?_⟩
  · rw [CanRxThread_run_append ids n frames more st hrun] at h
    exact hknown (CanRxThread_run_heaterAllow ids n more _ h)
  · unfold CanRxThread.frame
    simp only [Process_rusefi_standard ids n frame st hext,
      Process_link_standard n frame st hext]
    rfl

/-- C40 on four frames from start-up: an ECU-status frame that allows heating, a LinkEcu
status frame at 200 rpm, a set-index frame and a standard frame; the gate after all of
them is not Unknown, and the standard frame by itself changes nothing. -/
theorem C40_heater_allow_known_witness :
    (CanRxThread.run sampleIds twoChannels
        ([ecuStatusFrame 2 140 1 0] ++ [linkStatusFrame 0 200, setIndexFrame 4, standardFrame])
        sampleRxState).state.statusData.heaterAllow ≠ HeaterAllow.Unknown
      ∧ CanRxThread.frame sampleIds twoChannels standardFrame sampleRxState
        = { state := sampleRxState, effects := [] } := by
  have h := C40_heater_allow_known sampleIds twoChannels
  refine ⟨h.2.2.1 [ecuStatusFrame 2 140 1 0]
      [linkStatusFrame 0 200, setIndexFrame 4, standardFrame] sampleRxState ?_ ?_,
    h.2.2.2 standardFrame sampleRxState rfl⟩
  · simp [CanRxThread.run, CanRxThread.frame, ProcessRusefiCanMessage, ProcessLinkCanMessage,
      ecuStatusFrame, sampleIds, RxEffect.isReset]
  · simp [CanRxThread.run, CanRxThread.frame, ProcessRusefiCanMessage, ProcessLinkCanMessage,
      ecuStatusFrame, sampleIds, RxEffect.isReset, LINKECU_L2C_IN_BASE_ID,
      LINKECU_L2C_SET_IDX_ID]

end Wideband
